import Mathlib

/-!
# ParkingDashboardMobile: the ESP32 data processor, the bridge, the consumer hook

A shallow embedding of `src/mqtt-simulator/esp32-data-processor.js`, of
`forwardToWebSockets` and the subscriptions of `src/mqtt-simulator/ws-bridge.js`,
of the hook of `src/hooks/useMqttWebSocket.ts` and of the raw-frame path of
`src/hooks/useMqttWebSocket_backup.ts`, and the statements checked against
them.

Conventions of the embedding

* A JavaScript string is a `List Char` (`Str`).  All the characters the code
  inspects (`O`, `C`, `B`, `A`, `R`, `:`, `;`, digits, white space) lie in the
  basic plane, so code points and UTF-16 code units agree on them.
* A JavaScript number that the code only compares with small integers is an
  `Int`; `NaN` is `none` of an `Option`.
* Module-level `let` bindings (`parkingSpaces`, `gateStatus`, `systemStats`,
  `hourlyOccupancy`, `dailyData`) are the fields of `State`; every function
  takes the state and returns the new one.
* `Math.random()` and `new Date()` read an environment `Env`; the state counts
  the reads so that successive reads may differ.
* `client.publish` appends to `State.published`; the console lines that report
  an outcome append to `State.console`.  Other console output is not modelled,
  but a clock read made for a log line counts as a read.
* A JavaScript number with a fraction is the rational it denotes.  The
  arithmetic on such numbers (`Double.add`, `Double.mul`, `Double.div`) rounds
  the exact result to the nearest double, ties to even, as IEEE 754 does;
  `Math.floor` and `Math.round` are exact.  Integers below 2^53 are doubles,
  so counters are naturals.
* A handler or timer callback is an `Event`; `Reachable` lets the events come
  in any order, which covers every order the runtime can produce.
-/

namespace ParkingDashboard

/-! ## Strings -/

/-- A JavaScript string, as its list of characters. -/
abbrev Str := List Char

/-- `String.prototype.split(sep)` for a one-character separator: the pieces
    between the separators, one more than there are separators. -/
def split (sep : Char) : Str → List Str
  | [] => [[]]
  | c :: cs =>
    if c = sep then [] :: split sep cs
    else
      match split sep cs with
      | [] => [[c]]
      | t :: ts => (c :: t) :: ts

/-- The characters `trim` and `parseInt` skip: ECMAScript WhiteSpace and
    LineTerminator. -/
def isWhiteSpace (c : Char) : Bool :=
  let n := c.toNat
  n = 0x09 || n = 0x0A || n = 0x0B || n = 0x0C || n = 0x0D || n = 0x20 ||
  n = 0xA0 || n = 0x1680 || (0x2000 ≤ n && n ≤ 0x200A) || n = 0x2028 ||
  n = 0x2029 || n = 0x202F || n = 0x205F || n = 0x3000 || n = 0xFEFF

/-- `String.prototype.trim()`. -/
def trim (s : Str) : Str :=
  ((s.dropWhile isWhiteSpace).reverse.dropWhile isWhiteSpace).reverse

/-- `String.prototype.startsWith(p)`. -/
def startsWith (s p : Str) : Bool := p.isPrefixOf s

/-- `String.prototype.endsWith(p)`. -/
def endsWith (s p : Str) : Bool := p.isSuffixOf s

/-- `String.prototype.slice(start, stop)`: negative arguments count from the
    end, both are clamped to the string. -/
def slice (s : Str) (start stop : Int) : Str :=
  let len : Int := s.length
  let lo := if start < 0 then max (len + start) 0 else min start len
  let hi := if stop < 0 then max (len + stop) 0 else min stop len
  (s.take hi.toNat).drop lo.toNat

/-- The value of a character as a digit, letters counting from ten. -/
def digitValue (c : Char) : Option Nat :=
  let n := c.toNat
  if 48 ≤ n ∧ n ≤ 57 then some (n - 48)
  else if 97 ≤ n ∧ n ≤ 122 then some (n - 97 + 10)
  else if 65 ≤ n ∧ n ≤ 90 then some (n - 65 + 10)
  else none

/-- The value of a character as a digit of the given radix, if it is one. -/
def radixDigit (radix : Nat) (c : Char) : Option Nat :=
  match digitValue c with
  | some d => if d < radix then some d else none
  | none => none

/-- The longest prefix of radix digits, as their values. -/
def takeDigits (radix : Nat) : Str → List Nat
  | [] => []
  | c :: cs =>
    match radixDigit radix c with
    | some d => d :: takeDigits radix cs
    | none => []

/-- The number a list of digit values denotes. -/
def digitsValue (radix : Nat) (ds : List Nat) : Nat :=
  ds.foldl (fun acc d => acc * radix + d) 0

/-- The global `parseInt(string)` with no radix argument: leading white space
    is skipped, then an optional sign, then an optional `0x`/`0X` (radix 16,
    else radix 10), then the longest run of digits; no digit gives `NaN`
    (`none`).  The result is kept exact; the code only compares it with 1, 2
    and 3, where the rounding of large values to a double makes no difference,
    and `-0` is `0`. -/
def parseInt (s : Str) : Option Int :=
  let s1 := s.dropWhile isWhiteSpace
  let sign : Int := match s1 with
    | '-' :: _ => -1
    | _ => 1
  let s2 := match s1 with
    | '+' :: r => r
    | '-' :: r => r
    | r => r
  let (radix, s3) : Nat × Str := match s2 with
    | '0' :: 'x' :: r => (16, r)
    | '0' :: 'X' :: r => (16, r)
    | r => (10, r)
  let z := takeDigits radix s3
  if z.isEmpty then none else some (sign * (digitsValue radix z : Int))

/-! ## The occupancy decoder -/

/-- One decoded assignment `{ spaceId, isOccupied }`. -/
structure SpacePair where
  spaceId : Int
  isOccupied : Bool
  deriving DecidableEq, Repr

/-- `parseInt(pairs[i])`; an index outside the array reads `undefined`, which
    parses to `NaN`. -/
def parseIntAt (pairs : List Str) (i : Nat) : Option Int :=
  match pairs[i]? with
  | some t => parseInt t
  | none => none

/-- `a >= lo && a <= hi` on a number that may be `NaN` (every comparison with
    `NaN` is false). -/
def inRange (a : Option Int) (lo hi : Int) : Bool :=
  match a with
  | some v => decide (lo ≤ v) && decide (v ≤ hi)
  | none => false

/-- `a === k` on a number that may be `NaN`. -/
def numEq (a : Option Int) (k : Int) : Bool :=
  match a with
  | some v => decide (v = k)
  | none => false

/-- The `for (let i = 0; i < pairs.length - 1; i += 2)` loop of
    `extractSpacePairs`, from index `i` with the pairs pushed so far; `fuel`
    bounds the number of iterations. -/
def extractSpacePairsLoop (pairs : List Str) : Nat → Nat → List SpacePair → List SpacePair
  | 0, _, spacePairs => spacePairs
  | fuel + 1, i, spacePairs =>
    if (i : Int) < (pairs.length : Int) - 1 then
      let spaceId := parseIntAt pairs i
      let occupiedState := parseIntAt pairs (i + 1)
      match spaceId with
      | some id =>
        if inRange spaceId 1 3 then
          extractSpacePairsLoop pairs fuel (i + 2)
            (spacePairs ++ [{ spaceId := id, isOccupied := numEq occupiedState 1 }])
        else extractSpacePairsLoop pairs fuel (i + 2) spacePairs
      | none => extractSpacePairsLoop pairs fuel (i + 2) spacePairs
    else spacePairs

/-- `extractSpacePairs(dataSection)`.  The loop index grows by two, so
    `pairs.length` iterations are more than it can make. -/
def extractSpacePairs (dataSection : Str) : List SpacePair :=
  let pairs := split ':' dataSection
  extractSpacePairsLoop pairs pairs.length 0 []

/-- The assignment the specification gives pair `k` of a token list: tokens
    `2k` and `2k+1`, kept when the id token parses to an integer in 1..3. -/
def pairAssignment (tokens : List Str) (k : Nat) : Option SpacePair :=
  match parseIntAt tokens (2 * k) with
  | some id =>
    if 1 ≤ id ∧ id ≤ 3 then
      some { spaceId := id, isOccupied := decide (parseIntAt tokens (2 * k + 1) = some 1) }
    else none
  | none => none

/-- The decoder as the specification words it: one assignment per consecutive
    pair of tokens, in frame order, a trailing unpaired token left out. -/
def specSpacePairs (dataSection : Str) : List SpacePair :=
  let tokens := split ':' dataSection
  (List.range (tokens.length / 2)).filterMap (pairAssignment tokens)

/-! ## The environment -/

/-- A `Date`: the instant in milliseconds since the epoch and the hour of the
    day `getHours()` reports for it in the local time zone. -/
structure Date where
  ms : Nat
  hours : Fin 24
  deriving DecidableEq, Repr

/-- What the runtime supplies: the value of the `n`-th call of `Math.random()`
    and of the `n`-th read of the clock (`new Date()`, `Date.now()`). -/
structure Env where
  random : Nat → ℚ
  clock : Nat → Date

namespace Math

/-- `Math.floor`; it is exact on a double. -/
def floor (x : ℚ) : Int := Rat.floor x

/-- `Math.round`: the nearest integer, halves upwards; it is exact on a
    double. -/
def round (x : ℚ) : Int := Rat.floor (x + 1 / 2)

end Math

/-! ## Double-precision arithmetic -/

/-- The integer nearest to a rational, a tie going to the even one. -/
def roundHalfEven (q : ℚ) : Int :=
  let n := ⌊q⌋
  let f := q - n
  if f < 1 / 2 then n else if 1 / 2 < f then n + 1 else if n % 2 = 0 then n else n + 1

/-- The exponent of the spacing of the doubles around `x`: 52 below the
    binary exponent of `x`, and -1074 throughout the subnormal range. -/
def ulpExponent (x : ℚ) : Int := max (Int.log 2 |x|) (-1022) - 52

/-- The double an exact value is rounded to (to nearest, ties to even).  The
    range beyond the largest double is left out: no number of the program
    comes near it. -/
def toDouble (x : ℚ) : ℚ := roundHalfEven (x / 2 ^ ulpExponent x) * 2 ^ ulpExponent x

/-- Whether a rational is a double. -/
def IsDouble (x : ℚ) : Prop := toDouble x = x

instance (x : ℚ) : Decidable (IsDouble x) := by
  unfold IsDouble; infer_instance

namespace Double

/-- `a + b` on doubles. -/
def add (a b : ℚ) : ℚ := toDouble (a + b)

/-- `a * b` on doubles. -/
def mul (a b : ℚ) : ℚ := toDouble (a * b)

/-- `a / b` on doubles, for a divisor other than zero. -/
def div (a b : ℚ) : ℚ := toDouble (a / b)

end Double

/-! ## The store -/

/-- An element of `parkingSpaces`. -/
structure Space where
  id : Nat
  occupied : Bool
  distance : Int
  sensor : String
  lastChange : Date
  realData : Bool
  deriving DecidableEq, Repr

/-- The values `gateStatus.entry` and `gateStatus.exit` take. -/
inductive GatePhase where
  | closed
  | opening
  | «open»
  | closing
  deriving DecidableEq, Repr

/-- The keys of `gateStatus`. -/
inductive GateType where
  | entry
  | exit
  deriving DecidableEq, Repr

/-- The `gateStatus` object. -/
structure GateStatus where
  entry : GatePhase
  exit : GatePhase
  deriving DecidableEq, Repr

/-- `gateStatus[gateType]`. -/
def GateStatus.get (g : GateStatus) : GateType → GatePhase
  | .entry => g.entry
  | .exit => g.exit

/-- `gateStatus[gateType] = phase`. -/
def GateStatus.set (g : GateStatus) (t : GateType) (phase : GatePhase) : GateStatus :=
  match t with
  | .entry => { g with entry := phase }
  | .exit => { g with exit := phase }

/-- The `systemStats` object.  `averageOccupancyToday` is `none` when the
    division that computes it has no finite value. -/
structure SystemStats where
  dailyEntries : Nat
  totalVehiclesInside : Nat
  systemUptime : Nat
  lastEntry : Date
  lastExit : Date
  totalChangesToday : Nat
  peakOccupancy : Nat
  averageOccupancyToday : Option Int
  deriving DecidableEq, Repr

/-- An element of `hourlyOccupancy`; `timestamp` is the instant whose ISO
    rendering the code stores. -/
structure HourlyEntry where
  hour : String
  occupied : Nat
  available : Int
  timestamp : Nat
  dataSource : Option String
  deriving DecidableEq, Repr

/-- The `dailyData` object. -/
structure DailyData where
  startTime : Date
  totalOccupancyMinutes : Nat
  samples : Nat
  deriving DecidableEq, Repr

/-! ## What the processor publishes -/

/-- The payload of `publishSpaceUpdate`. -/
structure SpacePayload where
  occupied : Bool
  distance : Int
  sensor : String
  timestamp : Nat
  battery : ℚ
  change_detected : Bool
  data_source : String
  realData : Bool
  deriving DecidableEq

/-- The payload of a gate publication.  `publishGateUpdate` sets `action` and
    `data_source`, `publishGateStatus` sets `simulated` only,
    `simulateGateSequence` sets `action` and `simulated`. -/
structure GatePayload where
  status : GatePhase
  timestamp : Nat
  servo_angle : Nat
  action : Option String
  simulated : Option Bool
  data_source : Option String
  deriving DecidableEq

/-- The `stats` object of `publishSystemStats`.  `occupancyRate` is `none`
    when the division has no finite value (an empty `parkingSpaces`). -/
structure StatsPayload where
  totalSpaces : Nat
  occupiedSpaces : Nat
  availableSpaces : Int
  dailyEntries : Nat
  occupancyRate : Option Int
  systemUptime : Int
  lastEntry : Nat
  lastExit : Nat
  timestamp : Nat
  totalChangesToday : Nat
  peakOccupancy : Nat
  averageOccupancyToday : Option Int
  dataSource : String
  deriving DecidableEq

/-- A payload before `JSON.stringify`. -/
inductive Payload where
  | space (p : SpacePayload)
  | gate (p : GatePayload)
  | stats (p : StatsPayload)
  | hourly (entries : List HourlyEntry)
  deriving DecidableEq

/-- One call of `client.publish(topic, payload)`. -/
structure Message where
  topic : String
  payload : Payload
  deriving DecidableEq

/-- The console lines that report how a message was handled. -/
inductive ConsoleLine where
  /-- `⚠️ Formato de mensaje no reconocido:` of the message handler. -/
  | messageFormatNotRecognized (rawData : Str)
  /-- `⚠️  Formato de datos no reconocido:` of `parseESP32Data`. -/
  | dataFormatNotRecognized (rawData : Str)
  /-- `❌ Error procesando datos del ESP32:` of the handler's `catch`. -/
  | processingError (message : String)
  /-- `🔄 Datos recibidos sin cambios de estado`. -/
  | noStateChange
  deriving DecidableEq

/-- The stages of `simulateGateSequence` that run from a `setTimeout`. -/
inductive GateStage where
  | opened
  | closing
  | closed
  deriving DecidableEq, Repr

/-- A pending `setTimeout` of `simulateGateSequence`. -/
structure Timer where
  delay : Nat
  gateType : GateType
  stage : GateStage
  deriving DecidableEq, Repr

/-- The module state of the processor and what it has sent out so far. -/
structure State where
  parkingSpaces : List Space
  gateStatus : GateStatus
  systemStats : SystemStats
  hourlyOccupancy : List HourlyEntry
  dailyData : DailyData
  published : List Message
  console : List ConsoleLine
  timers : List Timer
  randomReads : Nat
  clockReads : Nat
  deriving DecidableEq

/-- `Math.random()`. -/
def random (env : Env) (s : State) : ℚ × State :=
  (env.random s.randomReads, { s with randomReads := s.randomReads + 1 })

/-- `new Date()`. -/
def newDate (env : Env) (s : State) : Date × State :=
  (env.clock s.clockReads, { s with clockReads := s.clockReads + 1 })

/-- `client.publish(topic, JSON.stringify(payload))`. -/
def publish (s : State) (topic : String) (payload : Payload) : State :=
  { s with published := s.published ++ [{ topic := topic, payload := payload }] }

/-- A reporting `console.log` / `console.error`. -/
def consoleLog (s : State) (line : ConsoleLine) : State :=
  { s with console := s.console ++ [line] }

/-- A thrown JavaScript error, with its message. -/
structure JsError where
  message : String
  deriving DecidableEq, Repr

/-- How a call ends: normally with a value, or by throwing; either way with
    the state the mutations made so far have reached. -/
inductive Completion (α : Type) where
  | normal (value : α) (state : State)
  | throw (error : JsError) (state : State)

/-- The state a call ends in. -/
def Completion.state {α : Type} : Completion α → State
  | .normal _ s => s
  | .throw _ s => s

/-- Whether a call ended by throwing. -/
def Completion.throws {α : Type} : Completion α → Bool
  | .normal _ _ => false
  | .throw _ _ => true

/-- The value of a call that ended normally. -/
def Completion.value? {α : Type} : Completion α → Option α
  | .normal v _ => some v
  | .throw _ _ => none

/-- `array[index]` for a number index: `undefined` (`none`) outside the array. -/
def arrayGet {α : Type} (xs : List α) (index : Int) : Option α :=
  if 0 ≤ index then xs[index.toNat]? else none

/-- The number of spaces with `occupied` set:
    `parkingSpaces.filter(s => s.occupied).length`. -/
def occupiedCount (spaces : List Space) : Nat :=
  (spaces.filter (fun space => space.occupied)).length

/-! ## Occupancy frames -/

/-- `isValidESP32Format(rawData)`. -/
def isValidESP32Format (rawData : Str) : Bool :=
  startsWith rawData "OCC:".toList && endsWith rawData ";".toList

/-- The object `processSpaceChange` returns on a change.  `space` is a
    reference to the element of `parkingSpaces`, kept as its index. -/
structure Change where
  spaceId : Int
  wasOccupied : Bool
  isOccupied : Bool
  space : Nat
  deriving DecidableEq, Repr

/-- `processSpaceChange(spaceId, isOccupied)`: `null` (`none`) without a
    change.  Reading `occupied` of an `undefined` space throws. -/
def processSpaceChange (env : Env) (s : State) (spaceId : Int) (isOccupied : Bool) :
    Completion (Option Change) :=
  let spaceIndex := spaceId - 1
  match arrayGet s.parkingSpaces spaceIndex with
  | none =>
    .throw { message := "Cannot read properties of undefined (reading 'occupied')" } s
  | some space =>
    let wasOccupied := space.occupied
    if wasOccupied = isOccupied then .normal none s
    else
      let (lastChange, s1) := newDate env s
      let (r, s2) := random env s1
      let distance :=
        if isOccupied then Math.floor (Double.add (Double.mul r 10) 5)
        else Math.floor (Double.add (Double.mul r 15) 25)
      let space1 : Space :=
        { space with occupied := isOccupied, lastChange := lastChange, distance := distance }
      .normal
        (some { spaceId := spaceId, wasOccupied := wasOccupied, isOccupied := isOccupied,
                space := spaceIndex.toNat })
        { s2 with parkingSpaces := s2.parkingSpaces.set spaceIndex.toNat space1 }

/-- The `spacePairs.forEach` of `parseESP32Data`: every pair goes through
    `processSpaceChange`, the changes are pushed onto `changes`. -/
def processSpacePairs (env : Env) :
    State → List SpacePair → List Change → Completion (List Change)
  | s, [], changes => .normal changes s
  | s, pair :: rest, changes =>
    match processSpaceChange env s pair.spaceId pair.isOccupied with
    | .throw e s1 => .throw e s1
    | .normal (some change) s1 => processSpacePairs env s1 rest (changes ++ [change])
    | .normal none s1 => processSpacePairs env s1 rest changes

/-- `publishSpaceUpdate(space)`. -/
def publishSpaceUpdate (env : Env) (s : State) (space : Space) : State :=
  let (r, s1) := random env s
  publish s1 ("parking/spaces/" ++ toString space.id ++ "/status")
    (.space
      { occupied := space.occupied, distance := space.distance, sensor := space.sensor,
        timestamp := space.lastChange.ms, battery := Double.add 85 (Double.mul r 10), change_detected := true,
        data_source := "ESP32_REAL", realData := space.realData })

/-- `updateStatsForChange(change)`. -/
def updateStatsForChange (env : Env) (s : State) (change : Change) : State :=
  let s1 :=
    if !change.wasOccupied && change.isOccupied then
      let (d, s0) := newDate env s
      { s0 with systemStats :=
          { s0.systemStats with dailyEntries := s0.systemStats.dailyEntries + 1, lastEntry := d } }
    else if change.wasOccupied && !change.isOccupied then
      let (d, s0) := newDate env s
      { s0 with systemStats := { s0.systemStats with lastExit := d } }
    else s
  let s2 : State :=
    { s1 with systemStats :=
        { s1.systemStats with totalVehiclesInside := occupiedCount s1.parkingSpaces } }
  if s2.systemStats.totalVehiclesInside > s2.systemStats.peakOccupancy then
    { s2 with systemStats :=
        { s2.systemStats with peakOccupancy := s2.systemStats.totalVehiclesInside } }
  else s2

/-- The `stats` object `publishSystemStats` builds; `now` is `Date.now()` and
    `timestamp` the `new Date()` read after it. -/
def systemStatsSnapshot (s : State) (now timestamp : Date) : StatsPayload :=
  let occupiedSpaces := occupiedCount s.parkingSpaces
  let availableSpaces : Int := (s.parkingSpaces.length : Int) - occupiedSpaces
  let occupancyRate : Option Int :=
    if s.parkingSpaces.length = 0 then none
    else
      some (Math.round
        (Double.mul (Double.div (occupiedSpaces : ℚ) (s.parkingSpaces.length : ℚ)) 100))
  { totalSpaces := s.parkingSpaces.length
    occupiedSpaces := occupiedSpaces
    availableSpaces := availableSpaces
    dailyEntries := s.systemStats.dailyEntries
    occupancyRate := occupancyRate
    systemUptime := ((now.ms : Int) - (s.systemStats.systemUptime : Int)) / 1000
    lastEntry := s.systemStats.lastEntry.ms
    lastExit := s.systemStats.lastExit.ms
    timestamp := timestamp.ms
    totalChangesToday := s.systemStats.totalChangesToday
    peakOccupancy := s.systemStats.peakOccupancy
    averageOccupancyToday := s.systemStats.averageOccupancyToday
    dataSource := "ESP32_REAL" }

/-- `publishSystemStats()`. -/
def publishSystemStats (env : Env) (s : State) : State :=
  let (now, s1) := newDate env s
  let (timestamp, s2) := newDate env s1
  publish s2 "parking/stats/summary" (.stats (systemStatsSnapshot s now timestamp))

/-- The body of `changes.forEach` in `parseESP32Data`: `change.space` is read
    through the reference, then `publishSpaceUpdate` and
    `updateStatsForChange`. -/
def publishChange (env : Env) (s : State) (change : Change) : State :=
  match s.parkingSpaces[change.space]? with
  | some space => updateStatsForChange env (publishSpaceUpdate env s space) change
  | none => updateStatsForChange env s change

/-- `parseESP32Data(rawData)`. -/
def parseESP32Data (env : Env) (s : State) (rawData : Str) : Completion Unit :=
  if !isValidESP32Format rawData then
    .normal () (consoleLog s (.dataFormatNotRecognized rawData))
  else
    let dataSection := slice rawData 4 (-1)
    let spacePairs := extractSpacePairs dataSection
    match processSpacePairs env s spacePairs [] with
    | .throw e s1 => .throw e s1
    | .normal changes s1 =>
      if changes.length > 0 then
        let s2 := changes.foldl (publishChange env) s1
        let s3 := publishSystemStats env s2
        .normal ()
          { s3 with systemStats :=
              { s3.systemStats with totalChangesToday := s3.systemStats.totalChangesToday + 1 } }
      else .normal () (consoleLog s1 .noStateChange)

/-- The `changes` array `parseESP32Data` has built when its first `forEach`
    is done (empty when the frame is refused, `none` when a pair throws). -/
def frameChanges (env : Env) (s : State) (rawData : Str) : Option (List Change) :=
  if !isValidESP32Format rawData then some []
  else (processSpacePairs env s (extractSpacePairs (slice rawData 4 (-1))) []).value?

/-! ## Barrier frames -/

/-- The key of a gate, as it appears in a topic. -/
def gateTypeName : GateType → String
  | .entry => "entry"
  | .exit => "exit"

/-- `publishGateUpdate(gateType, isOpen)`. -/
def publishGateUpdate (env : Env) (s : State) (gateType : GateType) (isOpen : Bool) : State :=
  let (d, s1) := newDate env s
  publish s1 ("parking/gates/" ++ gateTypeName gateType ++ "/status")
    (.gate
      { status := if isOpen then .open else .closed
        timestamp := d.ms
        servo_angle := if isOpen then 90 else 0
        action := some (if isOpen then "opening" else "closing")
        simulated := none
        data_source := some "ESP32_REAL" })

/-- The `for` loop of `parseBarrierData`, from index `i`; `fuel` bounds the
    number of iterations. -/
def parseBarrierDataLoop (env : Env) (pairs : List Str) : Nat → Nat → State → State
  | 0, _, s => s
  | fuel + 1, i, s =>
    if (i : Int) < (pairs.length : Int) - 1 then
      let barrierId := parseIntAt pairs i
      let barrierState := parseIntAt pairs (i + 1)
      if numEq barrierId 1 || numEq barrierId 2 then
        let gateType : GateType := if numEq barrierId 1 then .entry else .exit
        let isOpen := numEq barrierState 1
        let wasOpen := decide (s.gateStatus.get gateType = .open)
        let s1 : State :=
          { s with gateStatus := s.gateStatus.set gateType (if isOpen then .open else .closed) }
        let s2 := if wasOpen ≠ isOpen then publishGateUpdate env s1 gateType isOpen else s1
        parseBarrierDataLoop env pairs fuel (i + 2) s2
      else parseBarrierDataLoop env pairs fuel (i + 2) s
    else s

/-- `parseBarrierData(rawData)`. -/
def parseBarrierData (env : Env) (s : State) (rawData : Str) : State :=
  let dataSection := slice rawData 4 (-1)
  let pairs := split ':' dataSection
  parseBarrierDataLoop env pairs pairs.length 0 s

/-! ## The message handler -/

/-- The topics the handler accepts. -/
def isEsp32Topic (topic : String) : Bool :=
  topic = "esp32/data" || topic = "esp32/parking/occupancy" || topic = "parking/esp32/data"

/-- The `try` block of the message handler. -/
def handleRawData (env : Env) (s : State) (rawData : Str) : Completion Unit :=
  if startsWith rawData "OCC:".toList && endsWith rawData ";".toList then
    parseESP32Data env s rawData
  else if startsWith rawData "BAR:".toList && endsWith rawData ";".toList then
    .normal () (parseBarrierData env s rawData)
  else .normal () (consoleLog s (.messageFormatNotRecognized rawData))

/-- The handler `client.on('message', (topic, message) => ...)`; `message` is
    the text `message.toString()` yields.  The clock is read once for the
    `Hora:` line the handler logs before it parses.  An error thrown in the
    `try` block is caught and reported. -/
def onMessage (env : Env) (s : State) (topic : String) (message : Str) : Completion Unit :=
  if isEsp32Topic topic then
    let rawData := trim message
    let (_, s0) := newDate env s
    match handleRawData env s0 rawData with
    | .normal _ s1 => .normal () s1
    | .throw error s1 => .normal () (consoleLog s1 (.processingError error.message))
  else .normal () s

/-! ## Timers and start-up -/

/-- `publishGateStatus(gateType)`. -/
def publishGateStatus (env : Env) (s : State) (gateType : GateType) : State :=
  let (d, s1) := newDate env s
  publish s1 ("parking/gates/" ++ gateTypeName gateType ++ "/status")
    (.gate
      { status := s.gateStatus.get gateType
        timestamp := d.ms
        servo_angle := if s.gateStatus.get gateType = .closed then 0 else 90
        action := none
        simulated := some true
        data_source := none })

/-- `publishInitialData()`. -/
def publishInitialData (env : Env) (s : State) : State :=
  let s1 := s.parkingSpaces.foldl (publishSpaceUpdate env) s
  let s2 := publishGateStatus env s1 .entry
  let s3 := publishGateStatus env s2 .exit
  let s4 := publishSystemStats env s3
  publish s4 "parking/analytics/hourly" (.hourly s4.hourlyOccupancy)

/-- One phase of `simulateGateSequence`: the phase is stored and published
    with its servo angle and action label. -/
def publishGatePhase (env : Env) (s : State) (gateType : GateType) (phase : GatePhase)
    (servoAngle : Nat) (action : String) : State :=
  let s1 : State := { s with gateStatus := s.gateStatus.set gateType phase }
  let (d, s2) := newDate env s1
  publish s2 ("parking/gates/" ++ gateTypeName gateType ++ "/status")
    (.gate
      { status := s1.gateStatus.get gateType
        timestamp := d.ms
        servo_angle := servoAngle
        action := some action
        simulated := some true
        data_source := none })

/-- `setTimeout(callback, delay)` for a stage of the gate sequence. -/
def setTimeout (s : State) (gateType : GateType) (stage : GateStage) (delay : Nat) : State :=
  { s with timers := s.timers ++ [{ delay := delay, gateType := gateType, stage := stage }] }

/-- `simulateGateSequence(gateType)` up to its first `setTimeout`. -/
def simulateGateSequence (env : Env) (s : State) (gateType : GateType) : State :=
  setTimeout (publishGatePhase env s gateType .opening 45 "opening") gateType .opened 2000

/-- The callback a pending timer runs. -/
def runTimer (env : Env) (s : State) (t : Timer) : State :=
  match t.stage with
  | .opened =>
    setTimeout (publishGatePhase env s t.gateType .open 90 "opened") t.gateType .closing 4000
  | .closing =>
    setTimeout (publishGatePhase env s t.gateType .closing 45 "closing") t.gateType .closed 2000
  | .closed => publishGatePhase env s t.gateType .closed 0 "closed"

/-- `simulateGateActivity()`.  The literal `0.2` is the double next to one
    fifth; `0.5` is a double. -/
def simulateGateActivity (env : Env) (s : State) : State :=
  let (r1, s1) := random env s
  if r1 < toDouble 0.2 then
    let (r2, s2) := random env s1
    let isEntryGate := decide (r2 < 0.5)
    simulateGateSequence env s2 (if isEntryGate then .entry else .exit)
  else s1

/-- The label of an hour: `hour.toString().padStart(2, '0')` and `:00`. -/
def hourLabel (hour : Nat) : String :=
  (if hour < 10 then "0" else "") ++ toString hour ++ ":00"

/-- `updateHourlyData()`.  The assignment to `hourlyOccupancy[currentHour]`
    is `List.set`, which is the assignment on the 24-entry array. -/
def updateHourlyData (env : Env) (s : State) : State :=
  let (d, s1) := newDate env s
  let currentHour : Nat := d.hours
  let occupied := occupiedCount s1.parkingSpaces
  let available : Int := (s1.parkingSpaces.length : Int) - occupied
  let (ts, s2) := newDate env s1
  let entry : HourlyEntry :=
    { hour := hourLabel currentHour, occupied := occupied, available := available,
      timestamp := ts.ms, dataSource := some "ESP32_REAL" }
  let s3 : State := { s2 with hourlyOccupancy := s2.hourlyOccupancy.set currentHour entry }
  publish s3 "parking/analytics/hourly" (.hourly s3.hourlyOccupancy)

/-- `calculateDailyStats()`. -/
def calculateDailyStats (s : State) : State :=
  let currentOccupancy := occupiedCount s.parkingSpaces
  let dailyData : DailyData :=
    { s.dailyData with
      totalOccupancyMinutes := s.dailyData.totalOccupancyMinutes + currentOccupancy
      samples := s.dailyData.samples + 1 }
  let average : Option Int :=
    if s.parkingSpaces.length = 0 then none
    else
      some (Math.round
        (Double.mul
          (Double.div
            (Double.div (dailyData.totalOccupancyMinutes : ℚ) (dailyData.samples : ℚ))
            (s.parkingSpaces.length : ℚ))
          100))
  { s with
    dailyData := dailyData
    systemStats := { s.systemStats with averageOccupancyToday := average } }

/-- The state when the module has been evaluated: the clock is read once for
    each `new Date()` of the initialisers, in source order, and last for
    `systemStats.systemUptime = Date.now()`; `Math.random()` is read once for
    the client id. -/
def initialState (env : Env) : State :=
  { parkingSpaces :=
      [ { id := 1, occupied := false, distance := 32, sensor := "ESP32-SENSOR-1",
          lastChange := env.clock 0, realData := true },
        { id := 2, occupied := false, distance := 32, sensor := "ESP32-SENSOR-2",
          lastChange := env.clock 1, realData := true },
        { id := 3, occupied := false, distance := 32, sensor := "ESP32-SENSOR-3",
          lastChange := env.clock 2, realData := true } ]
    gateStatus := { entry := .closed, exit := .closed }
    systemStats :=
      { dailyEntries := 0, totalVehiclesInside := 0, systemUptime := (env.clock 30).ms,
        lastEntry := env.clock 3, lastExit := env.clock 4, totalChangesToday := 0,
        peakOccupancy := 0, averageOccupancyToday := some 0 }
    hourlyOccupancy :=
      (List.range 24).map fun hour =>
        { hour := hourLabel hour, occupied := 0, available := 3,
          timestamp := (env.clock (5 + hour)).ms, dataSource := none }
    dailyData := { startTime := env.clock 29, totalOccupancyMinutes := 0, samples := 0 }
    published := []
    console := []
    timers := []
    randomReads := 1
    clockReads := 31 }

/-- What can happen to the running processor. -/
inductive Event where
  /-- The `connect` handler: `publishInitialData()`. -/
  | connect
  /-- A message arrives on a topic. -/
  | message (topic : String) (text : Str)
  /-- The 8 s interval. -/
  | gateTick
  /-- The 30 s interval. -/
  | hourlyTick
  /-- The 5 s interval. -/
  | statsTick
  /-- The 60 s interval. -/
  | dailyTick
  /-- The pending timer at a position of `timers` fires. -/
  | timeout (k : Nat)

/-- The state after one event. -/
def step (env : Env) (s : State) : Event → State
  | .connect => publishInitialData env s
  | .message topic text => (onMessage env s topic text).state
  | .gateTick => simulateGateActivity env s
  | .hourlyTick => updateHourlyData env s
  | .statsTick => publishSystemStats env s
  | .dailyTick => calculateDailyStats s
  | .timeout k =>
    match s.timers[k]? with
    | some t => runTimer env { s with timers := s.timers.eraseIdx k } t
    | none => s

/-- The state after a sequence of events. -/
def run (env : Env) (s : State) (events : List Event) : State :=
  events.foldl (step env) s

/-- The states the processor can be in: those a sequence of events leads to
    from the initial state. -/
def Reachable (env : Env) (s : State) : Prop :=
  ∃ events : List Event, run env (initialState env) events = s

/-- The state after a sequence of raw texts went through `parseESP32Data`. -/
def applyFrames (env : Env) (s : State) (frames : List Str) : State :=
  frames.foldl (fun st rawData => (parseESP32Data env st rawData).state) s

/-- The space ids in array order are 1, 2, 3: the shape `parkingSpaces` is
    declared with and keeps. -/
def WellFormed (s : State) : Prop :=
  s.parkingSpaces.map (fun space => space.id) = [1, 2, 3]

instance (s : State) : Decidable (WellFormed s) := by
  unfold WellFormed; infer_instance

/-- An environment for examples: `Math.random()` is always 0 and the clock
    stands at midnight of the epoch. -/
def env0 : Env :=
  { random := fun _ => 0
    clock := fun _ => { ms := 0, hours := 0 } }

/-! ## Notions the statements use -/

/-- The `occupied` flag of the space with the given id, if there is one. -/
def flagOf (s : State) (id : Int) : Option Bool :=
  (s.parkingSpaces.find? (fun space => decide ((space.id : Int) = id))).map
    (fun space => space.occupied)

/-- The state of the last pair of a decoded frame that names the given id. -/
def lastAssignment (pairs : List SpacePair) (id : Int) : Option Bool :=
  (pairs.reverse.find? (fun pair => decide (pair.spaceId = id))).map
    (fun pair => pair.isOccupied)

/-- The ids and flags of the spaces, in array order. -/
def spaceFlags (s : State) : List (Nat × Bool) :=
  s.parkingSpaces.map (fun space => (space.id, space.occupied))

/-- The state `parseESP32Data` has reached when the first `j` pairs of the
    frame have gone through `processSpaceChange`. -/
def stateBeforePair (env : Env) (s : State) (pairs : List SpacePair) (j : Nat) : State :=
  (processSpacePairs env s (pairs.take j) []).state

/-- The change entry the specification expects of pair `j` of a frame: one
    when the pair's state differs from the flag its space has at the moment
    the pair is applied, none otherwise. -/
def expectedChange (env : Env) (s : State) (pairs : List SpacePair) (j : Nat) : Option Change :=
  match pairs[j]? with
  | none => none
  | some pair =>
    match flagOf (stateBeforePair env s pairs j) pair.spaceId with
    | some was =>
      if was = pair.isOccupied then none
      else some ⟨pair.spaceId, was, pair.isOccupied, (pair.spaceId - 1).toNat⟩
    | none => none

/-- The number of entries of a change list that go from free to occupied. -/
def arrivals (changes : List Change) : Nat :=
  changes.countP (fun change => !change.wasOccupied && change.isOccupied)

/-- All the pairs of a decoded frame that name the same id carry the same
    state. -/
def Consistent (pairs : List SpacePair) : Prop :=
  ∀ p ∈ pairs, ∀ q ∈ pairs, p.spaceId = q.spaceId → p.isOccupied = q.isOccupied

/-- The occupancy rate the specification lists for 0, 1, 2, 3 occupied spaces
    of three. -/
def rateOfThree : Nat → Int
  | 0 => 0
  | 1 => 33
  | 2 => 67
  | _ => 100

/-- The store after the first `n` frames of a sequence applied to the initial
    store. -/
def stateAfter (env : Env) (frames : List Str) (n : Nat) : State :=
  applyFrames env (initialState env) (frames.take n)

/-- Whether frame `i` of a sequence, applied after the frames before it,
    produces at least one change. -/
def producesChange (env : Env) (frames : List Str) (i : Nat) : Bool :=
  match frames[i]? with
  | some rawData => decide (frameChanges env (stateAfter env frames i) rawData ≠ some [])
  | none => false

/-- The largest of the occupied counts seen right after each change-producing
    frame among the first `n` frames, 0 when there is none. -/
def maxObservedOccupancy (env : Env) (frames : List Str) (n : Nat) : Nat :=
  (((List.range n).filter (producesChange env frames)).map
    (fun i => occupiedCount (stateAfter env frames (i + 1)).parkingSpaces)).foldl max 0

/-! ## Notions for the barrier frames -/

/-- The assignment the specification gives pair `k` of a barrier token list:
    barrier id 1 is the entry gate, 2 the exit gate, any other id is dropped;
    the gate is open iff the state token parses to 1. -/
def barrierAssignment (tokens : List Str) (k : Nat) : Option (GateType × Bool) :=
  if parseIntAt tokens (2 * k) = some 1 then
    some (.entry, decide (parseIntAt tokens (2 * k + 1) = some 1))
  else if parseIntAt tokens (2 * k) = some 2 then
    some (.exit, decide (parseIntAt tokens (2 * k + 1) = some 1))
  else none

/-- The gate assignments of a barrier frame, in frame order, as the
    specification words them. -/
def barrierPairs (rawData : Str) : List (GateType × Bool) :=
  let tokens := split ':' (slice rawData 4 (-1))
  (List.range (tokens.length / 2)).filterMap (barrierAssignment tokens)

/-- What one iteration of the loop of `parseBarrierData` does for a pair that
    names a gate: the phase is stored, and published when the gate's being
    open changed. -/
def applyBarrierPair (env : Env) (s : State) (pair : GateType × Bool) : State :=
  let wasOpen := decide (s.gateStatus.get pair.1 = .open)
  let s1 : State :=
    { s with gateStatus := s.gateStatus.set pair.1 (if pair.2 then .open else .closed) }
  if wasOpen ≠ pair.2 then publishGateUpdate env s1 pair.1 pair.2 else s1

/-- The state of the last assignment of a decoded barrier frame that names the
    given gate. -/
def lastGateAssignment (pairs : List (GateType × Bool)) (gate : GateType) : Option Bool :=
  (pairs.reverse.find? (fun pair => decide (pair.1 = gate))).map (fun pair => pair.2)

/-- The phase a barrier frame leaves a gate in: open or closed after the last
    assignment naming it, the previous phase when none names it. -/
def phaseAfter (pairs : List (GateType × Bool)) (gate : GateType) (previous : GatePhase) :
    GatePhase :=
  match lastGateAssignment pairs gate with
  | some true => .open
  | some false => .closed
  | none => previous

/-- A gate snapshot whose servo angle fits its status as `publishGateUpdate`
    promises: 90 for open, 0 for closed. -/
def IsGateUpdate (m : Message) : Prop :=
  ∃ p : GatePayload, m.payload = .gate p ∧
    ((p.status = .open ∧ p.servo_angle = 90 ∧ p.action = some "opening") ∨
      (p.status = .closed ∧ p.servo_angle = 0 ∧ p.action = some "closing"))

/-! ## The bridge (`ws-bridge.js`) -/

/-- The `readyState` of a WebSocket: `CONNECTING`, `OPEN`, `CLOSING`,
    `CLOSED`. -/
inductive ReadyState where
  | connecting
  | «open»
  | closing
  | closed
  deriving DecidableEq, Repr

/-- The object `forwardToWebSockets` hands to `JSON.stringify`; the text sent
    is its rendering. -/
structure Envelope where
  topic : String
  message : String
  timestamp : Nat
  deriving DecidableEq, Repr

/-- An element of `wss.clients`.  `sendThrows` tells whether `client.send`
    throws when called now (the transport decides that, not the bridge);
    `sent` lists the texts `send` has accepted. -/
structure BridgeClient where
  readyState : ReadyState
  isActive : Bool
  sendThrows : Bool
  sent : List Envelope
  deriving DecidableEq, Repr

/-- `client.send(messageText)`. -/
def BridgeClient.send (client : BridgeClient) (messageText : Envelope) :
    Except JsError BridgeClient :=
  if client.sendThrows then .error { message := "send failed" }
  else .ok { client with sent := client.sent ++ [messageText] }

/-- The `wss.clients.forEach` of `forwardToWebSockets`, with `sentCount` so
    far: the clients after the loop and the final count. -/
def forwardLoop (messageText : Envelope) : List BridgeClient → Nat → List BridgeClient × Nat
  | [], sentCount => ([], sentCount)
  | client :: rest, sentCount =>
    if client.readyState = .open && client.isActive then
      match client.send messageText with
      | .ok client1 =>
        let (rest1, n) := forwardLoop messageText rest (sentCount + 1)
        (client1 :: rest1, n)
      | .error _ =>
        let (rest1, n) := forwardLoop messageText rest sentCount
        ({ client with isActive := false } :: rest1, n)
    else
      let (rest1, n) := forwardLoop messageText rest sentCount
      (client :: rest1, n)

/-- `forwardToWebSockets(topic, message)`: `message` is the text
    `message.toString()` yields and `now` is `Date.now()`.  The result is the
    registry after the loop and `sentCount`. -/
def forwardToWebSockets (clients : List BridgeClient) (topic message : String) (now : Nat) :
    List BridgeClient × Nat :=
  let messageText : Envelope := { topic := topic, message := message, timestamp := now }
  forwardLoop messageText clients 0

/-- What the specification asks for one connection: a live one (open and
    marked active) receives the text once, or is marked inactive when the send
    fails; any other is left alone. -/
def deliver (messageText : Envelope) (client : BridgeClient) : BridgeClient :=
  if client.readyState = .open ∧ client.isActive = true then
    if client.sendThrows then { client with isActive := false }
    else { client with sent := client.sent ++ [messageText] }
  else client

/-- Whether the text reaches the connection. -/
def receives (client : BridgeClient) : Bool :=
  decide (client.readyState = .open) && client.isActive && !client.sendThrows

/-! ## The consumer hook (`useMqttWebSocket.ts`): the projection -/

/-- A JavaScript value as `JSON.parse` yields it, or `undefined`. -/
inductive JsValue where
  | undefined
  | null
  | bool (b : Bool)
  | number (x : ℚ)
  | string (s : String)
  | array (items : List JsValue)
  | object (fields : List (String × JsValue))

/-- The value of `value.name` when the read does not throw: the field of an
    object, `undefined` when there is none; `undefined` on a primitive or an
    array for every name the hook reads (none of them is a built-in
    property). -/
def JsValue.field (value : JsValue) (name : String) : JsValue :=
  match value with
  | .object fields =>
    match fields.find? (fun field => field.1 = name) with
    | some field => field.2
    | none => .undefined
  | _ => .undefined

/-- The property read `value.name`: it throws on `undefined` and `null`. -/
def JsValue.get (value : JsValue) (name : String) : Except JsError JsValue :=
  match value with
  | .undefined =>
    .error { message := "Cannot read properties of undefined (reading '" ++ name ++ "')" }
  | .null => .error { message := "Cannot read properties of null (reading '" ++ name ++ "')" }
  | _ => .ok (value.field name)

/-- A `ParkingSpace` record of the projection.  The fields copied from a
    payload hold whatever value the payload has. -/
structure ParkingSpace where
  id : Int
  occupied : JsValue
  distance : JsValue
  sensor : JsValue
  timestamp : JsValue
  battery : JsValue
  change_detected : JsValue
  previous_state : JsValue

/-- A `GateStatus` record of the projection. -/
structure GateRecord where
  status : JsValue
  timestamp : JsValue
  servo_angle : JsValue
  action : JsValue

/-- The `systemStats` record of the projection. -/
structure StatsRecord where
  totalSpaces : JsValue
  occupiedSpaces : JsValue
  availableSpaces : JsValue
  dailyEntries : JsValue
  occupancyRate : JsValue
  systemUptime : JsValue
  lastEntry : JsValue
  lastExit : JsValue
  timestamp : JsValue

/-- The `MqttData` projection.  `gates` is an object, kept as its list of
    keys and records; `hourlyData` is whatever was last assigned to it. -/
structure MqttData where
  parkingSpaces : List ParkingSpace
  gates : List (Str × GateRecord)
  systemStats : StatsRecord
  hourlyData : JsValue
  isConnected : Bool
  lastUpdate : Date

/-- The own keys of an object after the key's value is replaced or the key is
    added.  The list keeps the keys in the order they were added; the code
    reads `gates` by key only, so the order in which JavaScript enumerates
    keys (array indices first) plays no part. -/
def addOrReplaceKey {α : Type} (object : List (Str × α)) (key : Str) (value : α) :
    List (Str × α) :=
  match object with
  | [] => [(key, value)]
  | (k, v) :: rest =>
    if k = key then (key, value) :: rest else (k, v) :: addOrReplaceKey rest key value

/-- `object[key] = value` for a value that is an object, on an object with the
    prototype of an object literal: the key's value is replaced, or the key is
    added; the key `__proto__` is the accessor of the prototype, so assigning to
    it sets the prototype (which is not part of the model) and leaves the own
    keys as they are. -/
def setKey {α : Type} (object : List (Str × α)) (key : Str) (value : α) : List (Str × α) :=
  if key = "__proto__".toList then object else addOrReplaceKey object key value

/-- `parkingSpaces.findIndex(space => space.id === spaceId)`, `none` for -1;
    a `NaN` id equals no id. -/
def findSpaceIndex (spaces : List ParkingSpace) (spaceId : Option Int) : Option Nat :=
  match spaceId with
  | some id => spaces.findIdx? (fun space => decide (space.id = id))
  | none => none

/-- The first `if` of the updater of `processMessage`: a topic
    `parking/spaces/…/status`. -/
def processSpaceTopic (newData : MqttData) (topic : Str) (parsedPayload : JsValue) :
    Except JsError MqttData :=
  if startsWith topic "parking/spaces/".toList && endsWith topic "/status".toList then
    let spaceId := parseIntAt (split '/' topic) 2
    match spaceId, findSpaceIndex newData.parkingSpaces spaceId with
    | some id, some spaceIndex => do
      let occupied ← parsedPayload.get "occupied"
      let distance ← parsedPayload.get "distance"
      let sensor ← parsedPayload.get "sensor"
      let timestamp ← parsedPayload.get "timestamp"
      let battery ← parsedPayload.get "battery"
      let change_detected ← parsedPayload.get "change_detected"
      let previous_state ← parsedPayload.get "previous_state"
      let space : ParkingSpace :=
        { id := id, occupied := occupied, distance := distance, sensor := sensor,
          timestamp := timestamp, battery := battery, change_detected := change_detected,
          previous_state := previous_state }
      pure { newData with parkingSpaces := newData.parkingSpaces.set spaceIndex space }
    | _, _ => pure newData
  else pure newData

/-- The second `if`: a topic `parking/gates/…/status`. -/
def processGateTopic (newData : MqttData) (topic : Str) (parsedPayload : JsValue) :
    Except JsError MqttData :=
  if startsWith topic "parking/gates/".toList && endsWith topic "/status".toList then
    match (split '/' topic)[2]? with
    | some gateType => do
      let status ← parsedPayload.get "status"
      let timestamp ← parsedPayload.get "timestamp"
      let servo_angle ← parsedPayload.get "servo_angle"
      let action ← parsedPayload.get "action"
      let gate : GateRecord :=
        { status := status, timestamp := timestamp, servo_angle := servo_angle,
          action := action }
      pure { newData with gates := setKey newData.gates gateType gate }
    | none => pure newData
  else pure newData

/-- The third `if`: the topic `parking/stats/summary`. -/
def processStatsTopic (newData : MqttData) (topic : Str) (parsedPayload : JsValue) :
    Except JsError MqttData :=
  if topic = "parking/stats/summary".toList then do
    let totalSpaces ← parsedPayload.get "totalSpaces"
    let occupiedSpaces ← parsedPayload.get "occupiedSpaces"
    let availableSpaces ← parsedPayload.get "availableSpaces"
    let dailyEntries ← parsedPayload.get "dailyEntries"
    let occupancyRate ← parsedPayload.get "occupancyRate"
    let systemUptime ← parsedPayload.get "systemUptime"
    let lastEntry ← parsedPayload.get "lastEntry"
    let lastExit ← parsedPayload.get "lastExit"
    let timestamp ← parsedPayload.get "timestamp"
    let stats : StatsRecord :=
      { totalSpaces := totalSpaces, occupiedSpaces := occupiedSpaces,
        availableSpaces := availableSpaces, dailyEntries := dailyEntries,
        occupancyRate := occupancyRate, systemUptime := systemUptime,
        lastEntry := lastEntry, lastExit := lastExit, timestamp := timestamp }
    pure { newData with systemStats := stats }
  else pure newData

/-- The fourth `if`: the topic `parking/analytics/hourly`. -/
def processHourlyTopic (newData : MqttData) (topic : Str) (parsedPayload : JsValue) : MqttData :=
  if topic = "parking/analytics/hourly".toList then { newData with hourlyData := parsedPayload }
  else newData

/-- The updater `processMessage(topic, parsedPayload)` hands to `setData`, on
    the projection `prev`; `now` is the `new Date()` of `lastUpdate`.  It
    throws when a property of an `undefined` or `null` payload is read. -/
def processMessage (prev : MqttData) (topic : Str) (parsedPayload : JsValue) (now : Date) :
    Except JsError MqttData := do
  let newData := prev
  let newData ← processSpaceTopic newData topic parsedPayload
  let newData ← processGateTopic newData topic parsedPayload
  let newData ← processStatsTopic newData topic parsedPayload
  let newData := processHourlyTopic newData topic parsedPayload
  pure { newData with lastUpdate := now }

/-- The text of `date.toISOString()`.  Only that the text is determined by the
    instant matters here: the decimal milliseconds stand for the calendar
    rendering. -/
def toISOString (date : Date) : String := toString date.ms

/-- A space record of the initial projection. -/
def initialSpace (id : Int) (occupied : Bool) (distance : ℚ) (sensor : String) (now : Date) :
    ParkingSpace :=
  { id := id, occupied := .bool occupied, distance := .number distance,
    sensor := .string sensor, timestamp := .string (toISOString now), battery := .undefined,
    change_detected := .undefined, previous_state := .undefined }

/-- The argument of `useState<MqttData>`: the clock and `Math.random()` are
    read in source order. -/
def initialData (env : Env) : MqttData :=
  { parkingSpaces :=
      [ initialSpace 1 false 32 "HC-SR04-1" (env.clock 0),
        initialSpace 2 true 8 "HC-SR04-2" (env.clock 1),
        initialSpace 3 false 28 "HC-SR04-3" (env.clock 2) ]
    gates :=
      [ ("entry".toList,
          { status := .string "closed", timestamp := .string (toISOString (env.clock 3)),
            servo_angle := .number 0, action := .undefined }),
        ("exit".toList,
          { status := .string "closed", timestamp := .string (toISOString (env.clock 4)),
            servo_angle := .number 0, action := .undefined }) ]
    systemStats :=
      { totalSpaces := .number 3, occupiedSpaces := .number 1, availableSpaces := .number 2,
        dailyEntries := .number 0, occupancyRate := .number 33, systemUptime := .number 0,
        lastEntry := .string (toISOString (env.clock 5)),
        lastExit := .string (toISOString (env.clock 6)),
        timestamp := .string (toISOString (env.clock 7)) }
    hourlyData :=
      .array ((List.range 24).map fun hour =>
        .object
          [ ("hour", .string (hourLabel hour)),
            ("occupied", .number (Math.floor (Double.mul (env.random (2 * hour)) 3))),
            ("available", .number (3 - Math.floor (Double.mul (env.random (2 * hour + 1)) 3))) ])
    isConnected := false
    lastUpdate := env.clock 8 }

/-! ## The consumer hook: connection and reconnection

`connectionAttempts` is React state: the function body of the hook runs again
on every render, and the functions it declares (`scheduleReconnect`, `connect`,
`manualReconnect`) see the value `connectionAttempts` had in the render that
created them.  The functions below take that value as their first argument.
`wsRef` and `reconnectTimeoutRef` are refs, shared by all renders, and the
updaters handed to `setData` and `setConnectionAttempts` act on the current
state. -/

/-- The callback of a pending `setTimeout` of the hook, with the value of
    `connectionAttempts` its closure sees: `retry` is the arrow function of
    `scheduleReconnect`, `settle` is `connect` as `manualReconnect` passes
    it. -/
inductive HookCallback where
  | retry (connectionAttempts : Nat)
  | settle (connectionAttempts : Nat)
  deriving DecidableEq, Repr

/-- A pending `setTimeout` of the hook. -/
structure HookTimer where
  id : Nat
  delay : Nat
  callback : HookCallback
  deriving DecidableEq, Repr

/-- A `WebSocket` the hook created, with the value of `connectionAttempts`
    the handlers `connect` installed on it see. -/
structure HookSocket where
  readyState : ReadyState
  connectionAttempts : Nat
  deriving DecidableEq, Repr

/-- The state of a mounted hook: the two pieces of React state, the two refs,
    and the sockets and pending timers the runtime holds for it.  A socket is
    named by its position in `sockets`, a timer by its `id`. -/
structure Hook where
  data : MqttData
  connectionAttempts : Nat
  wsRef : Option Nat
  reconnectTimeoutRef : Option Nat
  sockets : List HookSocket
  timers : List HookTimer
  timersCreated : Nat

/-- `setData(prev => ({ ...prev, isConnected: value }))`. -/
def setIsConnected (h : Hook) (value : Bool) : Hook :=
  { h with data := { h.data with isConnected := value } }

/-- `setTimeout(callback, delay)`: the timer is pending under a fresh id. -/
def hookSetTimeout (h : Hook) (callback : HookCallback) (delay : Nat) : Nat × Hook :=
  (h.timersCreated,
    { h with
      timers := h.timers ++ [{ id := h.timersCreated, delay := delay, callback := callback }]
      timersCreated := h.timersCreated + 1 })

/-- `Math.min(1000 * Math.pow(2, connectionAttempts), 30000)`. -/
def reconnectDelay (connectionAttempts : Nat) : Nat :=
  min (1000 * 2 ^ connectionAttempts) 30000

/-- `scheduleReconnect()` of a render in which `connectionAttempts` has the
    given value. -/
def scheduleReconnect (connectionAttempts : Nat) (h : Hook) : Hook :=
  if connectionAttempts < 10 then
    let delay := reconnectDelay connectionAttempts
    let (id, h1) := hookSetTimeout h (.retry connectionAttempts) delay
    { h1 with reconnectTimeoutRef := some id }
  else h

/-- `connect()` of a render in which `connectionAttempts` has the given value:
    a new socket, connecting, is stored in `wsRef`; its handlers call the
    `scheduleReconnect` of the same render.  (`new WebSocket` does not throw on
    the constant URL.) -/
def connect (connectionAttempts : Nat) (h : Hook) : Hook :=
  { h with
    sockets := h.sockets ++ [{ readyState := .connecting, connectionAttempts := connectionAttempts }]
    wsRef := some h.sockets.length }

/-- The `onopen` handler. -/
def onopen (h : Hook) (now : Date) : Hook :=
  { h with
    data := { h.data with isConnected := true, lastUpdate := now }
    connectionAttempts := 0 }

/-- The `onclose` handler of a socket whose handlers see the given value. -/
def onclose (connectionAttempts : Nat) (h : Hook) : Hook :=
  scheduleReconnect connectionAttempts (setIsConnected h false)

/-- The `onerror` handler. -/
def onerror (h : Hook) : Hook := setIsConnected h false

/-- `WebSocket.close()`: a socket that is connecting or open starts closing. -/
def HookSocket.close (socket : HookSocket) : HookSocket :=
  match socket.readyState with
  | .connecting => { socket with readyState := .closing }
  | .open => { socket with readyState := .closing }
  | _ => socket

/-- `disconnect()`. -/
def disconnect (h : Hook) : Hook :=
  let h1 : Hook :=
    match h.reconnectTimeoutRef with
    | some id =>
      { h with timers := h.timers.filter (fun t => decide (t.id ≠ id)), reconnectTimeoutRef := none }
    | none => h
  let h2 : Hook :=
    match h1.wsRef with
    | some i => { h1 with sockets := h1.sockets.modify HookSocket.close i, wsRef := none }
    | none => h1
  setIsConnected h2 false

/-- `manualReconnect()` of a render in which `connectionAttempts` has the given
    value. -/
def manualReconnect (connectionAttempts : Nat) (h : Hook) : Hook :=
  let h1 : Hook := { h with connectionAttempts := 0 }
  let h2 := disconnect h1
  (hookSetTimeout h2 (.settle connectionAttempts) 1000).2

/-- The callback of a timer that fires. -/
def runHookCallback (h : Hook) : HookCallback → Hook
  | .retry c => connect c { h with connectionAttempts := h.connectionAttempts + 1 }
  | .settle c => connect c h

/-- The hook after its first render and its mount effect: `connect()` of the
    first render, in which `connectionAttempts` is 0. -/
def mount (data : MqttData) : Hook :=
  connect 0
    { data := data, connectionAttempts := 0, wsRef := none, reconnectTimeoutRef := none,
      sockets := [], timers := [], timersCreated := 0 }

/-- What can happen to a mounted hook. -/
inductive HookEvent where
  /-- A connecting socket opens. -/
  | socketOpen (socket : Nat) (now : Date)
  /-- A socket that is not yet closed closes: its `close` event. -/
  | socketClose (socket : Nat)
  /-- The `error` event of a socket. -/
  | socketError (socket : Nat)
  /-- A pending timer fires. -/
  | timeout (id : Nat)
  /-- The user presses retry: `manualReconnect` of the latest render, in which
      `connectionAttempts` is the current state. -/
  | manualReconnect

/-- The hook after one event. -/
def hookStep (h : Hook) : HookEvent → Hook
  | .socketOpen i now =>
    match h.sockets[i]? with
    | some socket =>
      if socket.readyState = .connecting then
        onopen { h with sockets := h.sockets.set i { socket with readyState := .open } } now
      else h
    | none => h
  | .socketClose i =>
    match h.sockets[i]? with
    | some socket =>
      if socket.readyState ≠ .closed then
        onclose socket.connectionAttempts
          { h with sockets := h.sockets.set i { socket with readyState := .closed } }
      else h
    | none => h
  | .socketError i =>
    match h.sockets[i]? with
    | some socket => if socket.readyState ≠ .closed then onerror h else h
    | none => h
  | .timeout id =>
    match h.timers.find? (fun t => decide (t.id = id)) with
    | some t =>
      runHookCallback { h with timers := h.timers.filter (fun t => decide (t.id ≠ id)) } t.callback
    | none => h
  | .manualReconnect => manualReconnect h.connectionAttempts h

/-- The hook after a sequence of events. -/
def hookRun (h : Hook) (events : List HookEvent) : Hook :=
  events.foldl hookStep h

/-- The socket in `wsRef` closes without having opened, then the retry timer
    in `reconnectTimeoutRef` fires: one failed attempt. -/
def failedAttempt (h : Hook) : Hook :=
  match h.wsRef with
  | some i =>
    let h1 := hookStep h (.socketClose i)
    match h1.reconnectTimeoutRef with
    | some id => hookStep h1 (.timeout id)
    | none => h1
  | none => h

/-- The hook after mounting and `n` failed attempts in a row. -/
def afterFailures (data : MqttData) : Nat → Hook
  | 0 => mount data
  | n + 1 => failedAttempt (afterFailures data n)

/-- The close event of the socket in `wsRef`. -/
def closeCurrent (h : Hook) : Hook :=
  match h.wsRef with
  | some i => hookStep h (.socketClose i)
  | none => h

/-- A run in which retry is pressed while the first socket is still
    connecting: the aborted socket's close event schedules an automatic retry
    next to the settle timer, both fire, and both new sockets fail. -/
def pressedWhileConnecting : List HookEvent :=
  [.manualReconnect, .socketClose 0, .timeout 0, .timeout 1, .socketClose 1, .socketClose 2]

/-- The record `processMessage` writes for a space topic: the id from the
    topic, every other field read from the payload. -/
def spaceOfPayload (id : Int) (payload : JsValue) : ParkingSpace :=
  { id := id
    occupied := payload.field "occupied"
    distance := payload.field "distance"
    sensor := payload.field "sensor"
    timestamp := payload.field "timestamp"
    battery := payload.field "battery"
    change_detected := payload.field "change_detected"
    previous_state := payload.field "previous_state" }

/-- A payload as `publishSpaceUpdate` of the processor sends it, for a space
    found free: it has no `previous_state` field. -/
def freedPayload : JsValue :=
  .object
    [ ("occupied", .bool false), ("distance", .number 30), ("sensor", .string "ESP32-SENSOR-2"),
      ("timestamp", .string "0"), ("battery", .number 90), ("change_detected", .bool true),
      ("data_source", .string "ESP32_REAL"), ("realData", .bool true) ]

/-! ## The decoder loop, with its iterations counted -/

/-- The loop of `extractSpacePairs` again, counting its iterations: the
    pairs pushed and the number of times the body ran, `none` when `fuel` is
    used up before the loop condition fails. -/
def extractSpacePairsTrace (pairs : List Str) :
    Nat → Nat → List SpacePair → Nat → Option (List SpacePair × Nat)
  | 0, i, spacePairs, visited =>
    if (i : Int) < (pairs.length : Int) - 1 then none else some (spacePairs, visited)
  | fuel + 1, i, spacePairs, visited =>
    if (i : Int) < (pairs.length : Int) - 1 then
      let spaceId := parseIntAt pairs i
      let occupiedState := parseIntAt pairs (i + 1)
      match spaceId with
      | some id =>
        if inRange spaceId 1 3 then
          extractSpacePairsTrace pairs fuel (i + 2)
            (spacePairs ++ [{ spaceId := id, isOccupied := numEq occupiedState 1 }]) (visited + 1)
        else extractSpacePairsTrace pairs fuel (i + 2) spacePairs (visited + 1)
      | none => extractSpacePairsTrace pairs fuel (i + 2) spacePairs (visited + 1)
    else some (spacePairs, visited)

/-! ## Notions for the hourly buckets and the daily mean -/

/-- The parts of the store that only the hourly and the daily tick write:
    `hourlyOccupancy`, `dailyData` and `systemStats.averageOccupancyToday`. -/
def aggregates (s : State) : List HourlyEntry × DailyData × Option Int :=
  (s.hourlyOccupancy, s.dailyData, s.systemStats.averageOccupancyToday)

/-- An environment for examples in which the clock stands at 14:00 of the
    first day of the epoch. -/
def env14 : Env :=
  { random := fun _ => 0
    clock := fun _ => { ms := 50400000, hours := 14 } }

/-- The character of a decimal digit. -/
def digitChar (d : Nat) : Char := Char.ofNat (48 + d)

/-! ## Notions for the gate sequence -/

/-- The message a phase of `simulateGateSequence` publishes. -/
def gatePhaseMessage (gateType : GateType) (phase : GatePhase) (servoAngle : Nat)
    (action : String) (timestamp : Nat) : Message :=
  { topic := "parking/gates/" ++ gateTypeName gateType ++ "/status"
    payload := .gate
      { status := phase, timestamp := timestamp, servo_angle := servoAngle,
        action := some action, simulated := some true, data_source := none } }

/-! ## Notions for the topics of the consumer -/

/-- A gate payload as the processor publishes it for an opened gate. -/
def openedGatePayload : JsValue :=
  .object
    [ ("status", .string "open"), ("timestamp", .string "0"), ("servo_angle", .number 90),
      ("action", .string "opened"), ("simulated", .bool true) ]

/-- The topics the specification lists for the consumer. -/
def listedTopics : List Str :=
  [ "parking/spaces/1/status".toList, "parking/spaces/2/status".toList,
    "parking/spaces/3/status".toList, "parking/gates/entry/status".toList,
    "parking/gates/exit/status".toList, "parking/stats/summary".toList,
    "parking/analytics/hourly".toList ]

/-! ## The bridge: its subscriptions -/

/-- The `topics` array of the bridge's `connect` handler: the filters it
    subscribes to. -/
def bridgeTopics : List String :=
  [ "esp32/data", "parking/spaces/+/status", "parking/gates/+/status", "parking/system/stats",
    "parking/hourly/data" ]

/-- Whether the levels of a topic filter match the levels of a topic name, as
    an MQTT broker decides it: `+` matches exactly one level, a final `#` the
    rest, any other level only itself. -/
def levelsMatch : List Str → List Str → Bool
  | [], [] => true
  | [], _ :: _ => false
  | f :: fs, levels =>
    if f = "#".toList && fs.isEmpty then true
    else
      match levels with
      | [] => false
      | t :: ts => (f = "+".toList || f = t) && levelsMatch fs ts

/-- Whether a topic filter matches a topic name. -/
def topicMatches (filter topic : String) : Bool :=
  levelsMatch (split '/' filter.toList) (split '/' topic.toList)

/-- Whether the broker hands the bridge a message published on `topic`: one
    of the bridge's filters matches it.  Only such a message reaches
    `forwardToWebSockets`. -/
def bridgeReceives (topic : String) : Bool :=
  bridgeTopics.any fun filter => topicMatches filter topic

/-! ## Notions for the distances -/

/-- A value `Math.random()` may return: a double in `[0, 1)`. -/
def ValidDraw (r : ℚ) : Prop := IsDouble r ∧ 0 ≤ r ∧ r < 1

/-- An environment all of whose draws are doubles in `[0, 1)`. -/
def Env.Valid (env : Env) : Prop := ∀ n : Nat, ValidDraw (env.random n)

/-- An environment for examples whose every draw is the largest double below
    1. -/
def envLargestDraw : Env :=
  { random := fun _ => 1 - 1 / 2 ^ 53
    clock := fun _ => { ms := 0, hours := 0 } }

/-- Every space is occupied exactly when its distance is below 15. -/
def DistanceOk (spaces : List Space) : Prop :=
  ∀ space ∈ spaces, (space.occupied = true ↔ space.distance < 15)

/-! ## Notions for the daily mean -/

/-- The occupied-space counts `calculateDailyStats` samples along a run, one
    for each daily tick, in order. -/
def sampledCounts (env : Env) : State → List Event → List Nat
  | _, [] => []
  | s, .dailyTick :: es =>
    occupiedCount s.parkingSpaces :: sampledCounts env (step env s .dailyTick) es
  | s, e :: es => sampledCounts env (step env s e) es

/-- Whether an event is the daily tick. -/
def Event.isDailyTick : Event → Bool
  | .dailyTick => true
  | _ => false

/-- `Math.round(total / samples / 3 * 100)` as the code evaluates it: both
    divisions and the multiplication round to a double. -/
def dailyAverage (total samples : Nat) : Int :=
  Math.round (Double.mul (Double.div (Double.div (total : ℚ) (samples : ℚ)) 3) 100)

/-! ## The backup hook (`useMqttWebSocket_backup.ts`): raw frames -/

namespace Backup

/-- A `ParkingSpace` record of the backup hook, with the types its interface
    declares; `timestamp` is the instant whose ISO text is stored. -/
structure ParkingSpace where
  id : Int
  occupied : Bool
  distance : Int
  sensor : String
  timestamp : Nat
  battery : Option ℚ
  change_detected : Option Bool
  previous_state : Option Bool
  deriving DecidableEq

/-- The `systemStats` record of the backup hook; the three dates are the
    instants whose ISO texts are stored. -/
structure SystemStats where
  totalSpaces : Nat
  occupiedSpaces : Nat
  availableSpaces : Int
  dailyEntries : Nat
  occupancyRate : Int
  systemUptime : Nat
  lastEntry : Nat
  lastExit : Nat
  timestamp : Nat
  deriving DecidableEq

/-- The part of `MqttData` that `processESP32RawData` reads and writes
    (`gates`, `hourlyData`, `isConnected` and `lastUpdate` are left alone by
    it), with the counts of the reads of `Math.random()` and of the clock. -/
structure MqttData where
  parkingSpaces : List ParkingSpace
  systemStats : SystemStats
  randomReads : Nat
  clockReads : Nat
  deriving DecidableEq

/-- An element of the local array `changes` of `processESP32RawData`. -/
structure Change where
  spaceId : Int
  isOccupied : Bool
  wasOccupied : Bool
  deriving DecidableEq, Repr

/-- How `processESP32RawData` ends: normally, with `newData` as mutated and
    the local `changes`, or by throwing, with `newData` as mutated so far. -/
inductive Outcome where
  | normal (newData : MqttData) (changes : List Change)
  | throw (error : JsError) (newData : MqttData)

/-- The loop of `extractESP32Pairs`; `fuel` bounds the number of iterations. -/
def extractESP32PairsLoop (pairs : List Str) : Nat → Nat → List SpacePair → List SpacePair
  | 0, _, result => result
  | fuel + 1, i, result =>
    if (i : Int) < (pairs.length : Int) - 1 then
      let spaceId := parseIntAt pairs i
      let occupiedState := parseIntAt pairs (i + 1)
      match spaceId with
      | some id =>
        if inRange spaceId 1 3 then
          extractESP32PairsLoop pairs fuel (i + 2)
            (result ++ [{ spaceId := id, isOccupied := numEq occupiedState 1 }])
        else extractESP32PairsLoop pairs fuel (i + 2) result
      | none => extractESP32PairsLoop pairs fuel (i + 2) result
    else result

/-- `extractESP32Pairs(dataSection)`.  The loop index grows by two, so
    `pairs.length` iterations are more than it can make. -/
def extractESP32Pairs (dataSection : Str) : List SpacePair :=
  let pairs := split ':' dataSection
  extractESP32PairsLoop pairs pairs.length 0 []

/-- The body of `if (spaceId >= 1 && spaceId <= 3)` in the loop of
    `processESP32RawData`: the record is rewritten whatever the flag was, a
    change is pushed when the flag differs.  Reading `occupied` of an
    `undefined` record throws. -/
def updateSpace (env : Env) (newData : MqttData) (changes : List Change) (spaceId : Int)
    (occupiedState : Option Int) : Outcome :=
  let spaceIndex := spaceId - 1
  match arrayGet newData.parkingSpaces spaceIndex with
  | none =>
    .throw { message := "Cannot read properties of undefined (reading 'occupied')" } newData
  | some space =>
    let wasOccupied := space.occupied
    let isOccupied := numEq occupiedState 1
    let timestamp := env.clock newData.clockReads
    let r := env.random newData.randomReads
    let distance :=
      if isOccupied then Math.floor (Double.add (Double.mul r 10) 5)
      else Math.floor (Double.add (Double.mul r 15) 25)
    let space1 : ParkingSpace :=
      { space with
        occupied := isOccupied
        timestamp := timestamp.ms
        distance := distance
        change_detected := some (wasOccupied != isOccupied)
        previous_state := some wasOccupied }
    let newData1 : MqttData :=
      { newData with
        parkingSpaces := newData.parkingSpaces.set spaceIndex.toNat space1
        clockReads := newData.clockReads + 1
        randomReads := newData.randomReads + 1 }
    if wasOccupied != isOccupied then
      .normal newData1
        (changes ++ [{ spaceId := spaceId, isOccupied := isOccupied, wasOccupied := wasOccupied }])
    else .normal newData1 changes

/-- The `for` loop of `processESP32RawData`, from index `i`; `fuel` bounds the
    number of iterations. -/
def processESP32RawDataLoop (env : Env) (pairs : List Str) :
    Nat → Nat → MqttData → List Change → Outcome
  | 0, _, newData, changes => .normal newData changes
  | fuel + 1, i, newData, changes =>
    if (i : Int) < (pairs.length : Int) - 1 then
      let spaceId := parseIntAt pairs i
      let occupiedState := parseIntAt pairs (i + 1)
      match spaceId with
      | some id =>
        if inRange spaceId 1 3 then
          match updateSpace env newData changes id occupiedState with
          | .throw error newData1 => .throw error newData1
          | .normal newData1 changes1 =>
            processESP32RawDataLoop env pairs fuel (i + 2) newData1 changes1
        else processESP32RawDataLoop env pairs fuel (i + 2) newData changes
      | none => processESP32RawDataLoop env pairs fuel (i + 2) newData changes
    else .normal newData changes

/-- The statistics `processESP32RawData` writes after its loop. -/
def updateSystemStats (env : Env) (newData : MqttData) (changes : List Change) : MqttData :=
  let totalOccupied := (newData.parkingSpaces.filter (fun space => space.occupied)).length
  let totalAvailable : Int := 3 - totalOccupied
  let occupancyRate := Math.round (Double.mul (Double.div (totalOccupied : ℚ) 3) 100)
  let newEntries :=
    changes.foldl
      (fun newEntries change =>
        if !change.wasOccupied && change.isOccupied then newEntries + 1 else newEntries)
      newData.systemStats.dailyEntries
  let timestamp := env.clock newData.clockReads
  let entered := changes.any (fun c => !c.wasOccupied && c.isOccupied)
  let left := changes.any (fun c => c.wasOccupied && !c.isOccupied)
  let reads1 := newData.clockReads + 1
  let lastEntry := if entered then (env.clock reads1).ms else newData.systemStats.lastEntry
  let reads2 := if entered then reads1 + 1 else reads1
  let lastExit := if left then (env.clock reads2).ms else newData.systemStats.lastExit
  let reads3 := if left then reads2 + 1 else reads2
  { newData with
    systemStats :=
      { newData.systemStats with
        occupiedSpaces := totalOccupied
        availableSpaces := totalAvailable
        occupancyRate := occupancyRate
        dailyEntries := newEntries
        timestamp := timestamp.ms
        lastEntry := lastEntry
        lastExit := lastExit }
    clockReads := reads3 }

/-- `processESP32RawData(rawData, newData)`. -/
def processESP32RawData (env : Env) (rawData : Str) (newData : MqttData) : Outcome :=
  if !startsWith rawData "OCC:".toList || !endsWith rawData ";".toList then .normal newData []
  else
    let dataSection := slice rawData 4 (-1)
    let pairs := split ':' dataSection
    match processESP32RawDataLoop env pairs pairs.length 0 newData [] with
    | .throw error newData1 => .throw error newData1
    | .normal newData1 changes => .normal (updateSystemStats env newData1 changes) changes

/-- The argument of `useState<MqttData>` of the backup hook, as far as
    `processESP32RawData` is concerned: the clock is read in source order, 33
    times in all. -/
def initialData (env : Env) : MqttData :=
  { parkingSpaces :=
      [ { id := 1, occupied := false, distance := 32, sensor := "ESP32-SENSOR-1",
          timestamp := (env.clock 0).ms, battery := some 85, change_detected := none,
          previous_state := none },
        { id := 2, occupied := false, distance := 32, sensor := "ESP32-SENSOR-2",
          timestamp := (env.clock 1).ms, battery := some 87, change_detected := none,
          previous_state := none },
        { id := 3, occupied := false, distance := 32, sensor := "ESP32-SENSOR-3",
          timestamp := (env.clock 2).ms, battery := some 89, change_detected := none,
          previous_state := none } ]
    systemStats :=
      { totalSpaces := 3, occupiedSpaces := 0, availableSpaces := 3, dailyEntries := 0,
        occupancyRate := 0, systemUptime := 0, lastEntry := (env.clock 5).ms,
        lastExit := (env.clock 6).ms, timestamp := (env.clock 7).ms }
    randomReads := 0
    clockReads := 33 }

end Backup

/-- A run for examples: a frame occupies the three spaces, eleven daily ticks
    follow, a frame frees the three spaces, twenty-nine daily ticks follow. -/
def fortyTicks : List Event :=
  [.message "esp32/data" "OCC:1:1:2:1:3:1;".toList] ++ List.replicate 11 .dailyTick ++
    [.message "esp32/data" "OCC:1:0:2:0:3:0;".toList] ++ List.replicate 29 .dailyTick

/-! ## Lemmas: the decoder -/

theorem extractSpacePairsLoop_eq (pairs : List Str) :
    ∀ (fuel k : Nat) (acc : List SpacePair), pairs.length / 2 ≤ k + fuel →
      extractSpacePairsLoop pairs fuel (2 * k) acc =
        acc ++ (List.range' k (pairs.length / 2 - k)).filterMap (pairAssignment pairs) := by
  intro fuel
  induction fuel with
  | zero =>
    intro k acc h
    have : pairs.length / 2 - k = 0 := by omega
    simp [extractSpacePairsLoop, this]
  | succ n ih =>
    intro k acc h
    unfold extractSpacePairsLoop
    by_cases hk : ((2 * k : Nat) : Int) < (pairs.length : Int) - 1
    · have hlt : k < pairs.length / 2 := by omega
      have hlen : pairs.length / 2 - k = (pairs.length / 2 - (k + 1)) + 1 := by omega
      rw [if_pos hk, hlen, List.range'_succ, List.filterMap_cons]
      have h2 : 2 * k + 2 = 2 * (k + 1) := by ring
      cases hid : parseIntAt pairs (2 * k) with
      | none =>
        simp only [pairAssignment, hid]
        rw [h2, ih (k + 1) acc (by omega)]
      | some id =>
        by_cases hr : 1 ≤ id ∧ id ≤ 3
        · have hin : inRange (some id) 1 3 = true := by simp [inRange, hr]
          simp only [pairAssignment, hid, hin, if_true, hr, and_self]
          rw [h2, ih (k + 1) _ (by omega)]
          cases hst : parseIntAt pairs (2 * k + 1) <;> simp [numEq]
        · have hin : inRange (some id) 1 3 = false := by
            simp only [inRange, Bool.and_eq_false_iff, decide_eq_false_iff_not]
            by_cases h1 : 1 ≤ id
            · exact Or.inr (fun h3 => hr ⟨h1, h3⟩)
            · exact Or.inl h1
          simp only [pairAssignment, hid, hin, hr, if_false]
          rw [h2, ih (k + 1) acc (by omega)]
          simp
    · have : pairs.length / 2 - k = 0 := by omega
      rw [if_neg hk, this]
      simp

theorem extractSpacePairs_eq (dataSection : Str) :
    extractSpacePairs dataSection = specSpacePairs dataSection := by
  unfold extractSpacePairs specSpacePairs
  have h := extractSpacePairsLoop_eq (split ':' dataSection) (split ':' dataSection).length 0 []
    (by omega)
  simp only [Nat.mul_zero, List.nil_append, Nat.sub_zero] at h
  simp only [h, List.range_eq_range']

theorem pairAssignment_range {tokens : List Str} {k : Nat} {p : SpacePair}
    (h : pairAssignment tokens k = some p) : 1 ≤ p.spaceId ∧ p.spaceId ≤ 3 := by
  unfold pairAssignment at h
  cases hid : parseIntAt tokens (2 * k) with
  | none => simp [hid] at h
  | some id =>
    simp only [hid] at h
    by_cases hr : 1 ≤ id ∧ id ≤ 3
    · simp only [hr, and_self, if_true, Option.some.injEq] at h
      subst h
      exact hr
    · simp [hr] at h

theorem extractSpacePairs_range (dataSection : Str) :
    ∀ p ∈ extractSpacePairs dataSection, 1 ≤ p.spaceId ∧ p.spaceId ≤ 3 := by
  intro p hp
  rw [extractSpacePairs_eq, specSpacePairs, List.mem_filterMap] at hp
  obtain ⟨k, _, hk⟩ := hp
  exact pairAssignment_range hk

theorem wellFormed_cases {s : State} (hs : WellFormed s) :
    ∃ a b c : Space, s.parkingSpaces = [a, b, c] ∧ a.id = 1 ∧ b.id = 2 ∧ c.id = 3 := by
  unfold WellFormed at hs
  rcases hps : s.parkingSpaces with _ | ⟨a, _ | ⟨b, _ | ⟨c, _ | ⟨d, t⟩⟩⟩⟩ <;>
    simp [hps] at hs
  exact ⟨a, b, c, rfl, hs.1, hs.2.1, hs.2.2⟩

/-- What `processSpaceChange` does on a well-formed store for an id in 1..3. -/
theorem processSpaceChange_spec (env : Env) (s : State) (id : Int) (b : Bool)
    (hs : WellFormed s) (hid : 1 ≤ id ∧ id ≤ 3) :
    ∃ (w : Bool) (s1 : State),
      flagOf s id = some w ∧
      processSpaceChange env s id b =
        .normal (if w = b then none else some ⟨id, w, b, (id - 1).toNat⟩) s1 ∧
      (w = b → s1 = s) ∧
      WellFormed s1 ∧
      spaceFlags s1 = (spaceFlags s).map
        (fun io => (io.1, if (io.1 : Int) = id then b else io.2)) ∧
      s1.systemStats = s.systemStats ∧ s1.published = s.published ∧
      s1.console = s.console ∧ s1.gateStatus = s.gateStatus ∧
      s1.hourlyOccupancy = s.hourlyOccupancy ∧ s1.dailyData = s.dailyData ∧
      s1.timers = s.timers := by
  obtain ⟨x, y, z, hps, hx, hy, hz⟩ := wellFormed_cases hs
  have h3 : id = 1 ∨ id = 2 ∨ id = 3 := by omega
  rcases h3 with rfl | rfl | rfl
  · refine ⟨x.occupied, ?_⟩
    by_cases hw : x.occupied = b
    · refine ⟨s, ?_⟩
      simp [flagOf, processSpaceChange, arrayGet, hps, hx, hy, hz, hw, hs, spaceFlags]
    · simp [flagOf, processSpaceChange, arrayGet, hps, hx, hy, hz, hw, WellFormed, spaceFlags,
        newDate, random]
  · refine ⟨y.occupied, ?_⟩
    by_cases hw : y.occupied = b
    · refine ⟨s, ?_⟩
      simp [flagOf, processSpaceChange, arrayGet, hps, hx, hy, hz, hw, hs, spaceFlags]
    · simp [flagOf, processSpaceChange, arrayGet, hps, hx, hy, hz, hw, WellFormed, spaceFlags,
        newDate, random]
  · refine ⟨z.occupied, ?_⟩
    by_cases hw : z.occupied = b
    · refine ⟨s, ?_⟩
      simp [flagOf, processSpaceChange, arrayGet, hps, hx, hy, hz, hw, hs, spaceFlags]
    · simp [flagOf, processSpaceChange, arrayGet, hps, hx, hy, hz, hw, WellFormed, spaceFlags,
        newDate, random]

theorem processSpacePairs_acc (env : Env) (pairs : List SpacePair) :
    ∀ (s : State) (acc : List Change),
      processSpacePairs env s pairs acc =
        match processSpacePairs env s pairs [] with
        | .normal cs s1 => .normal (acc ++ cs) s1
        | .throw e s1 => .throw e s1 := by
  induction pairs with
  | nil => intro s acc; simp [processSpacePairs]
  | cons p ps ih =>
    intro s acc
    unfold processSpacePairs
    cases hp : processSpaceChange env s p.spaceId p.isOccupied with
    | throw e s1 => simp
    | normal r s1 =>
      cases r with
      | none => simp only; exact ih s1 acc
      | some c =>
        simp only [List.nil_append]
        rw [ih s1 (acc ++ [c]), ih s1 [c]]
        cases processSpacePairs env s1 ps [] <;> simp

theorem processSpacePairs_state_acc (env : Env) (pairs : List SpacePair) (s : State)
    (acc : List Change) :
    (processSpacePairs env s pairs acc).state = (processSpacePairs env s pairs []).state := by
  rw [processSpacePairs_acc]
  cases processSpacePairs env s pairs [] <;> rfl

theorem lastAssignment_cons (p : SpacePair) (ps : List SpacePair) (id : Int) :
    lastAssignment (p :: ps) id =
      match lastAssignment ps id with
      | some b => some b
      | none => if p.spaceId = id then some p.isOccupied else none := by
  unfold lastAssignment
  rw [List.reverse_cons, List.find?_append]
  cases h : List.find? (fun pair => decide (pair.spaceId = id)) ps.reverse with
  | some q => simp
  | none =>
    by_cases hp : p.spaceId = id <;> simp [hp]

theorem stateBeforePair_succ (env : Env) (s : State) (p : SpacePair) (ps : List SpacePair)
    (j : Nat) (r : Option Change) (s1 : State)
    (h : processSpaceChange env s p.spaceId p.isOccupied = .normal r s1) :
    stateBeforePair env s (p :: ps) (j + 1) = stateBeforePair env s1 ps j := by
  unfold stateBeforePair
  rw [List.take_succ_cons]
  conv_lhs => unfold processSpacePairs
  rw [h]
  cases r with
  | none => rfl
  | some c => exact processSpacePairs_state_acc env _ s1 _

theorem expectedChange_succ (env : Env) (s : State) (p : SpacePair) (ps : List SpacePair)
    (j : Nat) (r : Option Change) (s1 : State)
    (h : processSpaceChange env s p.spaceId p.isOccupied = .normal r s1) :
    expectedChange env s (p :: ps) (j + 1) = expectedChange env s1 ps j := by
  unfold expectedChange
  rw [stateBeforePair_succ env s p ps j r s1 h]
  simp

/-- What the first `forEach` of `parseESP32Data` does on a well-formed store
    for pairs with ids in 1..3. -/
theorem processSpacePairs_spec (env : Env) (pairs : List SpacePair) :
    ∀ (s : State), WellFormed s → (∀ p ∈ pairs, 1 ≤ p.spaceId ∧ p.spaceId ≤ 3) →
      ∃ (cs : List Change) (s1 : State),
        processSpacePairs env s pairs [] = .normal cs s1 ∧
        WellFormed s1 ∧
        spaceFlags s1 = (spaceFlags s).map
          (fun io => (io.1, (lastAssignment pairs (io.1 : Int)).getD io.2)) ∧
        cs = (List.range pairs.length).filterMap (expectedChange env s pairs) ∧
        (cs = [] → s1 = s) ∧
        s1.systemStats = s.systemStats ∧ s1.published = s.published ∧
        s1.console = s.console ∧ s1.gateStatus = s.gateStatus ∧
        s1.hourlyOccupancy = s.hourlyOccupancy ∧ s1.dailyData = s.dailyData ∧
        s1.timers = s.timers := by
  induction pairs with
  | nil =>
    intro s hs _
    refine ⟨[], s, rfl, hs, ?_, rfl, fun _ => rfl, rfl, rfl, rfl, rfl, rfl, rfl, rfl⟩
    simp [lastAssignment]
  | cons p ps ih =>
    intro s hs hr
    obtain ⟨w, s1, hw, hp, hsame, hs1, hfl1, hst1, hpub1, hcon1, hg1, hh1, hd1, ht1⟩ :=
      processSpaceChange_spec env s p.spaceId p.isOccupied hs (hr p (List.mem_cons_self _ _))
    obtain ⟨cs, s2, hrun, hs2, hfl2, hcs, hnil, hst2, hpub2, hcon2, hg2, hh2, hd2, ht2⟩ :=
      ih s1 hs1 (fun q hq => hr q (List.mem_cons_of_mem _ hq))
    have hfl : spaceFlags s2 = (spaceFlags s).map
        (fun io => (io.1, (lastAssignment (p :: ps) (io.1 : Int)).getD io.2)) := by
      rw [hfl2, hfl1, List.map_map]
      apply List.map_congr_left
      intro io _
      simp only [Function.comp, lastAssignment_cons]
      cases lastAssignment ps (io.1 : Int) with
      | some b => simp
      | none =>
        by_cases hio : (io.1 : Int) = p.spaceId
        · simp [hio]
        · have hio2 : ¬ p.spaceId = (io.1 : Int) := fun h => hio h.symm
          simp [hio, hio2]
    have hexp0 : expectedChange env s (p :: ps) 0 =
        if w = p.isOccupied then none
        else some ⟨p.spaceId, w, p.isOccupied, (p.spaceId - 1).toNat⟩ := by
      simp [expectedChange, stateBeforePair, processSpacePairs, Completion.state, hw]
    have hrange : (List.range (p :: ps).length).filterMap (expectedChange env s (p :: ps)) =
        (expectedChange env s (p :: ps) 0).toList ++
          (List.range ps.length).filterMap (expectedChange env s1 ps) := by
      rw [List.length_cons, List.range_succ_eq_map, List.filterMap_cons]
      rw [List.filterMap_map]
      have : (expectedChange env s (p :: ps) ∘ Nat.succ) = expectedChange env s1 ps := by
        funext j
        exact expectedChange_succ env s p ps j _ s1 hp
      rw [this]
      cases expectedChange env s (p :: ps) 0 <;> simp
    by_cases hwb : w = p.isOccupied
    · have hs1s : s1 = s := hsame hwb
      refine ⟨cs, s2, ?_, hs2, hfl, ?_, ?_, ?_, ?_, ?_, ?_, ?_, ?_, ?_⟩
      · unfold processSpacePairs
        rw [hp]
        simp only [hwb, if_true]
        exact hrun
      · rw [hrange, hexp0, hcs]
        simp [hwb]
      · intro h; rw [hnil h, hs1s]
      · rw [hst2, hst1]
      · rw [hpub2, hpub1]
      · rw [hcon2, hcon1]
      · rw [hg2, hg1]
      · rw [hh2, hh1]
      · rw [hd2, hd1]
      · rw [ht2, ht1]
    · refine ⟨⟨p.spaceId, w, p.isOccupied, (p.spaceId - 1).toNat⟩ :: cs, s2,
        ?_, hs2, hfl, ?_, ?_, ?_, ?_, ?_, ?_, ?_, ?_, ?_⟩
      · unfold processSpacePairs
        rw [hp]
        simp only [hwb, if_false, List.nil_append]
        rw [processSpacePairs_acc, hrun]
        simp
      · rw [hrange, hexp0, hcs]
        simp [hwb]
      · intro h; simp at h
      · rw [hst2, hst1]
      · rw [hpub2, hpub1]
      · rw [hcon2, hcon1]
      · rw [hg2, hg1]
      · rw [hh2, hh1]
      · rw [hd2, hd1]
      · rw [ht2, ht1]

/-! ### Frame lemmas that need no well-formedness -/

theorem processSpaceChange_frame (env : Env) (s : State) (id : Int) (b : Bool) :
    (processSpaceChange env s id b).state.systemStats = s.systemStats ∧
    (processSpaceChange env s id b).state.published = s.published ∧
    (processSpaceChange env s id b).state.console = s.console ∧
    (processSpaceChange env s id b).state.gateStatus = s.gateStatus := by
  unfold processSpaceChange
  cases h : arrayGet s.parkingSpaces (id - 1) with
  | none => simp [h, Completion.state]
  | some space =>
    by_cases hb : space.occupied = b <;> simp [h, hb, Completion.state, newDate, random]

theorem processSpacePairs_frame (env : Env) (pairs : List SpacePair) :
    ∀ (s : State) (acc : List Change),
      (processSpacePairs env s pairs acc).state.systemStats = s.systemStats ∧
      (processSpacePairs env s pairs acc).state.published = s.published ∧
      (processSpacePairs env s pairs acc).state.console = s.console ∧
      (processSpacePairs env s pairs acc).state.gateStatus = s.gateStatus := by
  induction pairs with
  | nil => intro s acc; simp [processSpacePairs, Completion.state]
  | cons p ps ih =>
    intro s acc
    have hf := processSpaceChange_frame env s p.spaceId p.isOccupied
    unfold processSpacePairs
    cases hp : processSpaceChange env s p.spaceId p.isOccupied with
    | throw e s1 =>
      rw [hp] at hf
      simpa [Completion.state] using hf
    | normal r s1 =>
      rw [hp] at hf
      simp only [Completion.state] at hf
      cases r with
      | none =>
        simp only
        obtain ⟨h1, h2, h3, h4⟩ := ih s1 acc
        exact ⟨h1.trans hf.1, h2.trans hf.2.1, h3.trans hf.2.2.1, h4.trans hf.2.2.2⟩
      | some c =>
        simp only
        obtain ⟨h1, h2, h3, h4⟩ := ih s1 (acc ++ [c])
        exact ⟨h1.trans hf.1, h2.trans hf.2.1, h3.trans hf.2.2.1, h4.trans hf.2.2.2⟩

theorem publishSpaceUpdate_frame (env : Env) (s : State) (space : Space) :
    (publishSpaceUpdate env s space).parkingSpaces = s.parkingSpaces ∧
    (publishSpaceUpdate env s space).systemStats = s.systemStats ∧
    (publishSpaceUpdate env s space).console = s.console ∧
    (publishSpaceUpdate env s space).gateStatus = s.gateStatus ∧
    ∃ m, (publishSpaceUpdate env s space).published = s.published ++ [m] := by
  simp [publishSpaceUpdate, publish, random]

theorem updateStatsForChange_spec (env : Env) (s : State) (c : Change) :
    (updateStatsForChange env s c).parkingSpaces = s.parkingSpaces ∧
    (updateStatsForChange env s c).published = s.published ∧
    (updateStatsForChange env s c).console = s.console ∧
    (updateStatsForChange env s c).gateStatus = s.gateStatus ∧
    (updateStatsForChange env s c).systemStats.dailyEntries =
      s.systemStats.dailyEntries + (if !c.wasOccupied && c.isOccupied then 1 else 0) ∧
    (updateStatsForChange env s c).systemStats.peakOccupancy =
      max s.systemStats.peakOccupancy (occupiedCount s.parkingSpaces) ∧
    (updateStatsForChange env s c).systemStats.totalChangesToday =
      s.systemStats.totalChangesToday ∧
    (updateStatsForChange env s c).systemStats.averageOccupancyToday =
      s.systemStats.averageOccupancyToday := by
  unfold updateStatsForChange
  rcases hw : c.wasOccupied <;> rcases hi : c.isOccupied <;>
    simp only [newDate, Bool.not_true, Bool.not_false, Bool.and_true, Bool.and_false,
      Bool.false_and, Bool.true_and, if_true, if_false, Bool.false_eq_true] <;>
    split <;> rename_i hgt <;> simp at hgt ⊢ <;> omega

theorem publishChange_spec (env : Env) (s : State) (c : Change) :
    (publishChange env s c).parkingSpaces = s.parkingSpaces ∧
    (publishChange env s c).console = s.console ∧
    (publishChange env s c).gateStatus = s.gateStatus ∧
    (publishChange env s c).systemStats.dailyEntries =
      s.systemStats.dailyEntries + (if !c.wasOccupied && c.isOccupied then 1 else 0) ∧
    (publishChange env s c).systemStats.peakOccupancy =
      max s.systemStats.peakOccupancy (occupiedCount s.parkingSpaces) ∧
    (publishChange env s c).systemStats.totalChangesToday = s.systemStats.totalChangesToday ∧
    (publishChange env s c).systemStats.averageOccupancyToday =
      s.systemStats.averageOccupancyToday := by
  unfold publishChange
  cases s.parkingSpaces[c.space]? with
  | none =>
    obtain ⟨h1, _, h3, h4, h5, h6, h7, h8⟩ := updateStatsForChange_spec env s c
    exact ⟨h1, h3, h4, h5, h6, h7, h8⟩
  | some space =>
    obtain ⟨h1, _, h3, h4, h5, h6, h7, h8⟩ :=
      updateStatsForChange_spec env (publishSpaceUpdate env s space) c
    obtain ⟨g1, g2, g3, g4, _⟩ := publishSpaceUpdate_frame env s space
    simp only
    rw [g2] at h5 h6 h7 h8
    rw [g1] at h6
    exact ⟨h1.trans g1, h3.trans g3, h4.trans g4, h5, h6, h7, h8⟩

theorem foldl_publishChange_spec (env : Env) (cs : List Change) :
    ∀ s : State,
      (cs.foldl (publishChange env) s).parkingSpaces = s.parkingSpaces ∧
      (cs.foldl (publishChange env) s).console = s.console ∧
      (cs.foldl (publishChange env) s).gateStatus = s.gateStatus ∧
      (cs.foldl (publishChange env) s).systemStats.dailyEntries =
        s.systemStats.dailyEntries + arrivals cs ∧
      (cs.foldl (publishChange env) s).systemStats.peakOccupancy =
        (if cs = [] then s.systemStats.peakOccupancy
         else max s.systemStats.peakOccupancy (occupiedCount s.parkingSpaces)) ∧
      (cs.foldl (publishChange env) s).systemStats.totalChangesToday =
        s.systemStats.totalChangesToday ∧
      (cs.foldl (publishChange env) s).systemStats.averageOccupancyToday =
        s.systemStats.averageOccupancyToday := by
  induction cs with
  | nil => intro s; simp [arrivals]
  | cons c cs ih =>
    intro s
    obtain ⟨h1, h2, h3, h4, h5, h6, h7⟩ := publishChange_spec env s c
    obtain ⟨g1, g2, g3, g4, g5, g6, g7⟩ := ih (publishChange env s c)
    simp only [List.foldl_cons]
    refine ⟨g1.trans h1, g2.trans h2, g3.trans h3, ?_, ?_, g6.trans h6, g7.trans h7⟩
    · rw [g4, h4, arrivals, arrivals, List.countP_cons]
      omega
    · rw [g5, h5, h1]
      by_cases hcs : cs = [] <;> simp [hcs]

theorem publishSystemStats_frame (env : Env) (s : State) :
    (publishSystemStats env s).parkingSpaces = s.parkingSpaces ∧
    (publishSystemStats env s).systemStats = s.systemStats ∧
    (publishSystemStats env s).console = s.console ∧
    (publishSystemStats env s).gateStatus = s.gateStatus ∧
    (publishSystemStats env s).published = s.published ++
      [{ topic := "parking/stats/summary",
         payload := .stats (systemStatsSnapshot s (env.clock s.clockReads)
           (env.clock (s.clockReads + 1))) }] := by
  simp [publishSystemStats, publish, newDate]

theorem wellFormed_of_spaces {s s1 : State} (h : s1.parkingSpaces = s.parkingSpaces)
    (hs : WellFormed s) : WellFormed s1 := by
  unfold WellFormed at *
  rw [h]; exact hs

theorem spaceFlags_of_spaces {s s1 : State} (h : s1.parkingSpaces = s.parkingSpaces) :
    spaceFlags s1 = spaceFlags s := by
  unfold spaceFlags
  rw [h]

/-- What `parseESP32Data` does with a valid frame on a well-formed store. -/
theorem parseESP32Data_spec (env : Env) (s : State) (rawData : Str)
    (hs : WellFormed s) (hv : isValidESP32Format rawData = true) :
    ∃ (cs : List Change) (s1 : State),
      parseESP32Data env s rawData = .normal () s1 ∧
      frameChanges env s rawData = some cs ∧
      cs = (List.range (extractSpacePairs (slice rawData 4 (-1))).length).filterMap
        (expectedChange env s (extractSpacePairs (slice rawData 4 (-1)))) ∧
      WellFormed s1 ∧
      spaceFlags s1 = (spaceFlags s).map
        (fun io => (io.1,
          (lastAssignment (extractSpacePairs (slice rawData 4 (-1))) (io.1 : Int)).getD io.2)) ∧
      s1.gateStatus = s.gateStatus ∧
      s1.systemStats.dailyEntries = s.systemStats.dailyEntries + arrivals cs ∧
      s1.systemStats.peakOccupancy =
        (if cs = [] then s.systemStats.peakOccupancy
         else max s.systemStats.peakOccupancy (occupiedCount s1.parkingSpaces)) ∧
      (cs = [] → s1 = consoleLog s .noStateChange) := by
  obtain ⟨cs, s1, hrun, hs1, hfl, hcs, hnil, hst, hpub, hcon, hg, hh, hd, ht⟩ :=
    processSpacePairs_spec env (extractSpacePairs (slice rawData 4 (-1))) s hs
      (extractSpacePairs_range _)
  have hfc : frameChanges env s rawData = some cs := by
    simp [frameChanges, hv, hrun, Completion.value?]
  by_cases hempty : cs = []
  · refine ⟨cs, consoleLog s1 .noStateChange, ?_, hfc, hcs, ?_, ?_, ?_, ?_, ?_, ?_⟩
    · simp [parseESP32Data, hv, hrun, hempty]
    · exact wellFormed_of_spaces rfl hs1
    · rw [← hfl]; exact spaceFlags_of_spaces rfl
    · exact hg
    · simp [consoleLog, hst, hempty, arrivals]
    · simp [consoleLog, hst, hempty]
    · intro _; rw [hnil hempty]
  · obtain ⟨f1, f2, f3, f4, f5, f6, f7⟩ := foldl_publishChange_spec env cs s1
    obtain ⟨p1, p2, p3, p4, p5⟩ := publishSystemStats_frame env (cs.foldl (publishChange env) s1)
    have hlen : 0 < cs.length := List.length_pos.mpr hempty
    refine ⟨cs,
      { publishSystemStats env (cs.foldl (publishChange env) s1) with
        systemStats :=
          { (publishSystemStats env (cs.foldl (publishChange env) s1)).systemStats with
            totalChangesToday :=
              (publishSystemStats env
                (cs.foldl (publishChange env) s1)).systemStats.totalChangesToday + 1 } },
      ?_, hfc, hcs, ?_, ?_, ?_, ?_, ?_, ?_⟩
    · simp only [parseESP32Data, hv, Bool.not_true, Bool.false_eq_true, if_false, hrun,
        gt_iff_lt, hlen, if_true]
    · exact wellFormed_of_spaces (show _ = s1.parkingSpaces by simp only [p1, f1]) hs1
    · rw [← hfl]
      exact spaceFlags_of_spaces (show _ = s1.parkingSpaces by simp only [p1, f1])
    · simp only [p4, f3, hg]
    · simp only [p2, f4, hst]
    · simp only [p2, f5, hst, hempty, if_false, p1, f1]
    · intro h; exact absurd h hempty

theorem split_ne_nil (sep : Char) (s : Str) : split sep s ≠ [] := by
  induction s with
  | nil => simp [split]
  | cons c cs ih =>
    unfold split
    by_cases h : c = sep
    · simp [h]
    · simp only [h, if_false]
      cases hsp : split sep cs <;> simp

theorem split_append_sep (sep : Char) (a t : Str) :
    split sep (a ++ sep :: t) = split sep a ++ split sep t := by
  induction a with
  | nil => simp [split]
  | cons c cs ih =>
    by_cases h : c = sep
    · simp [split, h, ih]
    · have hne := split_ne_nil sep cs
      cases hsp : split sep cs with
      | nil => exact absurd hsp hne
      | cons x xs => simp [split, h, ih, hsp]

theorem split_no_sep (sep : Char) (t : Str) (h : ∀ c ∈ t, c ≠ sep) : split sep t = [t] := by
  induction t with
  | nil => simp [split]
  | cons c cs ih =>
    have hc : c ≠ sep := h c (List.mem_cons_self _ _)
    have := ih (fun d hd => h d (List.mem_cons_of_mem _ hd))
    simp [split, hc, this]

theorem pairAssignment_append (tokens extra : List Str) (k : Nat)
    (hk : 2 * k + 1 < tokens.length) :
    pairAssignment (tokens ++ extra) k = pairAssignment tokens k := by
  have h1 : (tokens ++ extra)[2 * k]? = tokens[2 * k]? :=
    List.getElem?_append_left (by omega)
  have h2 : (tokens ++ extra)[2 * k + 1]? = tokens[2 * k + 1]? :=
    List.getElem?_append_left hk
  simp [pairAssignment, parseIntAt, h1, h2]

theorem extractSpacePairs_trailing (dataSection t : Str) (ht : ∀ c ∈ t, c ≠ ':')
    (heven : (split ':' dataSection).length % 2 = 0) :
    extractSpacePairs (dataSection ++ ':' :: t) = extractSpacePairs dataSection := by
  rw [extractSpacePairs_eq, extractSpacePairs_eq]
  unfold specSpacePairs
  simp only [split_append_sep, split_no_sep ':' t ht, List.length_append, List.length_singleton]
  have hlen : ((split ':' dataSection).length + 1) / 2 = (split ':' dataSection).length / 2 := by
    omega
  rw [hlen]
  apply List.filterMap_congr
  intro k hk
  rw [List.mem_range] at hk
  exact pairAssignment_append _ _ k (by omega)

theorem processSpacePairs_reassert (env : Env) (pairs : List SpacePair) (s : State)
    (hs : WellFormed s) (hr : ∀ p ∈ pairs, 1 ≤ p.spaceId ∧ p.spaceId ≤ 3) :
    (∀ p ∈ pairs, flagOf s p.spaceId = some p.isOccupied) ↔
      processSpacePairs env s pairs [] = .normal [] s := by
  induction pairs with
  | nil => simp [processSpacePairs]
  | cons p ps ih =>
    obtain ⟨w, s1, hw, hp, hsame, _⟩ :=
      processSpaceChange_spec env s p.spaceId p.isOccupied hs (hr p (List.mem_cons_self _ _))
    have ih1 := ih (fun q hq => hr q (List.mem_cons_of_mem _ hq))
    by_cases hwb : w = p.isOccupied
    · have hs1 : s1 = s := hsame hwb
      have hunf : processSpacePairs env s (p :: ps) [] = processSpacePairs env s ps [] := by
        conv_lhs => unfold processSpacePairs
        rw [hp]
        simp [hwb, hs1]
      rw [hunf, ← ih1]
      constructor
      · intro h q hq
        exact h q (List.mem_cons_of_mem _ hq)
      · intro h q hq
        rcases List.mem_cons.mp hq with rfl | hq
        · rw [hw, hwb]
        · exact h q hq
    · have hunf : processSpacePairs env s (p :: ps) [] =
          processSpacePairs env s1 ps [⟨p.spaceId, w, p.isOccupied, (p.spaceId - 1).toNat⟩] := by
        conv_lhs => unfold processSpacePairs
        rw [hp]
        simp [hwb]
      constructor
      · intro h
        have := h p (List.mem_cons_self _ _)
        rw [hw] at this
        exact absurd (Option.some.inj this) hwb
      · intro h
        rw [hunf, processSpacePairs_acc] at h
        cases hrun : processSpacePairs env s1 ps [] with
        | normal cs s2 => simp [hrun] at h
        | throw e s2 => simp [hrun] at h

theorem expectedChange_differs (env : Env) (s : State) (pairs : List SpacePair) (j : Nat)
    (c : Change) (h : expectedChange env s pairs j = some c) :
    c.wasOccupied ≠ c.isOccupied := by
  unfold expectedChange at h
  cases hp : pairs[j]? with
  | none => simp [hp] at h
  | some pair =>
    simp only [hp] at h
    cases hf : flagOf (stateBeforePair env s pairs j) pair.spaceId with
    | none => simp [hf] at h
    | some was =>
      simp only [hf] at h
      by_cases hw : was = pair.isOccupied
      · simp [hw] at h
      · simp only [hw, if_false, Option.some.injEq] at h
        subst h
        exact hw

theorem parseESP32Data_invalid (env : Env) (s : State) (rawData : Str)
    (hv : isValidESP32Format rawData = false) :
    parseESP32Data env s rawData = .normal () (consoleLog s (.dataFormatNotRecognized rawData)) ∧
    frameChanges env s rawData = some [] := by
  simp [parseESP32Data, frameChanges, hv]

/-- Without any assumption on the store, `parseESP32Data` lowers neither
    `dailyEntries` nor `peakOccupancy` and leaves the gates alone. -/
theorem parseESP32Data_mono (env : Env) (s : State) (rawData : Str) :
    s.systemStats.dailyEntries ≤ (parseESP32Data env s rawData).state.systemStats.dailyEntries ∧
    s.systemStats.peakOccupancy ≤ (parseESP32Data env s rawData).state.systemStats.peakOccupancy ∧
    (parseESP32Data env s rawData).state.gateStatus = s.gateStatus := by
  unfold parseESP32Data
  by_cases hv : isValidESP32Format rawData = true
  · obtain ⟨h1, _, _, h4⟩ :=
      processSpacePairs_frame env (extractSpacePairs (slice rawData 4 (-1))) s []
    simp only [hv, Bool.not_true, Bool.false_eq_true, if_false]
    cases hrun : processSpacePairs env s (extractSpacePairs (slice rawData 4 (-1))) [] with
    | throw e s1 =>
      rw [hrun] at h1 h4
      simp only [Completion.state] at h1 h4 ⊢
      rw [h1, h4]
      exact ⟨le_refl _, le_refl _, rfl⟩
    | normal cs s1 =>
      rw [hrun] at h1 h4
      simp only [Completion.state] at h1 h4
      obtain ⟨f1, f2, f3, f4, f5, f6, f7⟩ := foldl_publishChange_spec env cs s1
      obtain ⟨p1, p2, p3, p4, p5⟩ :=
        publishSystemStats_frame env (cs.foldl (publishChange env) s1)
      by_cases hlen : cs.length > 0
      · simp only [hlen, if_true, Completion.state, p2, f4, f5, p4, f3, h4, h1]
        refine ⟨by omega, ?_, trivial⟩
        split
        · exact le_refl _
        · exact le_max_left _ _
      · simp only [hlen, if_false, Completion.state, consoleLog, h1, h4]
        exact ⟨le_refl _, le_refl _, trivial⟩
  · simp only [hv, Bool.not_false, if_true, Completion.state, consoleLog]
    exact ⟨le_refl _, le_refl _, trivial⟩

theorem applyFrames_dailyEntries_mono (env : Env) (frames : List Str) :
    ∀ s : State,
      s.systemStats.dailyEntries ≤ (applyFrames env s frames).systemStats.dailyEntries := by
  induction frames with
  | nil => intro s; exact le_refl _
  | cons f fs ih =>
    intro s
    have h1 := (parseESP32Data_mono env s f).1
    have h2 := ih (parseESP32Data env s f).state
    simp only [applyFrames, List.foldl_cons] at h2 ⊢
    exact le_trans h1 h2

theorem flagOf_eq_spaceFlags (s : State) (id : Int) :
    flagOf s id =
      ((spaceFlags s).find? (fun io => decide ((io.1 : Int) = id))).map Prod.snd := by
  unfold flagOf spaceFlags
  rw [List.find?_map, Option.map_map]
  rfl

theorem flagOf_after (s s1 : State) (id : Int) (g : Int → Bool → Bool) (w : Bool)
    (hfl : spaceFlags s1 = (spaceFlags s).map (fun io => (io.1, g (io.1 : Int) io.2)))
    (hw : flagOf s id = some w) : flagOf s1 id = some (g id w) := by
  rw [flagOf_eq_spaceFlags] at hw ⊢
  rw [hfl, List.find?_map]
  have hcomp : ((fun io : Nat × Bool => decide ((io.1 : Int) = id)) ∘
      fun io : Nat × Bool => (io.1, g (io.1 : Int) io.2)) =
      fun io : Nat × Bool => decide ((io.1 : Int) = id) := rfl
  rw [hcomp]
  cases hf : List.find? (fun io : Nat × Bool => decide ((io.1 : Int) = id)) (spaceFlags s) with
  | none => rw [hf] at hw; simp at hw
  | some io =>
    rw [hf] at hw
    have hid : (io.1 : Int) = id := by
      have := List.find?_some hf
      simpa using this
    simp only [Option.map_some', Option.some.injEq] at hw ⊢
    rw [hid, hw]

theorem lastAssignment_of_mem (pairs : List SpacePair) (p : SpacePair) (hp : p ∈ pairs) :
    ∃ q ∈ pairs, q.spaceId = p.spaceId ∧ lastAssignment pairs p.spaceId = some q.isOccupied := by
  unfold lastAssignment
  cases hf : List.find? (fun pair => decide (pair.spaceId = p.spaceId)) pairs.reverse with
  | none =>
    rw [List.find?_eq_none] at hf
    have := hf p (List.mem_reverse.mpr hp)
    simp at this
  | some q =>
    have hq : q ∈ pairs := List.mem_reverse.mp (List.mem_of_find?_eq_some hf)
    have hid : q.spaceId = p.spaceId := by
      have := List.find?_some hf
      simpa using this
    exact ⟨q, hq, hid, rfl⟩

theorem consistent_iff_lastAssignment (pairs : List SpacePair) :
    Consistent pairs ↔ ∀ p ∈ pairs, lastAssignment pairs p.spaceId = some p.isOccupied := by
  constructor
  · intro hc p hp
    obtain ⟨q, hq, hid, hl⟩ := lastAssignment_of_mem pairs p hp
    rw [hl, hc q hq p hp hid]
  · intro h p hp q hq hid
    have h1 := h p hp
    have h2 := h q hq
    rw [hid, h2] at h1
    exact (Option.some.inj h1).symm

/-! ## Lemmas: double-precision arithmetic -/

theorem roundHalfEven_cases (q : ℚ) :
    (roundHalfEven q = ⌊q⌋ ∧ q - ⌊q⌋ ≤ 1 / 2) ∨ (roundHalfEven q = ⌊q⌋ + 1 ∧ 1 / 2 ≤ q - ⌊q⌋) := by
  unfold roundHalfEven
  simp only []
  split_ifs with h1 h2 h3
  · exact Or.inl ⟨rfl, le_of_lt h1⟩
  · exact Or.inr ⟨rfl, le_of_lt h2⟩
  · exact Or.inl ⟨rfl, le_of_not_lt h2⟩
  · exact Or.inr ⟨rfl, le_of_not_lt h1⟩

theorem roundHalfEven_le {q : ℚ} {b : ℤ} (h : q ≤ b) : roundHalfEven q ≤ b := by
  have h1 := Int.floor_le q
  rcases roundHalfEven_cases q with ⟨e, _⟩ | ⟨e, hf⟩
  · rw [e]
    exact_mod_cast h1.trans h
  · rw [e]
    have : ((⌊q⌋ : ℤ) : ℚ) < b := by linarith
    have : ⌊q⌋ < b := by exact_mod_cast this
    omega

theorem le_roundHalfEven {q : ℚ} {a : ℤ} (h : (a : ℚ) ≤ q) : a ≤ roundHalfEven q := by
  have h1 : a ≤ ⌊q⌋ := Int.le_floor.mpr h
  rcases roundHalfEven_cases q with ⟨e, _⟩ | ⟨e, _⟩ <;> rw [e] <;> omega

theorem roundHalfEven_le_pred {q : ℚ} {b : ℤ} (h : q < b - 1 / 2) : roundHalfEven q ≤ b - 1 := by
  have h1 := Int.floor_le q
  rcases roundHalfEven_cases q with ⟨e, _⟩ | ⟨e, hf⟩
  · rw [e]
    have : ((⌊q⌋ : ℤ) : ℚ) < b := by linarith
    have : ⌊q⌋ < b := by exact_mod_cast this
    omega
  · rw [e]
    have : ((⌊q⌋ : ℤ) : ℚ) + 1 < b := by linarith
    have : ⌊q⌋ + 1 < b := by exact_mod_cast this
    omega

theorem succ_le_roundHalfEven {q : ℚ} {a : ℤ} (h : (a : ℚ) + 1 / 2 < q) :
    a + 1 ≤ roundHalfEven q := by
  have h2 := Int.lt_floor_add_one q
  rcases roundHalfEven_cases q with ⟨e, hf⟩ | ⟨e, _⟩
  · rw [e]
    have : (a : ℚ) < ⌊q⌋ := by linarith
    have : a < ⌊q⌋ := by exact_mod_cast this
    omega
  · rw [e]
    have : (a : ℚ) < ⌊q⌋ + 1 := by linarith
    have : a < ⌊q⌋ + 1 := by exact_mod_cast this
    omega

theorem roundHalfEven_eq {q : ℚ} {n : ℤ} (h1 : (n : ℚ) - 1 / 2 < q) (h2 : q < n + 1 / 2) :
    roundHalfEven q = n := by
  have ha : roundHalfEven q ≤ (n + 1) - 1 := roundHalfEven_le_pred (by push_cast; linarith)
  have hb : (n - 1) + 1 ≤ roundHalfEven q := succ_le_roundHalfEven (by push_cast; linarith)
  omega

theorem ulpExponent_eq {x : ℚ} {e : ℤ} (h1 : (2 : ℚ) ^ e ≤ |x|) (h2 : |x| < 2 ^ (e + 1))
    (he : -1022 ≤ e) : ulpExponent x = e - 52 := by
  have hpos : 0 < |x| := lt_of_lt_of_le (zpow_pos (by norm_num) e) h1
  have ha : e ≤ Int.log 2 |x| := (Int.zpow_le_iff_le_log (by norm_num) hpos).mp (by exact_mod_cast h1)
  have hb : Int.log 2 |x| < e + 1 :=
    (Int.lt_zpow_iff_log_lt (by norm_num) hpos).mp (by exact_mod_cast h2)
  unfold ulpExponent
  have : Int.log 2 |x| = e := by omega
  rw [this, max_eq_left he]

theorem ulpExponent_le {x : ℚ} {k : ℤ} (h : |x| < 2 ^ (k + 53)) (hk0 : -53 < k) : ulpExponent x ≤ k := by
  unfold ulpExponent
  have hl : Int.log 2 |x| ≤ k + 52 := by
    rcases eq_or_lt_of_le (abs_nonneg x) with h0 | hpos
    · rw [← h0, Int.log_zero_right]
      omega
    · have := (Int.lt_zpow_iff_log_lt (b := 2) (by norm_num) hpos).mp (by exact_mod_cast h)
      omega
  have := max_le hl (show (-1022 : ℤ) ≤ k + 52 by omega)
  omega

theorem toDouble_le_int {x : ℚ} {b : ℤ} (h : x ≤ b) (hx : |x| < 2 ^ (53 : ℤ)) :
    toDouble x ≤ b := by
  have hk : ulpExponent x ≤ 0 := ulpExponent_le (k := 0) (by simpa using hx) (by norm_num)
  unfold toDouble
  set k := ulpExponent x with hkdef
  obtain ⟨n, hn⟩ : ∃ n : ℕ, -k = n := ⟨(-k).toNat, by omega⟩
  have hkn : k = -(n : ℤ) := by omega
  have hp : (0 : ℚ) < 2 ^ k := zpow_pos (by norm_num) k
  have e1 : (2 : ℚ) ^ k = ((2 : ℚ) ^ n)⁻¹ := by rw [hkn, zpow_neg, zpow_natCast]
  have hq : x / 2 ^ k ≤ ((b * 2 ^ n : ℤ) : ℚ) := by
    rw [e1, div_inv_eq_mul]
    push_cast
    exact mul_le_mul_of_nonneg_right h (by positivity)
  have hr := roundHalfEven_le hq
  have hr2 : (roundHalfEven (x / 2 ^ k) : ℚ) ≤ ((b * 2 ^ n : ℤ) : ℚ) := by exact_mod_cast hr
  calc (roundHalfEven (x / 2 ^ k) : ℚ) * 2 ^ k ≤ ((b * 2 ^ n : ℤ) : ℚ) * 2 ^ k :=
        mul_le_mul_of_nonneg_right hr2 (le_of_lt hp)
    _ = b := by
        rw [e1]
        push_cast
        field_simp

theorem int_le_toDouble {x : ℚ} {a : ℤ} (h : (a : ℚ) ≤ x) (hx : |x| < 2 ^ (53 : ℤ)) :
    (a : ℚ) ≤ toDouble x := by
  have hk : ulpExponent x ≤ 0 := ulpExponent_le (k := 0) (by simpa using hx) (by norm_num)
  unfold toDouble
  set k := ulpExponent x with hkdef
  obtain ⟨n, hn⟩ : ∃ n : ℕ, -k = n := ⟨(-k).toNat, by omega⟩
  have hkn : k = -(n : ℤ) := by omega
  have hp : (0 : ℚ) < 2 ^ k := zpow_pos (by norm_num) k
  have e1 : (2 : ℚ) ^ k = ((2 : ℚ) ^ n)⁻¹ := by rw [hkn, zpow_neg, zpow_natCast]
  have hq : ((a * 2 ^ n : ℤ) : ℚ) ≤ x / 2 ^ k := by
    rw [e1, div_inv_eq_mul]
    push_cast
    exact mul_le_mul_of_nonneg_right h (by positivity)
  have hr := le_roundHalfEven hq
  have hr2 : ((a * 2 ^ n : ℤ) : ℚ) ≤ (roundHalfEven (x / 2 ^ k) : ℚ) := by exact_mod_cast hr
  calc (a : ℚ) = ((a * 2 ^ n : ℤ) : ℚ) * 2 ^ k := by
        rw [e1]
        push_cast
        field_simp
    _ ≤ (roundHalfEven (x / 2 ^ k) : ℚ) * 2 ^ k := mul_le_mul_of_nonneg_right hr2 (le_of_lt hp)

/-- The double of a value, from its binade and the integer its significand
    rounds to. -/
theorem toDouble_eval {x : ℚ} (e n : ℤ) (h1 : (2 : ℚ) ^ e ≤ |x|) (h2 : |x| < 2 ^ (e + 1))
    (he : -1022 ≤ e) (h3 : (n : ℚ) - 1 / 2 < x / 2 ^ (e - 52))
    (h4 : x / 2 ^ (e - 52) < n + 1 / 2) : toDouble x = n * 2 ^ (e - 52) := by
  unfold toDouble
  rw [ulpExponent_eq h1 h2 he, roundHalfEven_eq h3 h4]

theorem toDouble_zero : toDouble 0 = 0 := by
  unfold toDouble
  rw [zero_div, roundHalfEven_eq (n := 0) (by norm_num) (by norm_num)]
  simp

/-- The literal `0.2`: the double next to one fifth. -/
theorem toDouble_one_fifth : toDouble 0.2 = 7205759403792794 / 2 ^ 55 := by
  rw [toDouble_eval (-3) 7205759403792794 (by norm_num [abs_of_nonneg])
    (by norm_num [abs_of_nonneg]) (by norm_num) (by norm_num) (by norm_num)]
  norm_num

theorem div_three_double (k : Nat) (hk : k ≤ 3) :
    Double.mul (Double.div (k : ℚ) 3) 100 =
      if k = 0 then 0
      else if k = 1 then 4691249611844266 / 2 ^ 47
      else if k = 2 then 4691249611844266 / 2 ^ 46
      else 100 := by
  have h : k = 0 ∨ k = 1 ∨ k = 2 ∨ k = 3 := by omega
  rcases h with rfl | rfl | rfl | rfl
  · simp [Double.mul, Double.div, toDouble_zero]
  · have h1 : toDouble ((1 : ℚ) / 3) = 6004799503160661 / 2 ^ 54 := by
      rw [toDouble_eval (-2) 6004799503160661 (by norm_num [abs_of_nonneg])
        (by norm_num [abs_of_nonneg]) (by norm_num) (by norm_num) (by norm_num)]
      norm_num
    have h2 : toDouble ((6004799503160661 : ℚ) / 2 ^ 54 * 100) = 4691249611844266 / 2 ^ 47 := by
      rw [toDouble_eval 5 4691249611844266 (by norm_num [abs_of_nonneg])
        (by norm_num [abs_of_nonneg]) (by norm_num) (by norm_num) (by norm_num)]
      norm_num
    simp only [Double.mul, Double.div, Nat.cast_one, h1, h2]
    norm_num
  · have h1 : toDouble ((2 : ℚ) / 3) = 6004799503160661 / 2 ^ 53 := by
      rw [toDouble_eval (-1) 6004799503160661 (by norm_num [abs_of_nonneg])
        (by norm_num [abs_of_nonneg]) (by norm_num) (by norm_num) (by norm_num)]
      norm_num
    have h2 : toDouble ((6004799503160661 : ℚ) / 2 ^ 53 * 100) = 4691249611844266 / 2 ^ 46 := by
      rw [toDouble_eval 6 4691249611844266 (by norm_num [abs_of_nonneg])
        (by norm_num [abs_of_nonneg]) (by norm_num) (by norm_num) (by norm_num)]
      norm_num
    simp only [Double.mul, Double.div, Nat.cast_ofNat, h1, h2]
    norm_num
  · have h1 : toDouble ((3 : ℚ) / 3) = 1 := by
      rw [toDouble_eval 0 (2 ^ 52) (by norm_num [abs_of_nonneg])
        (by norm_num [abs_of_nonneg]) (by norm_num) (by norm_num) (by norm_num)]
      norm_num
    have h2 : toDouble ((1 : ℚ) * 100) = 100 := by
      rw [toDouble_eval 6 (100 * 2 ^ 46) (by norm_num [abs_of_nonneg])
        (by norm_num [abs_of_nonneg]) (by norm_num) (by norm_num) (by norm_num)]
      norm_num
    simp only [Double.mul, Double.div, Nat.cast_ofNat, h1, h2]
    norm_num

/-! ### Rounding and the occupancy rate -/

theorem Math.round_eq_floor (x : ℚ) : Math.round x = ⌊x + 1 / 2⌋ := rfl

theorem occupiedCount_le_length (spaces : List Space) :
    occupiedCount spaces ≤ spaces.length :=
  List.length_filter_le _ _

theorem wellFormed_length {s : State} (hs : WellFormed s) : s.parkingSpaces.length = 3 := by
  have := congrArg List.length hs
  simpa using this

theorem occupancyRate_table (k : Nat) (hk : k ≤ 3) :
    Math.round ((k : ℚ) / ((3 : Nat) : ℚ) * 100) = rateOfThree k := by
  have h : k = 0 ∨ k = 1 ∨ k = 2 ∨ k = 3 := by omega
  rcases h with rfl | rfl | rfl | rfl <;> simp only [Math.round_eq_floor, rateOfThree] <;>
    norm_num

theorem occupancyRate_double (k : Nat) (hk : k ≤ 3) :
    Math.round (Double.mul (Double.div (k : ℚ) 3) 100) = rateOfThree k := by
  rw [div_three_double k hk]
  have h : k = 0 ∨ k = 1 ∨ k = 2 ∨ k = 3 := by omega
  rcases h with rfl | rfl | rfl | rfl <;> simp only [Math.round_eq_floor, rateOfThree] <;>
    norm_num

/-! ### Every event keeps the store well formed -/

theorem foldl_publishSpaceUpdate_spaces (env : Env) (l : List Space) :
    ∀ s : State, (l.foldl (publishSpaceUpdate env) s).parkingSpaces = s.parkingSpaces := by
  induction l with
  | nil => intro s; rfl
  | cons x xs ih =>
    intro s
    rw [List.foldl_cons, ih]
    exact (publishSpaceUpdate_frame env s x).1

theorem publishGateStatus_spaces (env : Env) (s : State) (t : GateType) :
    (publishGateStatus env s t).parkingSpaces = s.parkingSpaces := by
  simp [publishGateStatus, publish, newDate]

theorem publishInitialData_spaces (env : Env) (s : State) :
    (publishInitialData env s).parkingSpaces = s.parkingSpaces := by
  simp only [publishInitialData, publish]
  rw [(publishSystemStats_frame env _).1, publishGateStatus_spaces, publishGateStatus_spaces,
    foldl_publishSpaceUpdate_spaces]

theorem publishGateUpdate_spaces (env : Env) (s : State) (t : GateType) (b : Bool) :
    (publishGateUpdate env s t b).parkingSpaces = s.parkingSpaces := by
  simp [publishGateUpdate, publish, newDate]

theorem parseBarrierDataLoop_spaces (env : Env) (pairs : List Str) :
    ∀ (fuel i : Nat) (s : State),
      (parseBarrierDataLoop env pairs fuel i s).parkingSpaces = s.parkingSpaces := by
  intro fuel
  induction fuel with
  | zero => intro i s; rfl
  | succ n ih =>
    intro i s
    unfold parseBarrierDataLoop
    by_cases h1 : (i : Int) < (pairs.length : Int) - 1
    · simp only [h1, if_true]
      by_cases h2 : (numEq (parseIntAt pairs i) 1 || numEq (parseIntAt pairs i) 2) = true
      · simp only [h2, if_true]
        rw [ih]
        split <;> split <;> simp only [publishGateUpdate_spaces]
      · simp only [h2]
        exact ih _ _
    · simp only [h1, if_false]

theorem parseBarrierData_spaces (env : Env) (s : State) (rawData : Str) :
    (parseBarrierData env s rawData).parkingSpaces = s.parkingSpaces :=
  parseBarrierDataLoop_spaces env _ _ _ _

theorem publishGatePhase_spaces (env : Env) (s : State) (t : GateType) (phase : GatePhase)
    (angle : Nat) (action : String) :
    (publishGatePhase env s t phase angle action).parkingSpaces = s.parkingSpaces := by
  simp [publishGatePhase, publish, newDate]

theorem runTimer_spaces (env : Env) (s : State) (t : Timer) :
    (runTimer env s t).parkingSpaces = s.parkingSpaces := by
  unfold runTimer
  cases t.stage <;> simp [setTimeout, publishGatePhase_spaces]

theorem simulateGateActivity_spaces (env : Env) (s : State) :
    (simulateGateActivity env s).parkingSpaces = s.parkingSpaces := by
  unfold simulateGateActivity
  simp only [random]
  split
  · simp [simulateGateSequence, setTimeout, publishGatePhase_spaces]
  · rfl

theorem updateHourlyData_spaces (env : Env) (s : State) :
    (updateHourlyData env s).parkingSpaces = s.parkingSpaces := by
  simp [updateHourlyData, publish, newDate]

theorem calculateDailyStats_spaces (s : State) :
    (calculateDailyStats s).parkingSpaces = s.parkingSpaces := by
  simp [calculateDailyStats]

theorem parseESP32Data_wellFormed (env : Env) (s : State) (rawData : Str)
    (hs : WellFormed s) : WellFormed (parseESP32Data env s rawData).state := by
  by_cases hv : isValidESP32Format rawData = true
  · obtain ⟨_, s1, hrun, _, _, hwf, _⟩ := parseESP32Data_spec env s rawData hs hv
    rw [hrun]
    exact hwf
  · have hv2 : isValidESP32Format rawData = false := by simpa using hv
    rw [(parseESP32Data_invalid env s rawData hv2).1]
    exact hs

theorem handleRawData_wellFormed (env : Env) (s : State) (rawData : Str)
    (hs : WellFormed s) : WellFormed (handleRawData env s rawData).state := by
  unfold handleRawData
  split
  · exact parseESP32Data_wellFormed env s rawData hs
  · split
    · exact wellFormed_of_spaces (parseBarrierData_spaces env s _) hs
    · exact hs

theorem onMessage_wellFormed (env : Env) (s : State) (topic : String) (message : Str)
    (hs : WellFormed s) : WellFormed (onMessage env s topic message).state := by
  unfold onMessage
  split
  · simp only [newDate]
    have h := handleRawData_wellFormed env { s with clockReads := s.clockReads + 1 }
      (trim message) hs
    cases hp : handleRawData env { s with clockReads := s.clockReads + 1 } (trim message) with
    | normal v s1 => rw [hp] at h; exact h
    | throw e s1 => rw [hp] at h; exact h
  · exact hs

theorem step_wellFormed (env : Env) (s : State) (e : Event) (hs : WellFormed s) :
    WellFormed (step env s e) := by
  cases e with
  | connect => exact wellFormed_of_spaces (publishInitialData_spaces env s) hs
  | message topic text => exact onMessage_wellFormed env s topic text hs
  | gateTick => exact wellFormed_of_spaces (simulateGateActivity_spaces env s) hs
  | hourlyTick => exact wellFormed_of_spaces (updateHourlyData_spaces env s) hs
  | statsTick => exact wellFormed_of_spaces (publishSystemStats_frame env s).1 hs
  | dailyTick => exact wellFormed_of_spaces (calculateDailyStats_spaces s) hs
  | timeout k =>
    simp only [step]
    cases s.timers[k]? with
    | none => exact hs
    | some t => exact wellFormed_of_spaces (runTimer_spaces env _ t) hs

theorem run_wellFormed (env : Env) (events : List Event) :
    ∀ s : State, WellFormed s → WellFormed (run env s events) := by
  induction events with
  | nil => intro s hs; exact hs
  | cons e es ih =>
    intro s hs
    exact ih _ (step_wellFormed env s e hs)

theorem reachable_wellFormed (env : Env) (s : State) (h : Reachable env s) : WellFormed s := by
  obtain ⟨events, rfl⟩ := h
  exact run_wellFormed env events _ rfl

/-! ### Sequences of frames -/

theorem stateAfter_succ (env : Env) (frames : List Str) (n : Nat) (hn : n < frames.length) :
    stateAfter env frames (n + 1) =
      (parseESP32Data env (stateAfter env frames n) frames[n]).state := by
  unfold stateAfter
  have htake : frames.take (n + 1) = frames.take n ++ [frames[n]] := by
    rw [List.take_succ]
    simp [List.getElem?_eq_getElem hn]
  rw [htake]
  simp only [applyFrames, List.foldl_append, List.foldl_cons, List.foldl_nil]

theorem stateAfter_of_le (env : Env) (frames : List Str) (n : Nat) (hn : frames.length ≤ n) :
    stateAfter env frames n = stateAfter env frames frames.length := by
  unfold stateAfter
  rw [List.take_of_length_le hn, List.take_of_length_le (le_refl _)]

theorem stateAfter_wellFormed (env : Env) (frames : List Str) (n : Nat) :
    WellFormed (stateAfter env frames n) := by
  induction n with
  | zero => simp only [stateAfter, List.take_zero, applyFrames, List.foldl_nil]; rfl
  | succ n ih =>
    by_cases hn : n < frames.length
    · rw [stateAfter_succ env frames n hn]
      exact parseESP32Data_wellFormed env _ _ ih
    · rw [stateAfter_of_le env frames (n + 1) (by omega),
        ← stateAfter_of_le env frames n (by omega)]
      exact ih

/-- The effect of one frame on `peakOccupancy`, on a well-formed store. -/
theorem parseESP32Data_peak (env : Env) (s : State) (rawData : Str) (hs : WellFormed s) :
    ∃ cs : List Change, frameChanges env s rawData = some cs ∧
      (parseESP32Data env s rawData).state.systemStats.peakOccupancy =
        (if cs = [] then s.systemStats.peakOccupancy
         else max s.systemStats.peakOccupancy
           (occupiedCount (parseESP32Data env s rawData).state.parkingSpaces)) ∧
      (cs = [] → (parseESP32Data env s rawData).state.parkingSpaces = s.parkingSpaces) := by
  by_cases hv : isValidESP32Format rawData = true
  · obtain ⟨cs, s1, hrun, hfc, _, _, _, _, _, hpk, hnil⟩ :=
      parseESP32Data_spec env s rawData hs hv
    refine ⟨cs, hfc, ?_, ?_⟩
    · rw [hrun]; exact hpk
    · intro h; rw [hrun, Completion.state, hnil h]; rfl
  · have hv2 : isValidESP32Format rawData = false := by simpa using hv
    obtain ⟨h1, h2⟩ := parseESP32Data_invalid env s rawData hv2
    refine ⟨[], h2, ?_, ?_⟩
    · rw [h1]; rfl
    · intro _; rw [h1]; rfl

theorem foldl_max_snoc (l : List Nat) (x : Nat) :
    (l ++ [x]).foldl max 0 = max (l.foldl max 0) x := by
  simp [List.foldl_append]

theorem maxObservedOccupancy_succ (env : Env) (frames : List Str) (n : Nat) :
    maxObservedOccupancy env frames (n + 1) =
      if producesChange env frames n = true then
        max (maxObservedOccupancy env frames n)
          (occupiedCount (stateAfter env frames (n + 1)).parkingSpaces)
      else maxObservedOccupancy env frames n := by
  unfold maxObservedOccupancy
  rw [List.range_succ, List.filter_append]
  by_cases hp : producesChange env frames n = true
  · simp only [hp, List.filter_cons_of_pos, List.filter_nil, List.map_append, List.map_cons,
      List.map_nil, if_true]
    exact foldl_max_snoc _ _
  · simp [hp]

theorem peak_eq_maxObserved (env : Env) (frames : List Str) (n : Nat) (hn : n ≤ frames.length) :
    (stateAfter env frames n).systemStats.peakOccupancy = maxObservedOccupancy env frames n ∧
    occupiedCount (stateAfter env frames n).parkingSpaces ≤
      (stateAfter env frames n).systemStats.peakOccupancy := by
  induction n with
  | zero =>
    simp only [stateAfter, List.take_zero, applyFrames, List.foldl_nil, maxObservedOccupancy,
      List.range_zero, List.filter_nil, List.map_nil]
    exact ⟨rfl, le_refl _⟩
  | succ n ih =>
    have hlt : n < frames.length := by omega
    obtain ⟨ih1, ih2⟩ := ih (by omega)
    obtain ⟨cs, hfc, hpk, hsame⟩ :=
      parseESP32Data_peak env (stateAfter env frames n) frames[n]
        (stateAfter_wellFormed env frames n)
    rw [maxObservedOccupancy_succ, stateAfter_succ env frames n hlt]
    have hprod : producesChange env frames n = decide (cs ≠ []) := by
      simp [producesChange, List.getElem?_eq_getElem hlt, hfc]
    rw [hprod, hpk]
    by_cases hcs : cs = []
    · simp only [hcs, if_true, ne_eq, not_true_eq_false, decide_False, Bool.false_eq_true,
        if_false]
      rw [hsame hcs]
      exact ⟨ih1, ih2⟩
    · simp only [hcs, if_false, ne_eq, not_false_eq_true, decide_True, if_true]
      rw [ih1]
      exact ⟨rfl, le_max_right _ _⟩

/-! ## The claims -/

/-- C1: for every data section `extractSpacePairs` returns, in frame order,
    exactly one assignment for each consecutive pair of tokens (tokens `2k` and
    `2k+1` of the split on `:`) whose id token parses to an integer in 1..3,
    with `isOccupied` true iff the state token parses to 1; a trailing token
    without a partner adds nothing, and the empty data section gives the empty
    list. -/
theorem extractSpacePairs_refines_spec :
    (∀ dataSection : Str, extractSpacePairs dataSection = specSpacePairs dataSection) ∧
    (∀ dataSection t : Str, (∀ c ∈ t, c ≠ ':') → (split ':' dataSection).length % 2 = 0 →
      extractSpacePairs (dataSection ++ ':' :: t) = extractSpacePairs dataSection) ∧
    extractSpacePairs [] = [] :=
  ⟨extractSpacePairs_eq, extractSpacePairs_trailing, by decide⟩

/-- Witness of C1: the third token of `1:1:2` has no partner and is ignored. -/
theorem extractSpacePairs_refines_spec_witness :
    (∀ c ∈ "2".toList, c ≠ ':') ∧ (split ':' "1:1".toList).length % 2 = 0 ∧
    extractSpacePairs ("1:1".toList ++ ':' :: "2".toList) = extractSpacePairs "1:1".toList :=
  ⟨by decide, by decide,
    extractSpacePairs_refines_spec.2.1 "1:1".toList "2".toList (by decide) (by decide)⟩

/-- C2: for every well-formed store and every valid occupancy frame,
    `parseESP32Data` ends normally, keeps the ids, and leaves each space's
    `occupied` flag equal to the state of the last decoded pair naming that
    space's id, or to its previous flag when no pair names it; and
    `OCC:1:1:2:0:3:0;` on the initial all-free store leaves space 1 occupied,
    spaces 2 and 3 free, with the single change entry (1, false → true). -/
theorem parseESP32Data_last_assignment_wins :
    (∀ (env : Env) (s : State) (rawData : Str), WellFormed s →
      isValidESP32Format rawData = true →
      ∃ s1 : State, parseESP32Data env s rawData = .normal () s1 ∧
        s1.parkingSpaces.map (fun space => space.id) = [1, 2, 3] ∧
        s1.parkingSpaces.map (fun space => space.occupied) =
          s.parkingSpaces.map (fun space =>
            (lastAssignment (extractSpacePairs (slice rawData 4 (-1))) (space.id : Int)).getD
              space.occupied)) ∧
    (∀ env : Env,
      (parseESP32Data env (initialState env) "OCC:1:1:2:0:3:0;".toList).state.parkingSpaces.map
          (fun space => (space.id, space.occupied)) = [(1, true), (2, false), (3, false)] ∧
      frameChanges env (initialState env) "OCC:1:1:2:0:3:0;".toList =
        some [⟨1, false, true, 0⟩]) := by
  refine ⟨?_, fun env => ⟨rfl, rfl⟩⟩
  intro env s rawData hs hv
  obtain ⟨cs, s1, hrun, _, _, hwf, hfl, _⟩ := parseESP32Data_spec env s rawData hs hv
  refine ⟨s1, hrun, hwf, ?_⟩
  have h := congrArg (List.map Prod.snd) hfl
  simpa [spaceFlags, List.map_map, Function.comp] using h

/-- Witness of C2: the frame `OCC:2:1:2:0;` on the initial store. -/
theorem parseESP32Data_last_assignment_wins_witness :
    WellFormed (initialState env0) ∧ isValidESP32Format "OCC:2:1:2:0;".toList = true ∧
    ∃ s1 : State, parseESP32Data env0 (initialState env0) "OCC:2:1:2:0;".toList = .normal () s1 ∧
      s1.parkingSpaces.map (fun space => space.id) = [1, 2, 3] ∧
      s1.parkingSpaces.map (fun space => space.occupied) =
        (initialState env0).parkingSpaces.map (fun space =>
          (lastAssignment (extractSpacePairs (slice "OCC:2:1:2:0;".toList 4 (-1)))
            (space.id : Int)).getD space.occupied) :=
  ⟨by decide, by decide,
    parseESP32Data_last_assignment_wins.1 env0 (initialState env0) "OCC:2:1:2:0;".toList
      (by decide) (by decide)⟩

/-- C3: for every well-formed store and every valid occupancy frame, the
    change list of `parseESP32Data` has exactly one entry per decoded pair
    whose state differs from the flag its space has at the moment the pair is
    applied, in frame order; every entry has `wasOccupied ≠ isOccupied`; and
    when every pair reasserts the current flag the list is empty, nothing is
    published, and the space records and `systemStats` are unchanged. -/
theorem parseESP32Data_changes (env : Env) (s : State) (rawData : Str)
    (hs : WellFormed s) (hv : isValidESP32Format rawData = true) :
    ∃ (changes : List Change) (s1 : State),
      parseESP32Data env s rawData = .normal () s1 ∧
      frameChanges env s rawData = some changes ∧
      changes = (List.range (extractSpacePairs (slice rawData 4 (-1))).length).filterMap
        (expectedChange env s (extractSpacePairs (slice rawData 4 (-1)))) ∧
      (∀ c ∈ changes, c.wasOccupied ≠ c.isOccupied) ∧
      ((∀ p ∈ extractSpacePairs (slice rawData 4 (-1)),
          flagOf s p.spaceId = some p.isOccupied) →
        changes = [] ∧ s1.published = s.published ∧ s1.parkingSpaces = s.parkingSpaces ∧
          s1.systemStats = s.systemStats) := by
  obtain ⟨cs, s1, hrun, hfc, hcs, _, _, _, _, _, hnil⟩ := parseESP32Data_spec env s rawData hs hv
  refine ⟨cs, s1, hrun, hfc, hcs, ?_, ?_⟩
  · intro c hc
    rw [hcs, List.mem_filterMap] at hc
    obtain ⟨j, _, hj⟩ := hc
    exact expectedChange_differs env s _ j c hj
  · intro hre
    have hpp := (processSpacePairs_reassert env _ s hs (extractSpacePairs_range _)).mp hre
    have hcs0 : cs = [] := by
      have : frameChanges env s rawData = some [] := by
        simp [frameChanges, hv, hpp, Completion.value?]
      rw [hfc] at this
      exact Option.some.inj this
    rw [hnil hcs0]
    exact ⟨hcs0, rfl, rfl, rfl⟩

/-- Witness of C3: `OCC:1:0:2:0:3:0;` reasserts the initial all-free store. -/
theorem parseESP32Data_changes_witness :
    WellFormed (initialState env0) ∧ isValidESP32Format "OCC:1:0:2:0:3:0;".toList = true ∧
    ∃ (changes : List Change) (s1 : State),
      parseESP32Data env0 (initialState env0) "OCC:1:0:2:0:3:0;".toList = .normal () s1 ∧
      frameChanges env0 (initialState env0) "OCC:1:0:2:0:3:0;".toList = some changes ∧
      changes =
        (List.range (extractSpacePairs (slice "OCC:1:0:2:0:3:0;".toList 4 (-1))).length).filterMap
          (expectedChange env0 (initialState env0)
            (extractSpacePairs (slice "OCC:1:0:2:0:3:0;".toList 4 (-1)))) ∧
      (∀ c ∈ changes, c.wasOccupied ≠ c.isOccupied) ∧
      ((∀ p ∈ extractSpacePairs (slice "OCC:1:0:2:0:3:0;".toList 4 (-1)),
          flagOf (initialState env0) p.spaceId = some p.isOccupied) →
        changes = [] ∧ s1.published = (initialState env0).published ∧
          s1.parkingSpaces = (initialState env0).parkingSpaces ∧
          s1.systemStats = (initialState env0).systemStats) :=
  ⟨by decide, by decide,
    parseESP32Data_changes env0 (initialState env0) "OCC:1:0:2:0:3:0;".toList
      (by decide) (by decide)⟩

/-- C4: for every well-formed store and every frame, `parseESP32Data` leaves
    `dailyEntries` at its previous value plus the number of change entries
    going from free to occupied (so a change from occupied to free never
    lowers it); across any sequence of frames, from any store, `dailyEntries`
    never decreases; and `OCC:1:1:2:0:3:0;` on the initial store raises it by
    exactly 1. -/
theorem parseESP32Data_dailyEntries :
    (∀ (env : Env) (s : State) (rawData : Str), WellFormed s →
      ∃ (changes : List Change) (s1 : State),
        parseESP32Data env s rawData = .normal () s1 ∧
        frameChanges env s rawData = some changes ∧
        s1.systemStats.dailyEntries =
          s.systemStats.dailyEntries +
            changes.countP (fun c => !c.wasOccupied && c.isOccupied)) ∧
    (∀ (env : Env) (s : State) (frames : List Str) (n : Nat),
      (applyFrames env s (frames.take n)).systemStats.dailyEntries ≤
        (applyFrames env s (frames.take (n + 1))).systemStats.dailyEntries) ∧
    (∀ env : Env,
      (parseESP32Data env (initialState env) "OCC:1:1:2:0:3:0;".toList).state.systemStats.dailyEntries
        = (initialState env).systemStats.dailyEntries + 1) := by
  refine ⟨?_, ?_, fun env => rfl⟩
  · intro env s rawData hs
    by_cases hv : isValidESP32Format rawData = true
    · obtain ⟨cs, s1, hrun, hfc, _, _, _, _, hde, _⟩ := parseESP32Data_spec env s rawData hs hv
      exact ⟨cs, s1, hrun, hfc, hde⟩
    · have hv2 : isValidESP32Format rawData = false := by simpa using hv
      obtain ⟨h1, h2⟩ := parseESP32Data_invalid env s rawData hv2
      exact ⟨[], _, h1, h2, by simp [consoleLog]⟩
  · intro env s frames n
    by_cases hn : n < frames.length
    · have htake : frames.take (n + 1) = frames.take n ++ [frames[n]] := by
        rw [List.take_succ]
        simp [List.getElem?_eq_getElem hn]
      rw [htake]
      simp only [applyFrames, List.foldl_append, List.foldl_cons, List.foldl_nil]
      exact (parseESP32Data_mono env _ _).1
    · have h1 : frames.take n = frames := List.take_of_length_le (by omega)
      have h2 : frames.take (n + 1) = frames := List.take_of_length_le (by omega)
      rw [h1, h2]

/-- Witness of C4: a frame on the initial store. -/
theorem parseESP32Data_dailyEntries_witness :
    WellFormed (initialState env0) ∧
    ∃ (changes : List Change) (s1 : State),
      parseESP32Data env0 (initialState env0) "OCC:1:1:2:1:3:0;".toList = .normal () s1 ∧
      frameChanges env0 (initialState env0) "OCC:1:1:2:1:3:0;".toList = some changes ∧
      s1.systemStats.dailyEntries =
        (initialState env0).systemStats.dailyEntries +
          changes.countP (fun c => !c.wasOccupied && c.isOccupied) :=
  ⟨by decide,
    parseESP32Data_dailyEntries.1 env0 (initialState env0) "OCC:1:1:2:1:3:0;".toList (by decide)⟩

/-- C7: for every well-formed store the `occupancyRate` that
    `publishSystemStats` publishes (computed in double arithmetic) is
    `occupiedSpaces / totalSpaces × 100` rounded to the nearest integer, halves
    upwards; with three spaces it is 0,
    33, 67, 100 for 0, 1, 2, 3 occupied spaces; and it is computed from the
    current flags alone: two stores with the same flags get the same rate
    whatever else they hold. -/
theorem occupancyRate_rounded :
    (∀ (env : Env) (s : State), WellFormed s →
      ∃ (stats : StatsPayload) (r : Int),
        (publishSystemStats env s).published =
          s.published ++ [{ topic := "parking/stats/summary", payload := .stats stats }] ∧
        stats.totalSpaces = 3 ∧
        stats.occupiedSpaces = occupiedCount s.parkingSpaces ∧
        stats.occupancyRate = some r ∧
        (r : ℚ) ≤ (stats.occupiedSpaces : ℚ) / (stats.totalSpaces : ℚ) * 100 + 1 / 2 ∧
        (stats.occupiedSpaces : ℚ) / (stats.totalSpaces : ℚ) * 100 + 1 / 2 < (r : ℚ) + 1 ∧
        r = rateOfThree stats.occupiedSpaces) ∧
    (∀ (s1 s2 : State) (now1 ts1 now2 ts2 : Date),
      s1.parkingSpaces.map (fun space => space.occupied) =
        s2.parkingSpaces.map (fun space => space.occupied) →
      (systemStatsSnapshot s1 now1 ts1).occupancyRate =
        (systemStatsSnapshot s2 now2 ts2).occupancyRate) := by
  constructor
  · intro env s hs
    have hlen := wellFormed_length hs
    have hle := occupiedCount_le_length s.parkingSpaces
    obtain ⟨_, _, _, _, hpub⟩ := publishSystemStats_frame env s
    have hd : Math.round (Double.mul (Double.div (occupiedCount s.parkingSpaces : ℚ) 3) 100) =
        Math.round ((occupiedCount s.parkingSpaces : ℚ) / ((3 : Nat) : ℚ) * 100) :=
      (occupancyRate_double _ (by omega)).trans (occupancyRate_table _ (by omega)).symm
    refine ⟨_, Math.round ((occupiedCount s.parkingSpaces : ℚ) / ((3 : Nat) : ℚ) * 100),
      hpub, ?_, ?_, ?_, ?_, ?_, ?_⟩
    · simp [systemStatsSnapshot, hlen]
    · simp [systemStatsSnapshot]
    · simp [systemStatsSnapshot, hlen, hd]
    · simp only [systemStatsSnapshot, hlen, Math.round_eq_floor]
      exact Int.floor_le _
    · simp only [systemStatsSnapshot, hlen, Math.round_eq_floor]
      exact Int.lt_floor_add_one _
    · simp only [systemStatsSnapshot]
      exact occupancyRate_table (occupiedCount s.parkingSpaces) (by omega)
  · intro s1 s2 now1 ts1 now2 ts2 h
    have hlen : s1.parkingSpaces.length = s2.parkingSpaces.length := by
      have := congrArg List.length h
      simpa using this
    have hcount : occupiedCount s1.parkingSpaces = occupiedCount s2.parkingSpaces := by
      have h1 : ∀ l : List Space, occupiedCount l =
          ((l.map (fun space => space.occupied)).filter (fun b => b)).length := by
        intro l
        simp only [occupiedCount, List.filter_map, List.length_map]
        rfl
      rw [h1, h1, h]
    simp only [systemStatsSnapshot, hlen, hcount]

/-- Witness of C7: the initial store. -/
theorem occupancyRate_rounded_witness :
    WellFormed (initialState env0) ∧
    ∃ (stats : StatsPayload) (r : Int),
      (publishSystemStats env0 (initialState env0)).published =
        (initialState env0).published ++
          [{ topic := "parking/stats/summary", payload := .stats stats }] ∧
      stats.totalSpaces = 3 ∧
      stats.occupiedSpaces = occupiedCount (initialState env0).parkingSpaces ∧
      stats.occupancyRate = some r ∧
      (r : ℚ) ≤ (stats.occupiedSpaces : ℚ) / (stats.totalSpaces : ℚ) * 100 + 1 / 2 ∧
      (stats.occupiedSpaces : ℚ) / (stats.totalSpaces : ℚ) * 100 + 1 / 2 < (r : ℚ) + 1 ∧
      r = rateOfThree stats.occupiedSpaces :=
  ⟨by decide, occupancyRate_rounded.1 env0 (initialState env0) (by decide)⟩

/-- C9: for every store and every valid occupancy frame all of whose pair ids
    lie outside 1..3, `extractSpacePairs` returns no assignment and
    `parseESP32Data` ends normally with no change, publishes nothing, and
    leaves every space record and `systemStats` as they were; `OCC:9:1;` is
    such a frame. -/
theorem parseESP32Data_out_of_range :
    (∀ (env : Env) (s : State) (rawData : Str), isValidESP32Format rawData = true →
      (∀ k : Nat, 2 * k + 1 < (split ':' (slice rawData 4 (-1))).length →
        inRange (parseIntAt (split ':' (slice rawData 4 (-1))) (2 * k)) 1 3 = false) →
      extractSpacePairs (slice rawData 4 (-1)) = [] ∧
      frameChanges env s rawData = some [] ∧
      ∃ s1 : State, parseESP32Data env s rawData = .normal () s1 ∧
        s1.published = s.published ∧ s1.parkingSpaces = s.parkingSpaces ∧
        s1.systemStats = s.systemStats) ∧
    (∀ (env : Env) (s : State),
      extractSpacePairs (slice "OCC:9:1;".toList 4 (-1)) = [] ∧
      frameChanges env s "OCC:9:1;".toList = some [] ∧
      parseESP32Data env s "OCC:9:1;".toList = .normal () (consoleLog s .noStateChange)) := by
  constructor
  · intro env s rawData hv hout
    have hnil : extractSpacePairs (slice rawData 4 (-1)) = [] := by
      rw [extractSpacePairs_eq]
      unfold specSpacePairs
      simp only [List.filterMap_eq_nil_iff, List.mem_range]
      intro k hk
      have h := hout k (by omega)
      unfold pairAssignment
      cases hid : parseIntAt (split ':' (slice rawData 4 (-1))) (2 * k) with
      | none => rfl
      | some id =>
        rw [hid] at h
        simp only [inRange, Bool.and_eq_false_iff, decide_eq_false_iff_not] at h
        have : ¬ (1 ≤ id ∧ id ≤ 3) := by
          intro ⟨h1, h3⟩
          rcases h with h | h
          · exact h h1
          · exact h h3
        simp [this]
    refine ⟨hnil, ?_, consoleLog s .noStateChange, ?_, rfl, rfl, rfl⟩
    · simp [frameChanges, hv, hnil, processSpacePairs, Completion.value?]
    · simp [parseESP32Data, hv, hnil, processSpacePairs]
  · intro env s
    exact ⟨by decide, rfl, rfl⟩

/-- Witness of C9: `OCC:9:1;` on the initial store. -/
theorem parseESP32Data_out_of_range_witness :
    isValidESP32Format "OCC:9:1;".toList = true ∧
    (∀ k : Nat, 2 * k + 1 < (split ':' (slice "OCC:9:1;".toList 4 (-1))).length →
      inRange (parseIntAt (split ':' (slice "OCC:9:1;".toList 4 (-1))) (2 * k)) 1 3 = false) ∧
    extractSpacePairs (slice "OCC:9:1;".toList 4 (-1)) = [] ∧
    frameChanges env0 (initialState env0) "OCC:9:1;".toList = some [] ∧
    ∃ s1 : State, parseESP32Data env0 (initialState env0) "OCC:9:1;".toList = .normal () s1 ∧
      s1.published = (initialState env0).published ∧
      s1.parkingSpaces = (initialState env0).parkingSpaces ∧
      s1.systemStats = (initialState env0).systemStats :=
  have hout : ∀ k : Nat, 2 * k + 1 < (split ':' (slice "OCC:9:1;".toList 4 (-1))).length →
      inRange (parseIntAt (split ':' (slice "OCC:9:1;".toList 4 (-1))) (2 * k)) 1 3 = false := by
    intro k hk
    have hlen : (split ':' (slice "OCC:9:1;".toList 4 (-1))).length = 2 := by decide
    have hk0 : k = 0 := by omega
    subst hk0
    decide
  ⟨by decide, hout,
    parseESP32Data_out_of_range.1 env0 (initialState env0) "OCC:9:1;".toList (by decide) hout⟩

/-- C5: in every state reachable from the initial state by connects,
    messages (occupancy frames, barrier frames, anything else), interval ticks
    and gate timers, the snapshot `publishSystemStats` publishes has
    `occupiedSpaces + availableSpaces = totalSpaces`, with `occupiedSpaces` the
    number of spaces whose `occupied` is true and `totalSpaces = 3`. -/
theorem reachable_stats_partition (env : Env) (s : State) (h : Reachable env s) :
    ∃ stats : StatsPayload,
      (publishSystemStats env s).published =
        s.published ++ [{ topic := "parking/stats/summary", payload := .stats stats }] ∧
      (stats.occupiedSpaces : Int) + stats.availableSpaces = (stats.totalSpaces : Int) ∧
      stats.occupiedSpaces = (s.parkingSpaces.filter (fun space => space.occupied)).length ∧
      stats.totalSpaces = 3 := by
  have hlen := wellFormed_length (reachable_wellFormed env s h)
  obtain ⟨_, _, _, _, hpub⟩ := publishSystemStats_frame env s
  refine ⟨_, hpub, ?_, rfl, ?_⟩
  · simp only [systemStatsSnapshot]
    omega
  · simp [systemStatsSnapshot, hlen]

/-- Witness of C5: the state after a connect, an occupancy frame, a barrier
    frame and a statistics tick. -/
theorem reachable_stats_partition_witness :
    Reachable env0
      (run env0 (initialState env0)
        [.connect, .message "esp32/data" "OCC:1:1:2:0:3:1;".toList,
          .message "esp32/data" "BAR:1:1:2:0;".toList, .statsTick]) ∧
    ∃ stats : StatsPayload,
      (publishSystemStats env0
        (run env0 (initialState env0)
          [.connect, .message "esp32/data" "OCC:1:1:2:0:3:1;".toList,
            .message "esp32/data" "BAR:1:1:2:0;".toList, .statsTick])).published =
        (run env0 (initialState env0)
          [.connect, .message "esp32/data" "OCC:1:1:2:0:3:1;".toList,
            .message "esp32/data" "BAR:1:1:2:0;".toList, .statsTick]).published ++
          [{ topic := "parking/stats/summary", payload := .stats stats }] ∧
      (stats.occupiedSpaces : Int) + stats.availableSpaces = (stats.totalSpaces : Int) ∧
      stats.occupiedSpaces =
        ((run env0 (initialState env0)
          [.connect, .message "esp32/data" "OCC:1:1:2:0:3:1;".toList,
            .message "esp32/data" "BAR:1:1:2:0;".toList, .statsTick]).parkingSpaces.filter
          (fun space => space.occupied)).length ∧
      stats.totalSpaces = 3 :=
  ⟨⟨_, rfl⟩, reachable_stats_partition env0 _ ⟨_, rfl⟩⟩

/-- C6: across any sequence of frames applied with `parseESP32Data` from the
    initial state, `peakOccupancy` never decreases from one frame to the next,
    is at least the current number of occupied spaces after every frame, and
    at the end equals the largest occupied count observed right after a
    change-producing frame (0 when no frame produced a change). -/
theorem peakOccupancy_monotone (env : Env) (frames : List Str) :
    (∀ n : Nat, (stateAfter env frames n).systemStats.peakOccupancy ≤
      (stateAfter env frames (n + 1)).systemStats.peakOccupancy) ∧
    (∀ n : Nat, occupiedCount (stateAfter env frames n).parkingSpaces ≤
      (stateAfter env frames n).systemStats.peakOccupancy) ∧
    (stateAfter env frames frames.length).systemStats.peakOccupancy =
      maxObservedOccupancy env frames frames.length := by
  refine ⟨?_, ?_, (peak_eq_maxObserved env frames frames.length (le_refl _)).1⟩
  · intro n
    by_cases hn : n < frames.length
    · rw [stateAfter_succ env frames n hn]
      exact (parseESP32Data_mono env _ _).2.1
    · rw [stateAfter_of_le env frames (n + 1) (by omega),
        ← stateAfter_of_le env frames n (by omega)]
  · intro n
    by_cases hn : n ≤ frames.length
    · exact (peak_eq_maxObserved env frames n hn).2
    · rw [stateAfter_of_le env frames n (by omega)]
      exact (peak_eq_maxObserved env frames frames.length (le_refl _)).2

/-- C8, counterexample: `OCC:1:1:1:0;` twice on the initial store.  The
    second application again records space 1 as taken and then as freed. -/
theorem second_application_counterexample :
    WellFormed (initialState env0) ∧ isValidESP32Format "OCC:1:1:1:0;".toList = true ∧
    frameChanges env0
        (parseESP32Data env0 (initialState env0) "OCC:1:1:1:0;".toList).state
        "OCC:1:1:1:0;".toList =
      some [⟨1, false, true, 0⟩, ⟨1, true, false, 0⟩] ∧
    ¬ (∀ (env : Env) (s : State) (rawData : Str), WellFormed s →
        isValidESP32Format rawData = true →
        frameChanges env (parseESP32Data env s rawData).state rawData = some []) := by
  refine ⟨by decide, by decide, by decide, ?_⟩
  intro h
  have h1 := h env0 (initialState env0) "OCC:1:1:1:0;".toList (by decide) (by decide)
  revert h1
  decide

/-- C8, amended: for every well-formed store and every valid occupancy frame,
    applying the same frame with `parseESP32Data` a second time right after
    the first produces zero changes exactly when all the decoded pairs that
    name the same space carry the same state (in particular when every space
    is named at most once). -/
theorem second_application_no_change_iff (env : Env) (s : State) (rawData : Str)
    (hs : WellFormed s) (hv : isValidESP32Format rawData = true) :
    frameChanges env (parseESP32Data env s rawData).state rawData = some [] ↔
      Consistent (extractSpacePairs (slice rawData 4 (-1))) := by
  obtain ⟨cs, s1, hrun, _, _, hs1, hfl, _⟩ := parseESP32Data_spec env s rawData hs hv
  rw [hrun]
  simp only [Completion.state]
  have hr := extractSpacePairs_range (slice rawData 4 (-1))
  obtain ⟨cs2, s2, hrun2, _, _, _, hnil2, _⟩ :=
    processSpacePairs_spec env (extractSpacePairs (slice rawData 4 (-1))) s1 hs1 hr
  have hfc : frameChanges env s1 rawData = some cs2 := by
    simp [frameChanges, hv, hrun2, Completion.value?]
  have hre := processSpacePairs_reassert env _ s1 hs1 hr
  rw [hfc, consistent_iff_lastAssignment]
  have hflag : ∀ p ∈ extractSpacePairs (slice rawData 4 (-1)),
      flagOf s1 p.spaceId =
        lastAssignment (extractSpacePairs (slice rawData 4 (-1))) p.spaceId := by
    intro p hp
    obtain ⟨w, _, hw, _⟩ := processSpaceChange_spec env s p.spaceId p.isOccupied hs (hr p hp)
    obtain ⟨q, _, _, hl⟩ := lastAssignment_of_mem _ p hp
    rw [flagOf_after s s1 p.spaceId
      (fun i o => (lastAssignment (extractSpacePairs (slice rawData 4 (-1))) i).getD o) w hfl hw,
      hl]
    rfl
  constructor
  · intro h p hp
    have hcs2 : cs2 = [] := Option.some.inj h
    have : processSpacePairs env s1 (extractSpacePairs (slice rawData 4 (-1))) [] =
        .normal [] s1 := by
      rw [hrun2, hcs2, hnil2 hcs2]
    rw [← hflag p hp]
    exact hre.mpr this p hp
  · intro h
    have := hre.mp (fun p hp => by rw [hflag p hp]; exact h p hp)
    rw [hrun2] at this
    injection this with h1 _
    rw [h1]

/-- Witness of C8: `OCC:1:1:2:0:1:1;` names space 1 twice with the same state. -/
theorem second_application_no_change_iff_witness :
    WellFormed (initialState env0) ∧ isValidESP32Format "OCC:1:1:2:0:1:1;".toList = true ∧
    (frameChanges env0
        (parseESP32Data env0 (initialState env0) "OCC:1:1:2:0:1:1;".toList).state
        "OCC:1:1:2:0:1:1;".toList = some [] ↔
      Consistent (extractSpacePairs (slice "OCC:1:1:2:0:1:1;".toList 4 (-1)))) ∧
    frameChanges env0
        (parseESP32Data env0 (initialState env0) "OCC:1:1:2:0:1:1;".toList).state
        "OCC:1:1:2:0:1:1;".toList = some [] :=
  ⟨by decide, by decide,
    second_application_no_change_iff env0 (initialState env0) "OCC:1:1:2:0:1:1;".toList
      (by decide) (by decide),
    by decide⟩

/-- C10: the message handler never ends by throwing, whatever the store, the
    topic and the text; and for every text that, once trimmed, does not both
    start with `OCC:` or `BAR:` and end with `;`, it publishes nothing, leaves
    `parkingSpaces`, `gateStatus` and `systemStats` unchanged, and (on the
    topics the handler accepts) reports the format as not recognized. -/
theorem onMessage_fails_softly :
    (∀ (env : Env) (s : State) (topic : String) (message : Str),
      (onMessage env s topic message).throws = false) ∧
    (∀ (env : Env) (s : State) (topic : String) (message : Str),
      ¬ ((startsWith (trim message) "OCC:".toList = true ∨
            startsWith (trim message) "BAR:".toList = true) ∧
          endsWith (trim message) ";".toList = true) →
      ∃ s1 : State, onMessage env s topic message = .normal () s1 ∧
        s1.published = s.published ∧ s1.parkingSpaces = s.parkingSpaces ∧
        s1.gateStatus = s.gateStatus ∧ s1.systemStats = s.systemStats ∧
        (isEsp32Topic topic = true →
          s1.console = s.console ++ [.messageFormatNotRecognized (trim message)])) := by
  constructor
  · intro env s topic message
    unfold onMessage
    split
    · simp only [newDate]
      cases handleRawData env { s with clockReads := s.clockReads + 1 } (trim message) <;> rfl
    · rfl
  · intro env s topic message hbad
    have h1 : (startsWith (trim message) "OCC:".toList &&
        endsWith (trim message) ";".toList) = false := by
      rw [Bool.and_eq_false_iff]
      by_cases he : endsWith (trim message) ";".toList = true
      · left
        by_contra hs
        exact hbad ⟨Or.inl (by simpa using hs), he⟩
      · right; simpa using he
    have h2 : (startsWith (trim message) "BAR:".toList &&
        endsWith (trim message) ";".toList) = false := by
      rw [Bool.and_eq_false_iff]
      by_cases he : endsWith (trim message) ";".toList = true
      · left
        by_contra hs
        exact hbad ⟨Or.inr (by simpa using hs), he⟩
      · right; simpa using he
    by_cases ht : isEsp32Topic topic = true
    · refine ⟨consoleLog { s with clockReads := s.clockReads + 1 }
          (.messageFormatNotRecognized (trim message)), ?_, rfl, rfl, rfl, rfl, fun _ => rfl⟩
      simp only [onMessage, ht, newDate, handleRawData, h1, h2, if_true, Bool.false_eq_true,
        if_false]
    · refine ⟨s, ?_, rfl, rfl, rfl, rfl, fun h => absurd h ht⟩
      simp only [onMessage, ht, if_false, Bool.false_eq_true]

/-- Witness of C10: a text without prefix or terminator. -/
theorem onMessage_fails_softly_witness :
    ¬ ((startsWith (trim " hello ".toList) "OCC:".toList = true ∨
          startsWith (trim " hello ".toList) "BAR:".toList = true) ∧
        endsWith (trim " hello ".toList) ";".toList = true) ∧
    ∃ s1 : State, onMessage env0 (initialState env0) "esp32/data" " hello ".toList = .normal () s1 ∧
      s1.published = (initialState env0).published ∧
      s1.parkingSpaces = (initialState env0).parkingSpaces ∧
      s1.gateStatus = (initialState env0).gateStatus ∧
      s1.systemStats = (initialState env0).systemStats ∧
      (isEsp32Topic "esp32/data" = true →
        s1.console = (initialState env0).console ++
          [.messageFormatNotRecognized (trim " hello ".toList)]) :=
  ⟨by decide,
    onMessage_fails_softly.2 env0 (initialState env0) "esp32/data" " hello ".toList (by decide)⟩

/-! ### The decoder and tokens that are not numbers -/

theorem filterMap_erase_of_none {α β : Type} [DecidableEq α] (f : α → Option β) (a : α)
    (ha : f a = none) : ∀ l : List α, (l.erase a).filterMap f = l.filterMap f := by
  intro l
  induction l with
  | nil => rfl
  | cons x xs ih =>
    by_cases hx : x = a
    · subst hx
      simp [ha]
    · have hne : (x == a) = false := by simpa using hx
      rw [List.erase_cons, hne]
      simp only [Bool.false_eq_true, if_false, List.filterMap_cons, ih]

/-! ### Barrier frames -/

theorem numEq_eq_decide (a : Option Int) (k : Int) : numEq a k = decide (a = some k) := by
  cases a with
  | none => simp [numEq]
  | some v => simp [numEq]

theorem parseBarrierDataLoop_eq (env : Env) (pairs : List Str) :
    ∀ (fuel k : Nat) (s : State), pairs.length / 2 ≤ k + fuel →
      parseBarrierDataLoop env pairs fuel (2 * k) s =
        ((List.range' k (pairs.length / 2 - k)).filterMap (barrierAssignment pairs)).foldl
          (applyBarrierPair env) s := by
  intro fuel
  induction fuel with
  | zero =>
    intro k s h
    have : pairs.length / 2 - k = 0 := by omega
    simp [parseBarrierDataLoop, this]
  | succ n ih =>
    intro k s h
    unfold parseBarrierDataLoop
    by_cases hk : ((2 * k : Nat) : Int) < (pairs.length : Int) - 1
    · have hlen : pairs.length / 2 - k = (pairs.length / 2 - (k + 1)) + 1 := by omega
      have h2 : 2 * k + 2 = 2 * (k + 1) := by ring
      rw [if_pos hk, hlen, List.range'_succ, List.filterMap_cons]
      simp only [numEq_eq_decide, Bool.or_eq_true, decide_eq_true_eq]
      by_cases h1 : parseIntAt pairs (2 * k) = some 1
      · simp only [h1, true_or, if_true, barrierAssignment, List.foldl_cons]
        rw [h2, ih (k + 1) _ (by omega)]
        simp [applyBarrierPair]
      · by_cases h2' : parseIntAt pairs (2 * k) = some 2
        · simp only [h2', barrierAssignment, List.foldl_cons]
          rw [h2, ih (k + 1) _ (by omega)]
          simp [applyBarrierPair]
        · simp only [h1, h2', or_self, if_false, barrierAssignment]
          rw [h2, ih (k + 1) _ (by omega)]
    · have : pairs.length / 2 - k = 0 := by omega
      rw [if_neg hk, this]
      simp

theorem parseBarrierData_eq_foldl (env : Env) (s : State) (rawData : Str) :
    parseBarrierData env s rawData =
      (barrierPairs rawData).foldl (applyBarrierPair env) s := by
  unfold parseBarrierData barrierPairs
  have h := parseBarrierDataLoop_eq env (split ':' (slice rawData 4 (-1)))
    (split ':' (slice rawData 4 (-1))).length 0 s (by omega)
  simp only [Nat.mul_zero, Nat.sub_zero] at h
  simp only [h, List.range_eq_range']


theorem gateStatus_get_set (g : GateStatus) (t t1 : GateType) (phase : GatePhase) :
    (g.set t phase).get t1 = if t1 = t then phase else g.get t1 := by
  cases t <;> cases t1 <;> simp [GateStatus.set, GateStatus.get]

theorem gateStatus_set_get (g : GateStatus) (t : GateType) : g.set t (g.get t) = g := by
  cases t <;> rfl

theorem applyBarrierPair_spec (env : Env) (s : State) (pair : GateType × Bool) :
    (∀ gate : GateType, (applyBarrierPair env s pair).gateStatus.get gate =
      if gate = pair.1 then (if pair.2 then GatePhase.open else GatePhase.closed)
      else s.gateStatus.get gate) ∧
    (∃ msgs : List Message, (applyBarrierPair env s pair).published = s.published ++ msgs ∧
      (∀ m ∈ msgs, IsGateUpdate m) ∧
      (msgs = [] ↔ decide (s.gateStatus.get pair.1 = .open) = pair.2)) := by
  unfold applyBarrierPair
  by_cases hw : decide (s.gateStatus.get pair.1 = .open) = pair.2
  · simp only [hw, ne_eq, not_true_eq_false, if_false]
    refine ⟨fun gate => gateStatus_get_set _ _ _ _, [], by simp, by simp, by simp⟩
  · simp only [ne_eq, hw, not_false_eq_true, if_true]
    refine ⟨fun gate => ?_, ?_⟩
    · simp only [publishGateUpdate, publish, newDate]
      exact gateStatus_get_set _ _ _ _
    · refine ⟨[_], rfl, ?_, by simp⟩
      intro m hm
      rw [List.mem_singleton] at hm
      subst hm
      cases hb : pair.2 <;> simp [IsGateUpdate]

theorem lastGateAssignment_cons (p : GateType × Bool) (ps : List (GateType × Bool))
    (gate : GateType) :
    lastGateAssignment (p :: ps) gate =
      match lastGateAssignment ps gate with
      | some b => some b
      | none => if p.1 = gate then some p.2 else none := by
  unfold lastGateAssignment
  rw [List.reverse_cons, List.find?_append]
  cases h : List.find? (fun pair => decide (pair.1 = gate)) ps.reverse with
  | some q => simp
  | none =>
    by_cases hp : p.1 = gate <;> simp [hp]

/-- What the loop of `parseBarrierData` does to the gates and to the list of
    published messages. -/
theorem foldl_applyBarrierPair_spec (env : Env) (pairs : List (GateType × Bool)) :
    ∀ s : State,
      (∀ gate : GateType, (pairs.foldl (applyBarrierPair env) s).gateStatus.get gate =
        phaseAfter pairs gate (s.gateStatus.get gate)) ∧
      (∃ msgs : List Message,
        (pairs.foldl (applyBarrierPair env) s).published = s.published ++ msgs ∧
        ∀ m ∈ msgs, IsGateUpdate m) := by
  induction pairs with
  | nil =>
    intro s
    exact ⟨fun gate => by simp [phaseAfter, lastGateAssignment], [], by simp, by simp⟩
  | cons p ps ih =>
    intro s
    obtain ⟨hg, m1, hp1, hm1, _⟩ := applyBarrierPair_spec env s p
    obtain ⟨hg2, m2, hp2, hm2⟩ := ih (applyBarrierPair env s p)
    simp only [List.foldl_cons]
    refine ⟨fun gate => ?_, m1 ++ m2, ?_, ?_⟩
    · rw [hg2 gate, hg gate]
      simp only [phaseAfter, lastGateAssignment_cons]
      cases lastGateAssignment ps gate with
      | some b => cases b <;> rfl
      | none =>
        by_cases h : gate = p.1
        · have h' : p.1 = gate := h.symm
          cases hb : p.2 <;> simp [h, hb]
        · have h' : ¬ p.1 = gate := fun e => h e.symm
          simp [h, h']
    · rw [hp2, hp1, List.append_assoc]
    · intro m hm
      rcases List.mem_append.mp hm with h | h
      · exact hm1 m h
      · exact hm2 m h

theorem lastGateAssignment_of_nodup (pairs : List (GateType × Bool))
    (hn : (pairs.map Prod.fst).Nodup) (p : GateType × Bool) (hp : p ∈ pairs) :
    lastGateAssignment pairs p.1 = some p.2 := by
  unfold lastGateAssignment
  cases hf : List.find? (fun pair => decide (pair.1 = p.1)) pairs.reverse with
  | none =>
    rw [List.find?_eq_none] at hf
    have := hf p (List.mem_reverse.mpr hp)
    simp at this
  | some q =>
    have hq : q ∈ pairs := List.mem_reverse.mp (List.mem_of_find?_eq_some hf)
    have hid : q.1 = p.1 := by
      have := List.find?_some hf
      simpa using this
    have : q = p := List.inj_on_of_nodup_map hn hq hp hid
    rw [this]
    rfl

theorem applyBarrierPair_fixed (env : Env) (s : State) (pair : GateType × Bool)
    (h : s.gateStatus.get pair.1 = if pair.2 then GatePhase.open else GatePhase.closed) :
    applyBarrierPair env s pair = s := by
  unfold applyBarrierPair
  have hw : decide (s.gateStatus.get pair.1 = .open) = pair.2 := by
    rw [h]
    cases pair.2 <;> simp
  simp only [hw, ne_eq, not_true_eq_false, if_false]
  rw [← h, gateStatus_set_get]

theorem foldl_applyBarrierPair_fixed (env : Env) (s : State) :
    ∀ pairs : List (GateType × Bool),
      (∀ p ∈ pairs, s.gateStatus.get p.1 = if p.2 then GatePhase.open else GatePhase.closed) →
      pairs.foldl (applyBarrierPair env) s = s := by
  intro pairs
  induction pairs with
  | nil => intro _; rfl
  | cons p ps ih =>
    intro h
    rw [List.foldl_cons, applyBarrierPair_fixed env s p (h p (List.mem_cons_self _ _))]
    exact ih (fun q hq => h q (List.mem_cons_of_mem _ hq))


/-! ## The claims on tokens that are not numbers and on barrier frames -/

/-- C11, counterexample: in `2:x` the state token is not a number, yet the
    pair is decoded as (2, false), and the frame `OCC:2:x;` frees a space 2
    that `OCC:2:1;` had occupied. -/
theorem nonNumeric_state_counterexample :
    parseInt "x".toList = none ∧
    extractSpacePairs "2:x".toList = [⟨2, false⟩] ∧
    flagOf (applyFrames env0 (initialState env0) ["OCC:2:1;".toList]) 2 = some true ∧
    flagOf (applyFrames env0 (initialState env0) ["OCC:2:1;".toList, "OCC:2:x;".toList]) 2 =
      some false := by
  decide

/-- C11, amended: for every pair of an occupancy data section whose id token
    is not a number, `extractSpacePairs` emits no assignment (its result is the
    decode of the other pairs); a pair whose id token parses to 1..3 and whose
    state token is not a number is kept, as the assignment (id, false). -/
theorem extractSpacePairs_nonNumeric :
    (∀ (dataSection : Str) (k : Nat), 2 * k + 1 < (split ':' dataSection).length →
      parseIntAt (split ':' dataSection) (2 * k) = none →
      extractSpacePairs dataSection =
        ((List.range ((split ':' dataSection).length / 2)).erase k).filterMap
          (pairAssignment (split ':' dataSection))) ∧
    (∀ (dataSection : Str) (k : Nat) (id : Int), 2 * k + 1 < (split ':' dataSection).length →
      parseIntAt (split ':' dataSection) (2 * k) = some id → 1 ≤ id → id ≤ 3 →
      parseIntAt (split ':' dataSection) (2 * k + 1) = none →
      (⟨id, false⟩ : SpacePair) ∈ extractSpacePairs dataSection) := by
  constructor
  · intro dataSection k _ hid
    rw [extractSpacePairs_eq]
    unfold specSpacePairs
    have hnone : pairAssignment (split ':' dataSection) k = none := by
      simp [pairAssignment, hid]
    exact (filterMap_erase_of_none _ k hnone _).symm
  · intro dataSection k id hk hid h1 h3 hst
    rw [extractSpacePairs_eq]
    unfold specSpacePairs
    simp only [List.mem_filterMap, List.mem_range]
    refine ⟨k, by omega, ?_⟩
    simp [pairAssignment, hid, h1, h3, hst]

/-- Witness of C11: the first pair of `x:1:2:1` has a non-numeric id. -/
theorem extractSpacePairs_nonNumeric_witness :
    2 * 0 + 1 < (split ':' "x:1:2:1".toList).length ∧
    parseIntAt (split ':' "x:1:2:1".toList) (2 * 0) = none ∧
    extractSpacePairs "x:1:2:1".toList =
      ((List.range ((split ':' "x:1:2:1".toList).length / 2)).erase 0).filterMap
        (pairAssignment (split ':' "x:1:2:1".toList)) :=
  ⟨by decide, by decide,
    extractSpacePairs_nonNumeric.1 "x:1:2:1".toList 0 (by decide) (by decide)⟩

/-- C12: for every store and every barrier frame, `parseBarrierData` leaves
    each gate open when the last pair naming it (id 1 the entry gate, id 2 the
    exit gate) has state 1, closed when that pair has another state, and in its
    previous phase when no pair names it; pairs with another id do nothing;
    every message it publishes is a `publishGateUpdate` snapshot with angle 90
    for open and 0 for closed; and `BAR:1:1:2:0;` on the initial state opens
    the entry gate (angle 90) and leaves the exit gate closed. -/
theorem parseBarrierData_last_assignment_wins :
    (∀ (env : Env) (s : State) (rawData : Str),
      (∀ gate : GateType, (parseBarrierData env s rawData).gateStatus.get gate =
        phaseAfter (barrierPairs rawData) gate (s.gateStatus.get gate)) ∧
      (∃ msgs : List Message,
        (parseBarrierData env s rawData).published = s.published ++ msgs ∧
        ∀ m ∈ msgs, IsGateUpdate m)) ∧
    (∀ (env : Env) (s : State), parseBarrierData env s "BAR:7:1:0:1;".toList = s) ∧
    (∀ env : Env,
      (parseBarrierData env (initialState env) "BAR:1:1:2:0;".toList).gateStatus =
        { entry := .open, exit := .closed } ∧
      (parseBarrierData env (initialState env) "BAR:1:1:2:0;".toList).published =
        [{ topic := "parking/gates/entry/status",
           payload := .gate
             { status := .open, timestamp := (env.clock 31).ms, servo_angle := 90,
               action := some "opening", simulated := none,
               data_source := some "ESP32_REAL" } }]) := by
  refine ⟨?_, fun env s => rfl, fun env => ⟨rfl, rfl⟩⟩
  intro env s rawData
  rw [parseBarrierData_eq_foldl]
  exact foldl_applyBarrierPair_spec env (barrierPairs rawData) s

/-- C13: for every store and every barrier frame that names each gate at most
    once, applying the frame a second time right after the first publishes
    nothing and leaves both gate phases, indeed the whole state, as the first
    application left them. -/
theorem parseBarrierData_twice (env : Env) (s : State) (rawData : Str)
    (hn : ((barrierPairs rawData).map Prod.fst).Nodup) :
    (parseBarrierData env (parseBarrierData env s rawData) rawData).published =
      (parseBarrierData env s rawData).published ∧
    (parseBarrierData env (parseBarrierData env s rawData) rawData).gateStatus =
      (parseBarrierData env s rawData).gateStatus ∧
    parseBarrierData env (parseBarrierData env s rawData) rawData =
      parseBarrierData env s rawData := by
  have hfix : parseBarrierData env (parseBarrierData env s rawData) rawData =
      parseBarrierData env s rawData := by
    rw [parseBarrierData_eq_foldl env (parseBarrierData env s rawData)]
    apply foldl_applyBarrierPair_fixed
    intro p hp
    rw [parseBarrierData_eq_foldl,
      (foldl_applyBarrierPair_spec env (barrierPairs rawData) s).1 p.1, phaseAfter,
      lastGateAssignment_of_nodup _ hn p hp]
    cases p.2 <;> rfl
  rw [hfix]
  exact ⟨rfl, rfl, rfl⟩

/-- Witness of C13: `BAR:1:1:2:0;` applied twice to the initial state. -/
theorem parseBarrierData_twice_witness :
    ((barrierPairs "BAR:1:1:2:0;".toList).map Prod.fst).Nodup ∧
    (parseBarrierData env0 (parseBarrierData env0 (initialState env0) "BAR:1:1:2:0;".toList)
        "BAR:1:1:2:0;".toList).published =
      (parseBarrierData env0 (initialState env0) "BAR:1:1:2:0;".toList).published ∧
    (parseBarrierData env0 (parseBarrierData env0 (initialState env0) "BAR:1:1:2:0;".toList)
        "BAR:1:1:2:0;".toList).gateStatus =
      (parseBarrierData env0 (initialState env0) "BAR:1:1:2:0;".toList).gateStatus ∧
    parseBarrierData env0 (parseBarrierData env0 (initialState env0) "BAR:1:1:2:0;".toList)
        "BAR:1:1:2:0;".toList =
      parseBarrierData env0 (initialState env0) "BAR:1:1:2:0;".toList :=
  ⟨by decide,
    parseBarrierData_twice env0 (initialState env0) "BAR:1:1:2:0;".toList (by decide)⟩


theorem simulateGateActivity_env0 (s : State) :
    simulateGateActivity env0 s =
      simulateGateSequence env0 { s with randomReads := s.randomReads + 1 + 1 } .entry := by
  unfold simulateGateActivity
  simp only [random, env0, toDouble_one_fifth]
  norm_num

theorem gateTick_env0 :
    run env0 (initialState env0) [.gateTick] =
      simulateGateSequence env0
        { initialState env0 with randomReads := (initialState env0).randomReads + 1 + 1 }
        .entry := by
  simp only [run, List.foldl_cons, List.foldl_nil, step, simulateGateActivity_env0]

/-- C14, the code at the failing input: the gate tick of the simulated
    sequence leaves the entry gate `opening`; the frame `BAR:1:0;` then stores
    `closed` for it and publishes nothing. -/
theorem parseBarrierData_silent_close :
    Reachable env0 (run env0 (initialState env0) [.gateTick]) ∧
    (run env0 (initialState env0) [.gateTick]).gateStatus.entry = .opening ∧
    (parseBarrierData env0 (run env0 (initialState env0) [.gateTick])
      "BAR:1:0;".toList).gateStatus.entry = .closed ∧
    (parseBarrierData env0 (run env0 (initialState env0) [.gateTick])
      "BAR:1:0;".toList).published =
      (run env0 (initialState env0) [.gateTick]).published := by
  refine ⟨⟨_, rfl⟩, ?_, ?_, ?_⟩ <;> rw [gateTick_env0] <;> decide

/-- C15, the code at the failing input: with the entry gate `opening`, the
    `connect` handler publishes through `publishGateStatus` a snapshot of the
    entry gate with status `opening` and servo angle 90. -/
theorem publishGateStatus_opening_angle :
    Reachable env0 (run env0 (initialState env0) [.gateTick]) ∧
    (run env0 (initialState env0) [.gateTick]).gateStatus.entry = .opening ∧
    (publishGateStatus env0 (run env0 (initialState env0) [.gateTick]) .entry).published =
      (run env0 (initialState env0) [.gateTick]).published ++
        [{ topic := "parking/gates/entry/status",
           payload := .gate
             { status := .opening, timestamp := 0, servo_angle := 90, action := none,
               simulated := some true, data_source := none } }] ∧
    ({ topic := "parking/gates/entry/status",
       payload := .gate
         { status := .opening, timestamp := 0, servo_angle := 90, action := none,
           simulated := some true, data_source := none } } : Message) ∈
      (step env0 (run env0 (initialState env0) [.gateTick]) .connect).published := by
  refine ⟨⟨_, rfl⟩, ?_, ?_, ?_⟩ <;> rw [gateTick_env0] <;> decide


/-! ### The bridge -/

theorem forwardLoop_eq (messageText : Envelope) (clients : List BridgeClient) :
    ∀ sentCount : Nat,
      forwardLoop messageText clients sentCount =
        (clients.map (deliver messageText), sentCount + clients.countP receives) := by
  induction clients with
  | nil => intro n; simp [forwardLoop]
  | cons c cs ih =>
    intro n
    unfold forwardLoop
    by_cases hlive : (decide (c.readyState = .open) && c.isActive) = true
    · have hl : c.readyState = .open ∧ c.isActive = true := by simpa using hlive
      by_cases hthrow : c.sendThrows = true
      · simp only [hlive, if_true, BridgeClient.send, hthrow, ih, List.map_cons, deliver, hl,
          and_self, List.countP_cons, receives]
        simp [hl.1, hl.2, hthrow]
      · have hthrow' : c.sendThrows = false := by simpa using hthrow
        simp only [hlive, if_true, BridgeClient.send, hthrow', Bool.false_eq_true, if_false, ih,
          List.map_cons, deliver, hl, and_self, List.countP_cons, receives]
        simp [hl.1, hl.2, hthrow']
        omega
    · have hl : ¬ (c.readyState = .open ∧ c.isActive = true) := by simpa using hlive
      simp only [hlive, Bool.false_eq_true, if_false, ih, List.map_cons, deliver, hl,
        List.countP_cons, receives]
      have : (decide (c.readyState = .open) && c.isActive && !c.sendThrows) = false := by
        have h2 : (decide (c.readyState = .open) && c.isActive) = false :=
          Bool.eq_false_iff.mpr hlive
        rw [h2]
        rfl
      simp [this]


/-! ## The claims on the bridge and the consumer -/

/-- C19: for every registry and every incoming topic and payload text,
    `forwardToWebSockets` ends without an error; every connection that is open
    and marked active gets the one envelope text appended once, unless its
    `send` throws, in which case it alone is marked inactive; every other
    connection is left as it was; a failing send does not stop the loop; the
    count is the number of connections reached.  Five connections with the
    third closed give four deliveries. -/
theorem forwardToWebSockets_fanout :
    (∀ (clients : List BridgeClient) (topic message : String) (now : Nat),
      forwardToWebSockets clients topic message now =
        (clients.map (deliver { topic := topic, message := message, timestamp := now }),
          clients.countP receives)) ∧
    (∀ (topic message : String) (now : Nat),
      forwardToWebSockets
          [⟨.open, true, false, []⟩, ⟨.open, true, false, []⟩, ⟨.closed, true, false, []⟩,
            ⟨.open, true, false, []⟩, ⟨.open, true, false, []⟩] topic message now =
        ([⟨.open, true, false, [⟨topic, message, now⟩]⟩,
          ⟨.open, true, false, [⟨topic, message, now⟩]⟩, ⟨.closed, true, false, []⟩,
          ⟨.open, true, false, [⟨topic, message, now⟩]⟩,
          ⟨.open, true, false, [⟨topic, message, now⟩]⟩], 4)) ∧
    (∀ (topic message : String) (now : Nat),
      forwardToWebSockets
          [⟨.open, true, false, []⟩, ⟨.open, true, true, []⟩, ⟨.open, true, false, []⟩]
          topic message now =
        ([⟨.open, true, false, [⟨topic, message, now⟩]⟩, ⟨.open, false, true, []⟩,
          ⟨.open, true, false, [⟨topic, message, now⟩]⟩], 2)) := by
  refine ⟨?_, fun _ _ _ => rfl, fun _ _ _ => rfl⟩
  intro clients topic message now
  unfold forwardToWebSockets
  rw [forwardLoop_eq]
  simp


/-! ### The consumer hook: reconnection -/

theorem reconnectDelay_le (n : Nat) : reconnectDelay n ≤ 30000 :=
  Nat.min_le_right _ _

theorem reconnectDelay_mono {m n : Nat} (h : m ≤ n) : reconnectDelay m ≤ reconnectDelay n := by
  unfold reconnectDelay
  have hp : 2 ^ m ≤ 2 ^ n := Nat.pow_le_pow_right (by decide) h
  have : 1000 * 2 ^ m ≤ 1000 * 2 ^ n := Nat.mul_le_mul_left _ hp
  omega

/-- One failed attempt of the chain the mount effect starts: the close event
    schedules a retry after `reconnectDelay 0`, whatever the state
    `connectionAttempts` counts, and the retry adds one to the state and
    connects again with the closures of the first render. -/
theorem failedAttempt_spec (h : Hook) (n : Nat)
    (h1 : h.connectionAttempts = n) (h2 : h.wsRef = some n) (h3 : h.sockets.length = n + 1)
    (h4 : h.sockets[n]? = some ⟨.connecting, 0⟩) (h5 : h.timers = [])
    (h6 : h.timersCreated = n) :
    (closeCurrent h).timers = [⟨n, 1000, .retry 0⟩] ∧
    (closeCurrent h).reconnectTimeoutRef = some n ∧
    (failedAttempt h).connectionAttempts = n + 1 ∧
    (failedAttempt h).wsRef = some (n + 1) ∧
    (failedAttempt h).sockets.length = n + 1 + 1 ∧
    (failedAttempt h).sockets[n + 1]? = some ⟨.connecting, 0⟩ ∧
    (failedAttempt h).timers = [] ∧
    (failedAttempt h).timersCreated = n + 1 := by
  have hclose : closeCurrent h =
      { h with
        data := { h.data with isConnected := false }
        sockets := h.sockets.set n ⟨.closed, 0⟩
        timers := [⟨n, 1000, .retry 0⟩]
        timersCreated := n + 1
        reconnectTimeoutRef := some n } := by
    simp [closeCurrent, hookStep, h2, h4, onclose, scheduleReconnect, hookSetTimeout,
      setIsConnected, reconnectDelay, h5, h6]
  have hfail : failedAttempt h =
      { h with
        data := { h.data with isConnected := false }
        sockets := h.sockets.set n ⟨.closed, 0⟩ ++ [⟨.connecting, 0⟩]
        timers := []
        timersCreated := n + 1
        reconnectTimeoutRef := some n
        connectionAttempts := n + 1
        wsRef := some (n + 1) } := by
    have hstep : hookStep h (.socketClose n) = closeCurrent h := by
      simp [closeCurrent, h2]
    simp only [failedAttempt, h2, hstep, hclose]
    simp [hookStep, runHookCallback, connect, h1, h3]
  rw [hclose, hfail]
  refine ⟨rfl, rfl, rfl, rfl, ?_, ?_, rfl, rfl⟩
  · simp [h3]
  · have hl : (h.sockets.set n ⟨.closed, 0⟩).length = n + 1 := by simp [h3]
    simp only
    rw [List.getElem?_append_right (by omega), hl]
    simp

theorem afterFailures_spec (data : MqttData) (n : Nat) :
    (afterFailures data n).connectionAttempts = n ∧
    (afterFailures data n).wsRef = some n ∧
    (afterFailures data n).sockets.length = n + 1 ∧
    (afterFailures data n).sockets[n]? = some ⟨.connecting, 0⟩ ∧
    (afterFailures data n).timers = [] ∧
    (afterFailures data n).timersCreated = n := by
  induction n with
  | zero => exact ⟨rfl, rfl, rfl, rfl, rfl, rfl⟩
  | succ n ih =>
    obtain ⟨h1, h2, h3, h4, h5, h6⟩ := ih
    obtain ⟨_, _, g1, g2, g3, g4, g5, g6⟩ :=
      failedAttempt_spec (afterFailures data n) n h1 h2 h3 h4 h5 h6
    exact ⟨g1, g2, g3, g4, g5, g6⟩


/-! ### The consumer hook: the projection -/

theorem startsWith_iff_append (s p : Str) : startsWith s p = true ↔ ∃ t, s = p ++ t := by
  unfold startsWith
  rw [List.isPrefixOf_iff_prefix]
  constructor
  · rintro ⟨t, rfl⟩; exact ⟨t, rfl⟩
  · rintro ⟨t, rfl⟩; exact ⟨t, rfl⟩

theorem spaces_topic_exclusive (topic : Str)
    (h : startsWith topic "parking/spaces/".toList = true) :
    startsWith topic "parking/gates/".toList = false ∧
    topic ≠ "parking/stats/summary".toList ∧
    topic ≠ "parking/analytics/hourly".toList := by
  obtain ⟨t, rfl⟩ := (startsWith_iff_append _ _).mp h
  refine ⟨rfl, ?_, ?_⟩
  · intro h1
    simp at h1
  · intro h1
    simp at h1

theorem JsValue.get_ok (payload : JsValue) (name : String)
    (h1 : payload ≠ .undefined) (h2 : payload ≠ .null) :
    payload.get name = .ok (payload.field name) := by
  cases payload <;> first | rfl | exact absurd rfl h1 | exact absurd rfl h2

theorem findIdx?_spec {α : Type} (p : α → Bool) (l : List α) (i : Nat)
    (h : l.findIdx? p = some i) : ∃ x, l[i]? = some x ∧ p x = true := by
  rw [List.findIdx?_eq_some_iff_getElem] at h
  obtain ⟨hi, hp, _⟩ := h
  exact ⟨l[i], List.getElem?_eq_getElem hi, hp⟩


theorem map_set_of_eq {α β : Type} (f : α → β) (l : List α) (i : Nat) (x y : α)
    (hy : l[i]? = some y) (hf : f x = f y) : (l.set i x).map f = l.map f := by
  apply List.ext_getElem?
  intro j
  by_cases hj : i = j
  · subst hj
    simp [List.getElem?_set, hy, hf]
    by_contra hlt
    have := List.getElem?_eq_none (Nat.le_of_not_lt hlt)
    rw [hy] at this
    cases this
  · simp [List.getElem?_set, hj]

/-- What `processMessage` does on a space topic whose id names a record. -/
theorem processMessage_space_spec (prev : MqttData) (topic : Str) (payload : JsValue)
    (now : Date) (id : Int) (spaceIndex : Nat)
    (hu : payload ≠ .undefined) (hn : payload ≠ .null)
    (ht : startsWith topic "parking/spaces/".toList = true)
    (he : endsWith topic "/status".toList = true)
    (hid : parseIntAt (split '/' topic) 2 = some id)
    (hidx : prev.parkingSpaces.findIdx? (fun space => decide (space.id = id)) =
      some spaceIndex) :
    processMessage prev topic payload now =
      .ok { prev with
            parkingSpaces := prev.parkingSpaces.set spaceIndex (spaceOfPayload id payload)
            lastUpdate := now } := by
  obtain ⟨hg, hs, hh⟩ := spaces_topic_exclusive topic ht
  have h1 : processSpaceTopic prev topic payload =
      .ok { prev with
            parkingSpaces := prev.parkingSpaces.set spaceIndex (spaceOfPayload id payload) } := by
    simp only [processSpaceTopic, ht, he, Bool.and_self, if_true, hid, findSpaceIndex, hidx,
      JsValue.get_ok payload _ hu hn]
    rfl
  have h2 : ∀ d : MqttData, processGateTopic d topic payload = .ok d := by
    intro d
    simp only [processGateTopic, hg, Bool.false_and, Bool.false_eq_true, if_false]
    rfl
  have h3 : ∀ d : MqttData, processStatsTopic d topic payload = .ok d := by
    intro d
    simp only [processStatsTopic, hs, if_false]
    rfl
  have h4 : ∀ d : MqttData, processHourlyTopic d topic payload = d := by
    intro d
    simp only [processHourlyTopic, hh, if_false]
  simp only [processMessage, h1, h2, h3, h4]
  rfl


/-- C16: the delay `scheduleReconnect` computes from the attempt count `n` it
    sees is `min(1000·2^n, 30000)` ms, and that is the delay of the timer it
    sets (it sets one when `n < 10`); for `n = 0, …, 9` the delays are 1000,
    2000, 4000, 8000, 16000 and then 30000 five times; the delay never
    decreases with `n` and never exceeds 30000. -/
theorem reconnectDelay_sequence :
    (∀ n : Nat, reconnectDelay n = min (1000 * 2 ^ n) 30000) ∧
    (∀ (n : Nat) (h : Hook), n < 10 →
      (scheduleReconnect n h).timers =
        h.timers ++ [⟨h.timersCreated, min (1000 * 2 ^ n) 30000, .retry n⟩]) ∧
    (List.range 10).map reconnectDelay =
      [1000, 2000, 4000, 8000, 16000, 30000, 30000, 30000, 30000, 30000] ∧
    (∀ m n : Nat, m ≤ n → reconnectDelay m ≤ reconnectDelay n) ∧
    (∀ n : Nat, reconnectDelay n ≤ 30000) := by
  refine ⟨fun _ => rfl, ?_, by decide, fun m n h => reconnectDelay_mono h, reconnectDelay_le⟩
  intro n h hn
  simp [scheduleReconnect, hn, hookSetTimeout, reconnectDelay]

/-- Witness of C16: the count 3 on a freshly mounted hook. -/
theorem reconnectDelay_sequence_witness :
    3 < 10 ∧
    (scheduleReconnect 3 (mount (initialData env0))).timers =
      (mount (initialData env0)).timers ++
        [⟨(mount (initialData env0)).timersCreated, min (1000 * 2 ^ 3) 30000, .retry 3⟩] ∧
    reconnectDelay 2 ≤ reconnectDelay 7 :=
  ⟨by decide, reconnectDelay_sequence.2.1 3 (mount (initialData env0)) (by decide),
    reconnectDelay_sequence.2.2.2.1 2 7 (by decide)⟩

/-- C17, the code at the failing input: the sockets of the chain the mount
    effect starts carry the `scheduleReconnect` of the first render, which
    sees `connectionAttempts = 0`.  After any number `n` of failed attempts in
    a row the state counts `n`, and the next close again schedules a retry
    after 1000 ms; so does the close after ten failures, whose retry raises
    the count to 11.  A `scheduleReconnect` that sees 10 or more schedules
    nothing. -/
theorem retry_after_ten_failures :
    (∀ (data : MqttData) (n : Nat),
      (afterFailures data n).connectionAttempts = n ∧
      (closeCurrent (afterFailures data n)).timers = [⟨n, 1000, .retry 0⟩]) ∧
    (∀ data : MqttData,
      (afterFailures data 10).connectionAttempts = 10 ∧
      (closeCurrent (afterFailures data 10)).timers = [⟨10, 1000, .retry 0⟩] ∧
      (afterFailures data 11).connectionAttempts = 11) ∧
    (∀ (n : Nat) (h : Hook), 10 ≤ n → scheduleReconnect n h = h) := by
  have key : ∀ (data : MqttData) (n : Nat),
      (afterFailures data n).connectionAttempts = n ∧
      (closeCurrent (afterFailures data n)).timers = [⟨n, 1000, .retry 0⟩] := by
    intro data n
    obtain ⟨h1, h2, h3, h4, h5, h6⟩ := afterFailures_spec data n
    exact ⟨h1, (failedAttempt_spec _ n h1 h2 h3 h4 h5 h6).1⟩
  refine ⟨key, fun data => ⟨(key data 10).1, (key data 10).2, (key data 11).1⟩, ?_⟩
  intro n h hn
  have : ¬ n < 10 := by omega
  simp [scheduleReconnect, this]

/-- Witness of C17: a `scheduleReconnect` that sees 12 schedules nothing. -/
theorem retry_after_ten_failures_witness :
    10 ≤ 12 ∧ scheduleReconnect 12 (mount (initialData env0)) = mount (initialData env0) :=
  ⟨by decide, retry_after_ten_failures.2.2 12 (mount (initialData env0)) (by decide)⟩

/-- C18, the code at the failing input.  For every hook state
    `manualReconnect` sets the count to 0, closes the socket in `wsRef`,
    empties both refs, clears `isConnected` and adds one timer of 1000 ms for
    `connect`; but it cancels only the timer recorded in
    `reconnectTimeoutRef`.  In the run
    `pressedWhileConnecting` two automatic retries (timers 2 and 3) are pending
    and the ref records timer 3: after `manualReconnect` timer 2 is still
    pending, and when it fires it connects.  The same run shows how the two
    retries arise: the first `manualReconnect` closes a socket whose close
    event schedules a retry besides the settle timer. -/
theorem manualReconnect_leaves_retry :
    (∀ (n : Nat) (h : Hook),
      (manualReconnect n h).connectionAttempts = 0 ∧
      (manualReconnect n h).wsRef = none ∧
      (manualReconnect n h).reconnectTimeoutRef = none ∧
      (manualReconnect n h).data.isConnected = false ∧
      (manualReconnect n h).sockets =
        (match h.wsRef with
          | some i => h.sockets.modify HookSocket.close i
          | none => h.sockets) ∧
      (manualReconnect n h).timers =
        (match h.reconnectTimeoutRef with
          | some id => h.timers.filter (fun t => decide (t.id ≠ id))
          | none => h.timers) ++ [⟨h.timersCreated, 1000, .settle n⟩]) ∧
    (∀ (h : Hook) (now : Date), (onopen h now).connectionAttempts = 0) ∧
    (hookRun (mount (initialData env0)) [.manualReconnect, .socketClose 0]).timers =
      [⟨0, 1000, .settle 0⟩, ⟨1, 1000, .retry 0⟩] ∧
    (hookRun (mount (initialData env0)) pressedWhileConnecting).timers =
      [⟨2, 1000, .retry 0⟩, ⟨3, 1000, .retry 0⟩] ∧
    (hookRun (mount (initialData env0)) pressedWhileConnecting).reconnectTimeoutRef = some 3 ∧
    (hookRun (mount (initialData env0)) pressedWhileConnecting).data.isConnected = false ∧
    (hookRun (mount (initialData env0)) (pressedWhileConnecting ++ [.manualReconnect])).timers =
      [⟨2, 1000, .retry 0⟩, ⟨4, 1000, .settle 1⟩] ∧
    (hookRun (mount (initialData env0))
      (pressedWhileConnecting ++ [.manualReconnect, .timeout 2])).sockets =
      [⟨.closed, 0⟩, ⟨.closed, 0⟩, ⟨.closed, 0⟩, ⟨.connecting, 0⟩] := by
  refine ⟨?_, fun _ _ => rfl, by decide, by decide, by decide, by decide, by decide, by decide⟩
  intro n h
  cases hr : h.reconnectTimeoutRef <;> cases hw : h.wsRef <;>
    simp [manualReconnect, disconnect, hookSetTimeout, setIsConnected, hr, hw]

/-- C20, the code at the failing input: the initial projection has space 2
    occupied; the processor's payload for the freed space has no
    `previous_state` field, and after `processMessage` the record's
    `previous_state` is `undefined`, not the `true` that `occupied` of the
    record held before the overwrite. -/
theorem previous_state_not_recorded :
    ((initialData env0).parkingSpaces.map (fun space => space.occupied))[1]? =
      some (.bool true) ∧
    (∃ d : MqttData,
      processMessage (initialData env0) "parking/spaces/2/status".toList freedPayload ⟨0, 0⟩ =
        .ok d ∧
      (d.parkingSpaces.map (fun space => space.previous_state))[1]? = some .undefined) ∧
    JsValue.undefined ≠ JsValue.bool true := by
  refine ⟨rfl, ⟨_, processMessage_space_spec (initialData env0) _ freedPayload ⟨0, 0⟩ 2 1
    (by intro h; cases h) (by intro h; cases h) (by decide) (by decide) (by decide) (by decide),
    rfl⟩, by intro h; cases h⟩

/-- The space branch of `processMessage` in general: for every projection and
    every payload other than `undefined` and `null` on a topic
    `parking/spaces/{id}/status` whose id names a record, that record is
    replaced by one whose id is the topic's and whose other fields,
    `previous_state` among them, are the payload's (so `previous_state` is what
    the payload says, `undefined` when it says nothing); the number of records,
    their ids, every other record and the rest of the projection but
    `lastUpdate` are unchanged. -/
theorem processMessage_space_topic (prev : MqttData) (topic : Str) (payload : JsValue)
    (now : Date) (id : Int) (spaceIndex : Nat)
    (hu : payload ≠ .undefined) (hn : payload ≠ .null)
    (ht : startsWith topic "parking/spaces/".toList = true)
    (he : endsWith topic "/status".toList = true)
    (hid : parseIntAt (split '/' topic) 2 = some id)
    (hidx : prev.parkingSpaces.findIdx? (fun space => decide (space.id = id)) =
      some spaceIndex) :
    processMessage prev topic payload now =
      .ok { prev with
            parkingSpaces := prev.parkingSpaces.set spaceIndex (spaceOfPayload id payload)
            lastUpdate := now } ∧
    (spaceOfPayload id payload).previous_state = payload.field "previous_state" ∧
    (prev.parkingSpaces.set spaceIndex (spaceOfPayload id payload)).length =
      prev.parkingSpaces.length ∧
    (prev.parkingSpaces.set spaceIndex (spaceOfPayload id payload)).map (fun space => space.id) =
      prev.parkingSpaces.map (fun space => space.id) ∧
    (∀ j : Nat, j ≠ spaceIndex →
      (prev.parkingSpaces.set spaceIndex (spaceOfPayload id payload))[j]? =
        prev.parkingSpaces[j]?) := by
  refine ⟨processMessage_space_spec prev topic payload now id spaceIndex hu hn ht he hid hidx,
    rfl, by simp, ?_, ?_⟩
  · obtain ⟨x, hx, hp⟩ := findIdx?_spec _ _ _ hidx
    have hxid : x.id = id := by simpa using hp
    exact map_set_of_eq _ _ _ _ x hx (by simp [spaceOfPayload, hxid])
  · intro j hj
    have : spaceIndex ≠ j := fun e => hj e.symm
    simp [List.getElem?_set, this]

/-- An instance of the space branch: the freed-space payload for space 2 on
    the initial projection. -/
theorem processMessage_space_topic_witness :
    freedPayload ≠ .undefined ∧ freedPayload ≠ .null ∧
    startsWith "parking/spaces/2/status".toList "parking/spaces/".toList = true ∧
    endsWith "parking/spaces/2/status".toList "/status".toList = true ∧
    parseIntAt (split '/' "parking/spaces/2/status".toList) 2 = some 2 ∧
    (initialData env0).parkingSpaces.findIdx? (fun space => decide (space.id = 2)) = some 1 ∧
    processMessage (initialData env0) "parking/spaces/2/status".toList freedPayload ⟨0, 0⟩ =
      .ok { initialData env0 with
            parkingSpaces := (initialData env0).parkingSpaces.set 1 (spaceOfPayload 2 freedPayload)
            lastUpdate := ⟨0, 0⟩ } :=
  ⟨(by intro h; cases h), (by intro h; cases h), by decide, by decide, by decide, by decide,
    (processMessage_space_topic (initialData env0) "parking/spaces/2/status".toList freedPayload
      ⟨0, 0⟩ 2 1 (by intro h; cases h) (by intro h; cases h) (by decide) (by decide)
      (by decide) (by decide)).1⟩


/-! ## The claims on the hourly buckets, the daily mean, the distances, the
    topics, the gate sequence and the backup hook -/

/-! ### The decoder: ids in range and the number of iterations -/

theorem extractSpacePairsTrace_eq (pairs : List Str) :
    ∀ (fuel k : Nat) (acc : List SpacePair) (visited : Nat), pairs.length / 2 ≤ k + fuel →
      extractSpacePairsTrace pairs fuel (2 * k) acc visited =
        some (extractSpacePairsLoop pairs fuel (2 * k) acc, visited + (pairs.length / 2 - k)) := by
  intro fuel
  induction fuel with
  | zero =>
    intro k acc visited h
    have hk : ¬ ((2 * k : Nat) : Int) < (pairs.length : Int) - 1 := by omega
    have : pairs.length / 2 - k = 0 := by omega
    simp only [extractSpacePairsTrace, extractSpacePairsLoop, if_neg hk, this, Nat.add_zero]
  | succ n ih =>
    intro k acc visited h
    unfold extractSpacePairsTrace extractSpacePairsLoop
    have h2 : 2 * k + 2 = 2 * (k + 1) := by ring
    by_cases hk : ((2 * k : Nat) : Int) < (pairs.length : Int) - 1
    · have hlt : k < pairs.length / 2 := by omega
      have hv : visited + 1 + (pairs.length / 2 - (k + 1)) = visited + (pairs.length / 2 - k) := by
        omega
      rw [if_pos hk, if_pos hk]
      cases hid : parseIntAt pairs (2 * k) with
      | none =>
        simp only []
        rw [h2, ih (k + 1) acc (visited + 1) (by omega), hv]
      | some id =>
        simp only []
        by_cases hin : inRange (some id) 1 3 = true
        · rw [if_pos hin, if_pos hin, h2, ih (k + 1) _ (visited + 1) (by omega), hv]
        · rw [if_neg hin, if_neg hin, h2, ih (k + 1) _ (visited + 1) (by omega), hv]
    · have : pairs.length / 2 - k = 0 := by omega
      rw [if_neg hk, if_neg hk, this]
      rfl

theorem length_filterMap_le_range {β : Type} (f : Nat → Option β) (n : Nat) :
    ((List.range n).filterMap f).length ≤ n := by
  calc ((List.range n).filterMap f).length ≤ (List.range n).length := List.length_filterMap_le _ _
    _ = n := List.length_range n

theorem processSpaceChange_no_throw (env : Env) (s : State) (id : Int) (b : Bool)
    (hs : WellFormed s) (hid : 1 ≤ id ∧ id ≤ 3) :
    (arrayGet s.parkingSpaces (id - 1)).isSome = true ∧
      (processSpaceChange env s id b).throws = false := by
  obtain ⟨w, s1, _, h, _⟩ := processSpaceChange_spec env s id b hs hid
  obtain ⟨x, y, z, hps, _⟩ := wellFormed_cases hs
  refine ⟨?_, by rw [h]; rfl⟩
  have h3 : id = 1 ∨ id = 2 ∨ id = 3 := by omega
  rcases h3 with rfl | rfl | rfl <;> simp [arrayGet, hps]

/-- C29: for every data section, every assignment `extractSpacePairs` returns
    has `spaceId` in 1..3; in every reachable state `parkingSpaces` has three
    elements, the index `spaceId - 1` lies within it, the lookup of
    `processSpaceChange` finds a record and the call does not throw; the loop
    runs its body exactly `⌊t/2⌋` times for `t` tokens and then stops on its
    condition (within the `t` iterations allowed), and it returns at most
    `⌊t/2⌋` assignments. -/
theorem extractSpacePairs_index_in_bounds :
    ∀ dataSection : Str,
      (∀ p ∈ extractSpacePairs dataSection,
        1 ≤ p.spaceId ∧ p.spaceId ≤ 3 ∧
        ∀ (env : Env) (s : State), Reachable env s →
          s.parkingSpaces.length = 3 ∧
          0 ≤ p.spaceId - 1 ∧ (p.spaceId - 1).toNat < s.parkingSpaces.length ∧
          (arrayGet s.parkingSpaces (p.spaceId - 1)).isSome = true ∧
          (processSpaceChange env s p.spaceId p.isOccupied).throws = false) ∧
      extractSpacePairsTrace (split ':' dataSection) (split ':' dataSection).length 0 [] 0 =
        some (extractSpacePairs dataSection, (split ':' dataSection).length / 2) ∧
      (extractSpacePairs dataSection).length ≤ (split ':' dataSection).length / 2 := by
  intro dataSection
  refine ⟨?_, ?_, ?_⟩
  · intro p hp
    have hr := extractSpacePairs_range dataSection p hp
    refine ⟨hr.1, hr.2, ?_⟩
    intro env s h
    have hs := reachable_wellFormed env s h
    have hlen := wellFormed_length hs
    have hn := processSpaceChange_no_throw env s p.spaceId p.isOccupied hs hr
    refine ⟨hlen, by omega, by omega, hn.1, hn.2⟩
  · have h := extractSpacePairsTrace_eq (split ':' dataSection) (split ':' dataSection).length 0 []
      0 (by omega)
    simpa [extractSpacePairs] using h
  · rw [extractSpacePairs_eq]
    exact length_filterMap_le_range _ _

/-- Witness of C29: the section `1:0:3:1:7` (five tokens, two pairs) and the
    initial store. -/
theorem extractSpacePairs_index_in_bounds_witness :
    Reachable env0 (initialState env0) ∧
    (⟨3, true⟩ : SpacePair) ∈ extractSpacePairs "1:0:3:1:7".toList ∧
    (initialState env0).parkingSpaces.length = 3 ∧
    (arrayGet (initialState env0).parkingSpaces ((3 : Int) - 1)).isSome = true ∧
    (processSpaceChange env0 (initialState env0) 3 true).throws = false ∧
    extractSpacePairsTrace (split ':' "1:0:3:1:7".toList) 5 0 [] 0 =
      some ([⟨1, false⟩, ⟨3, true⟩], 2) :=
  have hr : Reachable env0 (initialState env0) := ⟨[], rfl⟩
  have hm : (⟨3, true⟩ : SpacePair) ∈ extractSpacePairs "1:0:3:1:7".toList := by decide
  have h := extractSpacePairs_index_in_bounds "1:0:3:1:7".toList
  have hp := (h.1 ⟨3, true⟩ hm).2.2 env0 (initialState env0) hr
  ⟨hr, hm, hp.1, hp.2.2.2.1, hp.2.2.2.2, by decide⟩

/-! ### What leaves the hourly buckets and the daily sums alone -/

theorem processSpaceChange_aggregates (env : Env) (s : State) (id : Int) (b : Bool) :
    aggregates (processSpaceChange env s id b).state = aggregates s := by
  unfold processSpaceChange
  cases h : arrayGet s.parkingSpaces (id - 1) with
  | none => simp [h, Completion.state]
  | some space =>
    by_cases hb : space.occupied = b <;>
      simp [h, hb, Completion.state, newDate, random, aggregates]

theorem processSpacePairs_aggregates (env : Env) (pairs : List SpacePair) :
    ∀ (s : State) (acc : List Change),
      aggregates (processSpacePairs env s pairs acc).state = aggregates s := by
  induction pairs with
  | nil => intro s acc; simp [processSpacePairs, Completion.state]
  | cons p ps ih =>
    intro s acc
    have hf := processSpaceChange_aggregates env s p.spaceId p.isOccupied
    unfold processSpacePairs
    cases hp : processSpaceChange env s p.spaceId p.isOccupied with
    | throw e s1 =>
      rw [hp] at hf
      simpa [Completion.state] using hf
    | normal r s1 =>
      rw [hp] at hf
      simp only [Completion.state] at hf
      cases r with
      | none => simp only; exact (ih s1 acc).trans hf
      | some c => simp only; exact (ih s1 (acc ++ [c])).trans hf

theorem publishSpaceUpdate_aggregates (env : Env) (s : State) (space : Space) :
    aggregates (publishSpaceUpdate env s space) = aggregates s := by
  simp [publishSpaceUpdate, publish, random, aggregates]

theorem updateStatsForChange_aggregates (env : Env) (s : State) (c : Change) :
    aggregates (updateStatsForChange env s c) = aggregates s := by
  unfold updateStatsForChange
  rcases hw : c.wasOccupied <;> rcases hi : c.isOccupied <;>
    simp only [newDate, Bool.not_true, Bool.not_false, Bool.and_true, Bool.and_false,
      Bool.false_and, Bool.true_and, if_true, if_false, Bool.false_eq_true] <;>
    split <;> rfl

theorem publishChange_aggregates (env : Env) (s : State) (c : Change) :
    aggregates (publishChange env s c) = aggregates s := by
  unfold publishChange
  cases s.parkingSpaces[c.space]? with
  | none => exact updateStatsForChange_aggregates env s c
  | some space =>
    exact (updateStatsForChange_aggregates env _ c).trans (publishSpaceUpdate_aggregates env s space)

theorem foldl_publishChange_aggregates (env : Env) (cs : List Change) :
    ∀ s : State, aggregates (cs.foldl (publishChange env) s) = aggregates s := by
  induction cs with
  | nil => intro s; rfl
  | cons c cs ih =>
    intro s
    rw [List.foldl_cons, ih]
    exact publishChange_aggregates env s c

theorem publishSystemStats_aggregates (env : Env) (s : State) :
    aggregates (publishSystemStats env s) = aggregates s := by
  simp [publishSystemStats, publish, newDate, aggregates]

theorem parseESP32Data_aggregates (env : Env) (s : State) (rawData : Str) :
    aggregates (parseESP32Data env s rawData).state = aggregates s := by
  unfold parseESP32Data
  by_cases hv : isValidESP32Format rawData = true
  · simp only [hv, Bool.not_true, Bool.false_eq_true, if_false]
    have hp := processSpacePairs_aggregates env (extractSpacePairs (slice rawData 4 (-1))) s []
    cases hr : processSpacePairs env s (extractSpacePairs (slice rawData 4 (-1))) [] with
    | throw e s1 =>
      rw [hr] at hp
      simpa [Completion.state] using hp
    | normal changes s1 =>
      rw [hr] at hp
      simp only [Completion.state] at hp
      simp only
      split
      · simp only [Completion.state]
        have h := (publishSystemStats_aggregates env (changes.foldl (publishChange env) s1)).trans
          ((foldl_publishChange_aggregates env changes s1).trans hp)
        simpa [aggregates] using h
      · simpa [Completion.state, consoleLog, aggregates] using hp
  · have hv2 : isValidESP32Format rawData = false := by simpa using hv
    simp [hv2, Completion.state, consoleLog, aggregates]

theorem publishGateUpdate_aggregates (env : Env) (s : State) (t : GateType) (b : Bool) :
    aggregates (publishGateUpdate env s t b) = aggregates s := by
  simp [publishGateUpdate, publish, newDate, aggregates]

theorem parseBarrierDataLoop_aggregates (env : Env) (pairs : List Str) :
    ∀ (fuel i : Nat) (s : State),
      aggregates (parseBarrierDataLoop env pairs fuel i s) = aggregates s := by
  intro fuel
  induction fuel with
  | zero => intro i s; rfl
  | succ n ih =>
    intro i s
    unfold parseBarrierDataLoop
    by_cases h1 : (i : Int) < (pairs.length : Int) - 1
    · simp only [h1, if_true]
      by_cases h2 : (numEq (parseIntAt pairs i) 1 || numEq (parseIntAt pairs i) 2) = true
      · simp only [h2, if_true]
        rw [ih]
        split <;> split <;> rfl
      · simp only [h2]
        exact ih _ _
    · simp only [h1, if_false]

theorem publishGateStatus_aggregates (env : Env) (s : State) (t : GateType) :
    aggregates (publishGateStatus env s t) = aggregates s := by
  simp [publishGateStatus, publish, newDate, aggregates]

theorem foldl_publishSpaceUpdate_aggregates (env : Env) (l : List Space) :
    ∀ s : State, aggregates (l.foldl (publishSpaceUpdate env) s) = aggregates s := by
  induction l with
  | nil => intro s; rfl
  | cons x xs ih =>
    intro s
    rw [List.foldl_cons, ih]
    exact publishSpaceUpdate_aggregates env s x

theorem publishInitialData_aggregates (env : Env) (s : State) :
    aggregates (publishInitialData env s) = aggregates s := by
  have h : aggregates (publishSystemStats env (publishGateStatus env
      (publishGateStatus env (s.parkingSpaces.foldl (publishSpaceUpdate env) s) .entry) .exit)) =
      aggregates s := by
    rw [publishSystemStats_aggregates, publishGateStatus_aggregates, publishGateStatus_aggregates,
      foldl_publishSpaceUpdate_aggregates]
  simpa [publishInitialData, publish, aggregates] using h

theorem publishGatePhase_aggregates (env : Env) (s : State) (t : GateType) (phase : GatePhase)
    (angle : Nat) (action : String) :
    aggregates (publishGatePhase env s t phase angle action) = aggregates s := by
  simp [publishGatePhase, publish, newDate, aggregates]

theorem setTimeout_aggregates (s : State) (t : GateType) (stage : GateStage) (delay : Nat) :
    aggregates (setTimeout s t stage delay) = aggregates s := rfl

theorem runTimer_aggregates (env : Env) (s : State) (t : Timer) :
    aggregates (runTimer env s t) = aggregates s := by
  unfold runTimer
  cases t.stage <;> simp only [setTimeout_aggregates, publishGatePhase_aggregates]

theorem simulateGateActivity_aggregates (env : Env) (s : State) :
    aggregates (simulateGateActivity env s) = aggregates s := by
  unfold simulateGateActivity
  simp only [random]
  split
  · simp only [simulateGateSequence, setTimeout_aggregates, publishGatePhase_aggregates]
    rfl
  · rfl

theorem onMessage_aggregates (env : Env) (s : State) (topic : String) (message : Str) :
    aggregates (onMessage env s topic message).state = aggregates s := by
  have hh : ∀ s0 : State, aggregates (handleRawData env s0 (trim message)).state =
      aggregates s0 := by
    intro s0
    unfold handleRawData
    split
    · exact parseESP32Data_aggregates env s0 _
    · split
      · exact parseBarrierDataLoop_aggregates env _ _ _ _
      · rfl
  unfold onMessage
  split
  · simp only [newDate]
    have h := hh { s with clockReads := s.clockReads + 1 }
    cases hp : handleRawData env { s with clockReads := s.clockReads + 1 } (trim message) with
    | normal v s1 => rw [hp] at h; exact h
    | throw e s1 => rw [hp] at h; exact h
  · rfl

/-- Every event other than the hourly and the daily tick leaves the hourly
    buckets, the daily sums and the stored mean as they are. -/
theorem step_aggregates (env : Env) (s : State) (e : Event)
    (h1 : e ≠ .hourlyTick) (h2 : e ≠ .dailyTick) :
    aggregates (step env s e) = aggregates s := by
  cases e with
  | connect => exact publishInitialData_aggregates env s
  | message topic text => exact onMessage_aggregates env s topic text
  | gateTick => exact simulateGateActivity_aggregates env s
  | hourlyTick => exact absurd rfl h1
  | statsTick => exact publishSystemStats_aggregates env s
  | dailyTick => exact absurd rfl h2
  | timeout k =>
    simp only [step]
    cases s.timers[k]? with
    | none => rfl
    | some t => exact runTimer_aggregates env _ t

/-! ### The hourly buckets -/

theorem updateHourlyData_hourly (env : Env) (s : State) :
    (updateHourlyData env s).hourlyOccupancy =
      s.hourlyOccupancy.set (env.clock s.clockReads).hours
        { hour := hourLabel (env.clock s.clockReads).hours
          occupied := occupiedCount s.parkingSpaces
          available := (s.parkingSpaces.length : Int) - occupiedCount s.parkingSpaces
          timestamp := (env.clock (s.clockReads + 1)).ms
          dataSource := some "ESP32_REAL" } := by
  simp [updateHourlyData, publish, newDate]

theorem step_hourly_length (env : Env) (s : State) (e : Event) :
    (step env s e).hourlyOccupancy.length = s.hourlyOccupancy.length := by
  by_cases h1 : e = .hourlyTick
  · subst h1
    simp only [step, updateHourlyData_hourly, List.length_set]
  · by_cases h2 : e = .dailyTick
    · subst h2
      rfl
    · have h := step_aggregates env s e h1 h2
      simp only [aggregates, Prod.mk.injEq] at h
      rw [h.1]

theorem run_hourly_length (env : Env) (events : List Event) :
    ∀ s : State, (run env s events).hourlyOccupancy.length = s.hourlyOccupancy.length := by
  induction events with
  | nil => intro s; rfl
  | cons e es ih =>
    intro s
    exact (ih (step env s e)).trans (step_hourly_length env s e)

theorem hourLabel_digits : ∀ h : Fin 24,
    hourLabel h = String.mk [digitChar (h / 10), digitChar (h % 10), ':', '0', '0'] := by
  decide

/-- C24: in every reachable state `hourlyOccupancy` has exactly 24 entries;
    for every hour `h` in 0..23, `updateHourlyData` run when the clock reads
    hour `h` keeps the 24 entries, overwrites entry `h` with the label `HH:00`
    (the two decimal digits of `h`), the number of occupied spaces and
    `3 - occupied` as the available ones, and leaves the entry of every other
    hour as it was. -/
theorem updateHourlyData_only_current_hour (env : Env) (s : State) (h : Fin 24)
    (hr : Reachable env s) (hh : (env.clock s.clockReads).hours = h) :
    s.hourlyOccupancy.length = 24 ∧
    (updateHourlyData env s).hourlyOccupancy.length = 24 ∧
    (updateHourlyData env s).hourlyOccupancy[(h : Nat)]? =
      some { hour := String.mk [digitChar (h / 10), digitChar (h % 10), ':', '0', '0']
             occupied := (s.parkingSpaces.filter (fun space => space.occupied)).length
             available :=
               3 - ((s.parkingSpaces.filter (fun space => space.occupied)).length : Int)
             timestamp := (env.clock (s.clockReads + 1)).ms
             dataSource := some "ESP32_REAL" } ∧
    (∀ j : Nat, j ≠ h →
      (updateHourlyData env s).hourlyOccupancy[j]? = s.hourlyOccupancy[j]?) ∧
    (updateHourlyData env s).parkingSpaces = s.parkingSpaces ∧
    (updateHourlyData env s).systemStats = s.systemStats ∧
    (updateHourlyData env s).dailyData = s.dailyData := by
  have hlen : s.hourlyOccupancy.length = 24 := by
    obtain ⟨events, rfl⟩ := hr
    rw [run_hourly_length]
    simp [initialState]
  have h3 := wellFormed_length (reachable_wellFormed env s hr)
  have hlt : (h : Nat) < s.hourlyOccupancy.length := by rw [hlen]; exact h.isLt
  refine ⟨hlen, ?_, ?_, ?_, updateHourlyData_spaces env s, ?_, ?_⟩
  · rw [updateHourlyData_hourly, List.length_set, hlen]
  · rw [updateHourlyData_hourly, hh, List.getElem?_set_self hlt, hourLabel_digits, h3]
    rfl
  · intro j hj
    rw [updateHourlyData_hourly, hh, List.getElem?_set_ne (fun e => hj e.symm)]
  · simp [updateHourlyData, publish, newDate]
  · simp [updateHourlyData, publish, newDate]

/-- Witness of C24: hour 14, after a frame that occupied space 1; bucket 14
    becomes `14:00` with one space occupied and two available, bucket 13 stays
    as it was. -/
theorem updateHourlyData_only_current_hour_witness :
    Reachable env14
      (run env14 (initialState env14) [.message "esp32/data" "OCC:1:1;".toList]) ∧
    (updateHourlyData env14
      (run env14 (initialState env14)
        [.message "esp32/data" "OCC:1:1;".toList])).hourlyOccupancy[14]? =
      some { hour := "14:00", occupied := 1, available := 2, timestamp := 50400000,
             dataSource := some "ESP32_REAL" } ∧
    (updateHourlyData env14
      (run env14 (initialState env14)
        [.message "esp32/data" "OCC:1:1;".toList])).hourlyOccupancy[13]? =
      some { hour := "13:00", occupied := 0, available := 3, timestamp := 50400000,
             dataSource := none } :=
  have h := updateHourlyData_only_current_hour env14
    (run env14 (initialState env14) [.message "esp32/data" "OCC:1:1;".toList]) 14
    ⟨_, rfl⟩ rfl
  ⟨⟨_, rfl⟩, h.2.2.1.trans (by decide), (h.2.2.2.1 13 (by decide)).trans (by decide)⟩

/-! ### The gate sequence -/

theorem eraseIdx_concat_length {α : Type} (l : List α) (x : α) :
    (l ++ [x]).eraseIdx l.length = l := by
  induction l with
  | nil => rfl
  | cons a l ih => simp [List.eraseIdx, ih]

theorem gateStatus_set_set (g : GateStatus) (t : GateType) (a b : GatePhase) :
    (g.set t a).set t b = g.set t b := by
  cases t <;> rfl

theorem publishGatePhase_spec (env : Env) (s : State) (gateType : GateType) (phase : GatePhase)
    (servoAngle : Nat) (action : String) :
    publishGatePhase env s gateType phase servoAngle action =
      { s with
        gateStatus := s.gateStatus.set gateType phase
        published := s.published ++
          [gatePhaseMessage gateType phase servoAngle action (env.clock s.clockReads).ms]
        clockReads := s.clockReads + 1 } := by
  simp [publishGatePhase, publish, newDate, gatePhaseMessage, gateStatus_get_set]

theorem step_timeout_last (env : Env) (s : State) (t : Timer) (timers : List Timer)
    (h : s.timers = timers ++ [t]) :
    step env s (.timeout timers.length) = runTimer env { s with timers := timers } t := by
  simp [step, h, eraseIdx_concat_length]

/-- C28: for either gate, `simulateGateSequence` sets and publishes the phase
    `opening` (angle 45, action `opening`) at once and arms a 2000 ms timer;
    that timer sets and publishes `open` (90, `opened`) and arms a 4000 ms
    timer; that one sets and publishes `closing` (45, `closing`) and arms a
    2000 ms timer; the last sets and publishes `closed` (0, `closed`) and arms
    nothing.  When the three timers fire with nothing in between, the phases of
    the gate are opening, open, closing, closed in this order, exactly these
    four messages are published, and no timer of the sequence is left. -/
theorem simulateGateSequence_four_phases (env : Env) (s : State) (gateType : GateType) :
    -- the first phase, at once, and the timer of the second
    simulateGateSequence env s gateType =
      { s with
        gateStatus := s.gateStatus.set gateType .opening
        published := s.published ++
          [gatePhaseMessage gateType .opening 45 "opening" (env.clock s.clockReads).ms]
        clockReads := s.clockReads + 1
        timers := s.timers ++ [{ delay := 2000, gateType := gateType, stage := .opened }] } ∧
    -- the callbacks of the three timers, whatever state they run in
    (∀ (s1 : State) (delay : Nat),
      runTimer env s1 { delay := delay, gateType := gateType, stage := .opened } =
        { s1 with
          gateStatus := s1.gateStatus.set gateType .open
          published := s1.published ++
            [gatePhaseMessage gateType .open 90 "opened" (env.clock s1.clockReads).ms]
          clockReads := s1.clockReads + 1
          timers := s1.timers ++ [{ delay := 4000, gateType := gateType, stage := .closing }] } ∧
      runTimer env s1 { delay := delay, gateType := gateType, stage := .closing } =
        { s1 with
          gateStatus := s1.gateStatus.set gateType .closing
          published := s1.published ++
            [gatePhaseMessage gateType .closing 45 "closing" (env.clock s1.clockReads).ms]
          clockReads := s1.clockReads + 1
          timers := s1.timers ++ [{ delay := 2000, gateType := gateType, stage := .closed }] } ∧
      runTimer env s1 { delay := delay, gateType := gateType, stage := .closed } =
        { s1 with
          gateStatus := s1.gateStatus.set gateType .closed
          published := s1.published ++
            [gatePhaseMessage gateType .closed 0 "closed" (env.clock s1.clockReads).ms]
          clockReads := s1.clockReads + 1 }) ∧
    -- the whole sequence with nothing in between
    (List.range 4).map
        (fun n =>
          ((run env (simulateGateSequence env s gateType)
            (List.replicate n (.timeout s.timers.length))).gateStatus.get gateType,
           (run env (simulateGateSequence env s gateType)
            (List.replicate n (.timeout s.timers.length))).timers.drop s.timers.length)) =
      [ (.opening, [{ delay := 2000, gateType := gateType, stage := .opened }]),
        (.open, [{ delay := 4000, gateType := gateType, stage := .closing }]),
        (.closing, [{ delay := 2000, gateType := gateType, stage := .closed }]),
        (.closed, []) ] ∧
    run env (simulateGateSequence env s gateType)
        (List.replicate 3 (.timeout s.timers.length)) =
      { s with
        gateStatus := s.gateStatus.set gateType .closed
        published := s.published ++
          [ gatePhaseMessage gateType .opening 45 "opening" (env.clock s.clockReads).ms,
            gatePhaseMessage gateType .open 90 "opened" (env.clock (s.clockReads + 1)).ms,
            gatePhaseMessage gateType .closing 45 "closing" (env.clock (s.clockReads + 2)).ms,
            gatePhaseMessage gateType .closed 0 "closed" (env.clock (s.clockReads + 3)).ms ]
        clockReads := s.clockReads + 4 } := by
  have h0 : simulateGateSequence env s gateType =
      { s with
        gateStatus := s.gateStatus.set gateType .opening
        published := s.published ++
          [gatePhaseMessage gateType .opening 45 "opening" (env.clock s.clockReads).ms]
        clockReads := s.clockReads + 1
        timers := s.timers ++ [{ delay := 2000, gateType := gateType, stage := .opened }] } := by
    simp [simulateGateSequence, setTimeout, publishGatePhase_spec]
  have h1 : ∀ (s1 : State) (delay : Nat),
      runTimer env s1 { delay := delay, gateType := gateType, stage := .opened } =
        { s1 with
          gateStatus := s1.gateStatus.set gateType .open
          published := s1.published ++
            [gatePhaseMessage gateType .open 90 "opened" (env.clock s1.clockReads).ms]
          clockReads := s1.clockReads + 1
          timers := s1.timers ++ [{ delay := 4000, gateType := gateType, stage := .closing }] } ∧
      runTimer env s1 { delay := delay, gateType := gateType, stage := .closing } =
        { s1 with
          gateStatus := s1.gateStatus.set gateType .closing
          published := s1.published ++
            [gatePhaseMessage gateType .closing 45 "closing" (env.clock s1.clockReads).ms]
          clockReads := s1.clockReads + 1
          timers := s1.timers ++ [{ delay := 2000, gateType := gateType, stage := .closed }] } ∧
      runTimer env s1 { delay := delay, gateType := gateType, stage := .closed } =
        { s1 with
          gateStatus := s1.gateStatus.set gateType .closed
          published := s1.published ++
            [gatePhaseMessage gateType .closed 0 "closed" (env.clock s1.clockReads).ms]
          clockReads := s1.clockReads + 1 } := by
    intro s1 delay
    simp [runTimer, setTimeout, publishGatePhase_spec]
  have hstep : ∀ (s1 : State) (t : Timer), s1.timers = s.timers ++ [t] →
      step env s1 (.timeout s.timers.length) = runTimer env { s1 with timers := s.timers } t :=
    fun s1 t h => step_timeout_last env s1 t s.timers h
  have r1 : run env (simulateGateSequence env s gateType) [.timeout s.timers.length] =
      { s with
        gateStatus := s.gateStatus.set gateType .open
        published := s.published ++
          [ gatePhaseMessage gateType .opening 45 "opening" (env.clock s.clockReads).ms,
            gatePhaseMessage gateType .open 90 "opened" (env.clock (s.clockReads + 1)).ms ]
        clockReads := s.clockReads + 2
        timers := s.timers ++ [{ delay := 4000, gateType := gateType, stage := .closing }] } := by
    rw [run, List.foldl_cons, List.foldl_nil, hstep _ _ (by rw [h0]), (h1 _ _).1, h0]
    simp [gateStatus_set_set]
  have r2 : run env (simulateGateSequence env s gateType)
        [.timeout s.timers.length, .timeout s.timers.length] =
      { s with
        gateStatus := s.gateStatus.set gateType .closing
        published := s.published ++
          [ gatePhaseMessage gateType .opening 45 "opening" (env.clock s.clockReads).ms,
            gatePhaseMessage gateType .open 90 "opened" (env.clock (s.clockReads + 1)).ms,
            gatePhaseMessage gateType .closing 45 "closing" (env.clock (s.clockReads + 2)).ms ]
        clockReads := s.clockReads + 3
        timers := s.timers ++ [{ delay := 2000, gateType := gateType, stage := .closed }] } := by
    have : run env (simulateGateSequence env s gateType)
        [.timeout s.timers.length, .timeout s.timers.length] =
        step env (run env (simulateGateSequence env s gateType) [.timeout s.timers.length])
          (.timeout s.timers.length) := rfl
    rw [this, r1, hstep _ _ rfl, (h1 _ _).2.1]
    simp [gateStatus_set_set]
  have r3 : run env (simulateGateSequence env s gateType)
        [.timeout s.timers.length, .timeout s.timers.length, .timeout s.timers.length] =
      { s with
        gateStatus := s.gateStatus.set gateType .closed
        published := s.published ++
          [ gatePhaseMessage gateType .opening 45 "opening" (env.clock s.clockReads).ms,
            gatePhaseMessage gateType .open 90 "opened" (env.clock (s.clockReads + 1)).ms,
            gatePhaseMessage gateType .closing 45 "closing" (env.clock (s.clockReads + 2)).ms,
            gatePhaseMessage gateType .closed 0 "closed" (env.clock (s.clockReads + 3)).ms ]
        clockReads := s.clockReads + 4 } := by
    have : run env (simulateGateSequence env s gateType)
        [.timeout s.timers.length, .timeout s.timers.length, .timeout s.timers.length] =
        step env (run env (simulateGateSequence env s gateType)
          [.timeout s.timers.length, .timeout s.timers.length])
          (.timeout s.timers.length) := rfl
    rw [this, r2, hstep _ _ rfl, (h1 _ _).2.2]
    simp [gateStatus_set_set]
  refine ⟨h0, h1, ?_, r3⟩
  have e0 : run env (simulateGateSequence env s gateType) [] =
      simulateGateSequence env s gateType := rfl
  simp only [List.range, List.range.loop, List.map, List.replicate, e0, r1, r2, r3]
  simp [h0, gateStatus_get_set]

/-! ### The consumer: topics outside the list, payloads that are no records -/

theorem processGateTopic_skip (d : MqttData) (topic : Str) (payload : JsValue)
    (h : (startsWith topic "parking/gates/".toList && endsWith topic "/status".toList) = false) :
    processGateTopic d topic payload = .ok d := by
  simp only [processGateTopic, h, Bool.false_eq_true, if_false]
  rfl

theorem processStatsTopic_skip (d : MqttData) (topic : Str) (payload : JsValue)
    (h : topic ≠ "parking/stats/summary".toList) :
    processStatsTopic d topic payload = .ok d := by
  simp only [processStatsTopic, h, if_false]
  rfl

theorem processHourlyTopic_skip (d : MqttData) (topic : Str) (payload : JsValue)
    (h : topic ≠ "parking/analytics/hourly".toList) :
    processHourlyTopic d topic payload = d := by
  simp only [processHourlyTopic, h, if_false]

theorem processSpaceTopic_skip (d : MqttData) (topic : Str) (payload : JsValue)
    (h : (startsWith topic "parking/spaces/".toList && endsWith topic "/status".toList) = false ∨
      findSpaceIndex d.parkingSpaces (parseIntAt (split '/' topic) 2) = none) :
    processSpaceTopic d topic payload = .ok d := by
  unfold processSpaceTopic
  rcases h with h | h
  · simp only [h, Bool.false_eq_true, if_false]
    rfl
  · by_cases hc : (startsWith topic "parking/spaces/".toList &&
        endsWith topic "/status".toList) = true
    · simp only [hc, if_true]
      cases hid : parseIntAt (split '/' topic) 2 with
      | none => rfl
      | some id =>
        rw [hid] at h
        simp only [h]
        rfl
    · simp only [hc, Bool.false_eq_true, if_false]
      rfl

/-- C21, counterexample: `parking/gates/foo/status` is none of the listed
    topics, yet `processMessage` stores the payload's record under the new key
    `foo` of `gates`, whose keys were `entry` and `exit`. -/
theorem unlisted_gate_topic_counterexample :
    "parking/gates/foo/status".toList ∉ listedTopics ∧
    (initialData env0).gates.map Prod.fst = ["entry".toList, "exit".toList] ∧
    ∃ d : MqttData,
      processMessage (initialData env0) "parking/gates/foo/status".toList openedGatePayload
        ⟨0, 0⟩ = .ok d ∧
      d.gates.map Prod.fst = ["entry".toList, "exit".toList, "foo".toList] :=
  ⟨by decide, rfl, _, rfl, rfl⟩

/-- C21, amended: for every projection, every payload and every topic that
    (a) does not both start with `parking/gates/` and end with `/status`,
    (b) is neither `parking/stats/summary` nor `parking/analytics/hourly`, and
    (c) does not both start with `parking/spaces/` and end with `/status`, or
    has a third segment that `parseInt` reads as no id of a space of the
    projection, `processMessage` raises no error and returns the projection
    with `parkingSpaces`, `gates` (its keys included), `systemStats` and
    `hourlyData` unchanged: only `lastUpdate` is set. -/
theorem processMessage_unmatched_topic (prev : MqttData) (topic : Str) (payload : JsValue)
    (now : Date)
    (hg : (startsWith topic "parking/gates/".toList && endsWith topic "/status".toList) = false)
    (hs : topic ≠ "parking/stats/summary".toList)
    (hh : topic ≠ "parking/analytics/hourly".toList)
    (hsp : (startsWith topic "parking/spaces/".toList && endsWith topic "/status".toList) = false ∨
      findSpaceIndex prev.parkingSpaces (parseIntAt (split '/' topic) 2) = none) :
    processMessage prev topic payload now = .ok { prev with lastUpdate := now } ∧
    ∀ d : MqttData, processMessage prev topic payload now = .ok d →
      d.parkingSpaces = prev.parkingSpaces ∧ d.gates = prev.gates ∧
      d.systemStats = prev.systemStats ∧ d.hourlyData = prev.hourlyData := by
  have h : processMessage prev topic payload now = .ok { prev with lastUpdate := now } := by
    have h2 : ∀ d : MqttData, processGateTopic d topic payload = .ok d :=
      fun d => processGateTopic_skip d topic payload hg
    have h3 : ∀ d : MqttData, processStatsTopic d topic payload = .ok d :=
      fun d => processStatsTopic_skip d topic payload hs
    have h4 : ∀ d : MqttData, processHourlyTopic d topic payload = d :=
      fun d => processHourlyTopic_skip d topic payload hh
    simp only [processMessage, processSpaceTopic_skip prev topic payload hsp, h2, h3, h4]
    rfl
  refine ⟨h, ?_⟩
  intro d hd
  rw [h] at hd
  cases hd
  exact ⟨rfl, rfl, rfl, rfl⟩

/-- Witness of C21: the topics `parking/unknown` and `parking/spaces/7/status`
    on the initial projection, with a `null` payload. -/
theorem processMessage_unmatched_topic_witness :
    processMessage (initialData env0) "parking/unknown".toList .null ⟨1, 0⟩ =
      .ok { initialData env0 with lastUpdate := ⟨1, 0⟩ } ∧
    processMessage (initialData env0) "parking/spaces/7/status".toList .null ⟨1, 0⟩ =
      .ok { initialData env0 with lastUpdate := ⟨1, 0⟩ } :=
  ⟨(processMessage_unmatched_topic (initialData env0) "parking/unknown".toList .null ⟨1, 0⟩
      (by decide) (by decide) (by decide) (Or.inl (by decide))).1,
    (processMessage_unmatched_topic (initialData env0) "parking/spaces/7/status".toList .null
      ⟨1, 0⟩ (by decide) (by decide) (by decide) (Or.inr (by decide))).1⟩

/-- C22: on the topic `parking/analytics/hourly`, `processMessage` assigns the
    payload to `hourlyData` whatever it is; with the raw text `offline` (a
    message that is no JSON) `hourlyData` becomes that text, no sequence. -/
theorem hourly_topic_takes_any_payload :
    (∀ (prev : MqttData) (payload : JsValue) (now : Date),
      processMessage prev "parking/analytics/hourly".toList payload now =
        .ok { prev with hourlyData := payload, lastUpdate := now }) ∧
    ∃ d : MqttData,
      processMessage (initialData env0) "parking/analytics/hourly".toList (.string "offline")
        ⟨1, 0⟩ = .ok d ∧
      d.hourlyData = .string "offline" := by
  refine ⟨?_, _, rfl, rfl⟩
  intro prev payload now
  rfl

theorem processSpaceTopic_ok (d : MqttData) (topic : Str) (payload : JsValue)
    (hu : payload ≠ .undefined) (hn : payload ≠ .null) :
    ∃ d1 : MqttData, processSpaceTopic d topic payload = .ok d1 := by
  unfold processSpaceTopic
  split
  · simp only []
    split
    · simp only [JsValue.get_ok payload _ hu hn]
      exact ⟨_, rfl⟩
    · exact ⟨_, rfl⟩
  · exact ⟨_, rfl⟩

theorem processGateTopic_ok (d : MqttData) (topic : Str) (payload : JsValue)
    (hu : payload ≠ .undefined) (hn : payload ≠ .null) :
    ∃ d1 : MqttData, processGateTopic d topic payload = .ok d1 := by
  unfold processGateTopic
  split
  · split
    · simp only [JsValue.get_ok payload _ hu hn]
      exact ⟨_, rfl⟩
    · exact ⟨_, rfl⟩
  · exact ⟨_, rfl⟩

theorem processStatsTopic_ok (d : MqttData) (topic : Str) (payload : JsValue)
    (hu : payload ≠ .undefined) (hn : payload ≠ .null) :
    ∃ d1 : MqttData, processStatsTopic d topic payload = .ok d1 := by
  unfold processStatsTopic
  split
  · simp only [JsValue.get_ok payload _ hu hn]
    exact ⟨_, rfl⟩
  · exact ⟨_, rfl⟩

/-- C23: a `null` payload, which `JSON.parse` yields for the message text
    `null`, makes the updater of `processMessage` throw on the statistics
    topic and on a gate topic for every projection, and on the topic of an
    existing space; a payload other than `null` and `undefined` gives a
    projection on every topic. -/
theorem processMessage_null_payload :
    (∀ (prev : MqttData) (now : Date),
      processMessage prev "parking/stats/summary".toList .null now =
        .error { message := "Cannot read properties of null (reading 'totalSpaces')" } ∧
      processMessage prev "parking/gates/entry/status".toList .null now =
        .error { message := "Cannot read properties of null (reading 'status')" }) ∧
    (∀ (env : Env) (now : Date),
      processMessage (initialData env) "parking/spaces/1/status".toList .null now =
        .error { message := "Cannot read properties of null (reading 'occupied')" }) ∧
    (∀ (prev : MqttData) (topic : Str) (payload : JsValue) (now : Date),
      payload ≠ .undefined → payload ≠ .null →
      ∃ d : MqttData, processMessage prev topic payload now = .ok d) := by
  refine ⟨?_, ?_, ?_⟩
  · intro prev now
    constructor
    · rfl
    · rfl
  · intro env now
    rfl
  · intro prev topic payload now hu hn
    obtain ⟨d1, h1⟩ := processSpaceTopic_ok prev topic payload hu hn
    obtain ⟨d2, h2⟩ := processGateTopic_ok d1 topic payload hu hn
    obtain ⟨d3, h3⟩ := processStatsTopic_ok d2 topic payload hu hn
    refine ⟨{ processHourlyTopic d3 topic payload with lastUpdate := now }, ?_⟩
    simp only [processMessage, h1]
    show (do
      let newData ← processGateTopic d1 topic payload
      let newData ← processStatsTopic newData topic payload
      pure { processHourlyTopic newData topic payload with lastUpdate := now }) = _
    rw [h2]
    show (do
      let newData ← processStatsTopic d2 topic payload
      pure { processHourlyTopic newData topic payload with lastUpdate := now }) = _
    rw [h3]
    rfl

/-- Witness of C23: a raw text on the statistics topic gives a projection. -/
theorem processMessage_null_payload_witness :
    JsValue.string "offline" ≠ .undefined ∧ JsValue.string "offline" ≠ .null ∧
    ∃ d : MqttData,
      processMessage (initialData env0) "parking/stats/summary".toList (.string "offline")
        ⟨1, 0⟩ = .ok d :=
  ⟨(by intro h; cases h), (by intro h; cases h),
    processMessage_null_payload.2.2 (initialData env0) "parking/stats/summary".toList
      (.string "offline") ⟨1, 0⟩ (by intro h; cases h) (by intro h; cases h)⟩

/-! ### The bridge: which topics of the processor it subscribes to -/

/-- C27: the space topics and the gate topics of the processor match a filter
    of the bridge (`+` matching one level); `parking/stats/summary` and
    `parking/analytics/hourly` match none, so the statistics the processor
    publishes on a statistics tick and the buckets it publishes on an hourly
    tick do not reach the bridge. -/
theorem bridge_misses_stats_and_hourly :
    bridgeReceives "parking/spaces/1/status" = true ∧
    bridgeReceives "parking/spaces/2/status" = true ∧
    bridgeReceives "parking/spaces/3/status" = true ∧
    bridgeReceives "parking/gates/entry/status" = true ∧
    bridgeReceives "parking/gates/exit/status" = true ∧
    bridgeReceives "parking/stats/summary" = false ∧
    bridgeReceives "parking/analytics/hourly" = false ∧
    ((run env0 (initialState env0) [.statsTick, .hourlyTick]).published.map
        (fun m => (m.topic, bridgeReceives m.topic))) =
      [("parking/stats/summary", false), ("parking/analytics/hourly", false)] := by
  decide

/-! ### The distances -/

theorem isDouble_le_pred_one {r : ℚ} (hd : IsDouble r) (h1 : r < 1) :
    r ≤ 1 - 1 / 2 ^ 53 := by
  by_cases hhalf : r < 1 / 2
  · have : (1 : ℚ) / 2 ≤ 1 - 1 / 2 ^ 53 := by norm_num
    linarith
  · have hge : (1 : ℚ) / 2 ≤ r := le_of_not_lt hhalf
    have habs : |r| = r := abs_of_nonneg (by linarith)
    have hk : ulpExponent r = -1 - 52 :=
      ulpExponent_eq (e := -1) (by rw [habs]; norm_num; linarith) (by rw [habs]; norm_num; linarith)
        (by norm_num)
    unfold IsDouble toDouble at hd
    rw [hk] at hd
    set m := roundHalfEven (r / 2 ^ (-1 - 52 : ℤ)) with hm
    have hp : (0 : ℚ) < 2 ^ (-1 - 52 : ℤ) := zpow_pos (by norm_num) _
    have hlt : (m : ℚ) < 2 ^ 53 := by
      have : (m : ℚ) * 2 ^ (-1 - 52 : ℤ) < 1 := by rw [hd]; exact h1
      have e : (2 : ℚ) ^ (-1 - 52 : ℤ) = 1 / 2 ^ 53 := by norm_num
      rw [e] at this
      have h2 : (0 : ℚ) < 2 ^ 53 := by positivity
      calc (m : ℚ) = m * (1 / 2 ^ 53) * 2 ^ 53 := by field_simp
        _ < 1 * 2 ^ 53 := mul_lt_mul_of_pos_right this h2
        _ = 2 ^ 53 := one_mul _
    have hlt2 : m < 2 ^ 53 := by exact_mod_cast hlt
    have hle : (m : ℚ) ≤ 2 ^ 53 - 1 := by
      have : m ≤ 2 ^ 53 - 1 := by omega
      exact_mod_cast this
    rw [← hd]
    have e : (2 : ℚ) ^ (-1 - 52 : ℤ) = 1 / 2 ^ 53 := by norm_num
    rw [e]
    calc (m : ℚ) * (1 / 2 ^ 53) ≤ (2 ^ 53 - 1) * (1 / 2 ^ 53) :=
          mul_le_mul_of_nonneg_right hle (by positivity)
      _ = 1 - 1 / 2 ^ 53 := by norm_num

theorem toDouble_nonneg {x : ℚ} (h : 0 ≤ x) (hx : |x| < 2 ^ (53 : ℤ)) : 0 ≤ toDouble x := by
  have := int_le_toDouble (a := 0) (by simpa using h) hx
  simpa using this

/-- The distance of a space that became occupied lies in 5..14. -/
theorem distance_occupied_bounds {r : ℚ} (hr : ValidDraw r) :
    5 ≤ Math.floor (Double.add (Double.mul r 10) 5) ∧
    Math.floor (Double.add (Double.mul r 10) 5) < 15 := by
  obtain ⟨hd, h0, h1⟩ := hr
  have hmax := isDouble_le_pred_one hd h1
  have hx0 : 0 ≤ r * 10 := by linarith
  have hxabs : |r * 10| = r * 10 := abs_of_nonneg hx0
  have hx53 : |r * 10| < 2 ^ (53 : ℤ) := by rw [hxabs]; norm_num; linarith
  have ha0 : 0 ≤ toDouble (r * 10) := toDouble_nonneg hx0 hx53
  have ha10 : toDouble (r * 10) ≤ 10 := by
    have := toDouble_le_int (x := r * 10) (b := 10) (by norm_num; linarith) hx53
    simpa using this
  have hy0 : 0 ≤ toDouble (r * 10) + 5 := by linarith
  have hyabs : |toDouble (r * 10) + 5| = toDouble (r * 10) + 5 := abs_of_nonneg hy0
  have hy53 : |toDouble (r * 10) + 5| < 2 ^ (53 : ℤ) := by rw [hyabs]; norm_num; linarith
  unfold Double.add Double.mul Math.floor
  constructor
  · have := int_le_toDouble (x := toDouble (r * 10) + 5) (a := 5) (by norm_num; linarith) hy53
    exact Int.le_floor.mpr this
  · have hlt : toDouble (toDouble (r * 10) + 5) < 15 := by
      by_cases h8 : r * 10 < 8
      · have ha8 : toDouble (r * 10) ≤ 8 := by
          have := toDouble_le_int (x := r * 10) (b := 8) (by norm_num; linarith) hx53
          simpa using this
        have := toDouble_le_int (x := toDouble (r * 10) + 5) (b := 13) (by norm_num; linarith) hy53
        have h13 : toDouble (toDouble (r * 10) + 5) ≤ 13 := by simpa using this
        linarith
      · have h8' : 8 ≤ r * 10 := le_of_not_lt h8
        have hk : ulpExponent (r * 10) = 3 - 52 :=
          ulpExponent_eq (e := 3) (by rw [hxabs]; norm_num; linarith)
            (by rw [hxabs]; norm_num; linarith) (by norm_num)
        have e49 : (2 : ℚ) ^ (3 - 52 : ℤ) = 1 / 2 ^ 49 := by norm_num
        have ha : toDouble (r * 10) ≤ 10 - 1 / 2 ^ 49 := by
          unfold toDouble
          rw [hk, e49]
          have hq : r * 10 / (1 / 2 ^ 49) < ((10 * 2 ^ 49 : ℤ) : ℚ) - 1 / 2 := by
            rw [div_div_eq_mul_div, div_one]
            push_cast
            nlinarith
          have := roundHalfEven_le_pred hq
          have h2 : (roundHalfEven (r * 10 / (1 / 2 ^ 49)) : ℚ) ≤ ((10 * 2 ^ 49 - 1 : ℤ) : ℚ) := by
            exact_mod_cast this
          calc (roundHalfEven (r * 10 / (1 / 2 ^ 49)) : ℚ) * (1 / 2 ^ 49)
              ≤ ((10 * 2 ^ 49 - 1 : ℤ) : ℚ) * (1 / 2 ^ 49) :=
                mul_le_mul_of_nonneg_right h2 (by positivity)
            _ = 10 - 1 / 2 ^ 49 := by push_cast; norm_num
        have ha8 : 8 ≤ toDouble (r * 10) := by
          have := int_le_toDouble (x := r * 10) (a := 8) (by norm_num; linarith) hx53
          simpa using this
        have hk2 : ulpExponent (toDouble (r * 10) + 5) = 3 - 52 :=
          ulpExponent_eq (e := 3) (by rw [hyabs]; norm_num; linarith)
            (by rw [hyabs]; norm_num; linarith) (by norm_num)
        have hb : toDouble (toDouble (r * 10) + 5) ≤ 15 - 1 / 2 ^ 49 := by
          set y := toDouble (r * 10) + 5 with hy
          unfold toDouble
          rw [hk2, e49]
          have hq : y / (1 / 2 ^ 49) ≤ ((15 * 2 ^ 49 - 1 : ℤ) : ℚ) := by
            rw [div_div_eq_mul_div, div_one]
            push_cast
            nlinarith
          have := roundHalfEven_le hq
          have h2 : (roundHalfEven (y / (1 / 2 ^ 49)) : ℚ) ≤ ((15 * 2 ^ 49 - 1 : ℤ) : ℚ) := by
            exact_mod_cast this
          calc (roundHalfEven (y / (1 / 2 ^ 49)) : ℚ) * (1 / 2 ^ 49)
              ≤ ((15 * 2 ^ 49 - 1 : ℤ) : ℚ) * (1 / 2 ^ 49) :=
                mul_le_mul_of_nonneg_right h2 (by positivity)
            _ = 15 - 1 / 2 ^ 49 := by push_cast; norm_num
        have : (0 : ℚ) < 1 / 2 ^ 49 := by positivity
        linarith
    exact Int.floor_lt.mpr (by exact_mod_cast hlt)

/-- The distance of a space that became free lies in 25..40. -/
theorem distance_free_bounds {r : ℚ} (hr : ValidDraw r) :
    25 ≤ Math.floor (Double.add (Double.mul r 15) 25) ∧
    Math.floor (Double.add (Double.mul r 15) 25) ≤ 40 := by
  obtain ⟨_, h0, h1⟩ := hr
  have hx0 : 0 ≤ r * 15 := by linarith
  have hxabs : |r * 15| = r * 15 := abs_of_nonneg hx0
  have hx53 : |r * 15| < 2 ^ (53 : ℤ) := by rw [hxabs]; norm_num; linarith
  have ha0 : 0 ≤ toDouble (r * 15) := toDouble_nonneg hx0 hx53
  have ha15 : toDouble (r * 15) ≤ 15 := by
    have := toDouble_le_int (x := r * 15) (b := 15) (by norm_num; linarith) hx53
    simpa using this
  have hy0 : 0 ≤ toDouble (r * 15) + 25 := by linarith
  have hyabs : |toDouble (r * 15) + 25| = toDouble (r * 15) + 25 := abs_of_nonneg hy0
  have hy53 : |toDouble (r * 15) + 25| < 2 ^ (53 : ℤ) := by rw [hyabs]; norm_num; linarith
  unfold Double.add Double.mul Math.floor
  constructor
  · have := int_le_toDouble (x := toDouble (r * 15) + 25) (a := 25) (by norm_num; linarith) hy53
    exact Int.le_floor.mpr this
  · have := toDouble_le_int (x := toDouble (r * 15) + 25) (b := 40) (by norm_num; linarith) hy53
    have h40 : ⌊toDouble (toDouble (r * 15) + 25)⌋ ≤ ⌊((40 : ℤ) : ℚ)⌋ := Int.floor_mono this
    simpa using h40

/-- What `processSpaceChange` does to the store on a real change. -/
theorem processSpaceChange_record (env : Env) (s : State) (id : Int) (b : Bool) (space : Space)
    (h : arrayGet s.parkingSpaces (id - 1) = some space) (hne : space.occupied ≠ b) :
    processSpaceChange env s id b =
      .normal (some ⟨id, space.occupied, b, (id - 1).toNat⟩)
        { s with
          clockReads := s.clockReads + 1
          randomReads := s.randomReads + 1
          parkingSpaces := s.parkingSpaces.set (id - 1).toNat
            { space with
              occupied := b
              lastChange := env.clock s.clockReads
              distance :=
                if b then Math.floor (Double.add (Double.mul (env.random s.randomReads) 10) 5)
                else Math.floor (Double.add (Double.mul (env.random s.randomReads) 15) 25) } } := by
  unfold processSpaceChange
  simp only [h, hne, if_false, newDate, random]

theorem distanceOk_set {spaces : List Space} (h : DistanceOk spaces) (i : Nat) (space : Space)
    (hs : space.occupied = true ↔ space.distance < 15) : DistanceOk (spaces.set i space) := by
  intro x hx
  rcases List.mem_or_eq_of_mem_set hx with hx | rfl
  · exact h x hx
  · exact hs

theorem processSpaceChange_distanceOk (env : Env) (henv : env.Valid) (s : State) (id : Int)
    (b : Bool) (h : DistanceOk s.parkingSpaces) :
    DistanceOk (processSpaceChange env s id b).state.parkingSpaces := by
  cases hg : arrayGet s.parkingSpaces (id - 1) with
  | none =>
    unfold processSpaceChange
    simp only [hg]
    exact h
  | some space =>
    by_cases hb : space.occupied = b
    · unfold processSpaceChange
      simp only [hg, hb, if_true]
      exact h
    · rw [processSpaceChange_record env s id b space hg hb]
      apply distanceOk_set h
      have ho := distance_occupied_bounds (henv s.randomReads)
      have hf := distance_free_bounds (henv s.randomReads)
      cases b
      · simp only [Bool.false_eq_true, if_false, false_iff, not_lt]
        omega
      · simp only [if_true, true_iff]
        omega

theorem processSpacePairs_distanceOk (env : Env) (henv : env.Valid) (pairs : List SpacePair) :
    ∀ (s : State) (acc : List Change), DistanceOk s.parkingSpaces →
      DistanceOk (processSpacePairs env s pairs acc).state.parkingSpaces := by
  induction pairs with
  | nil => intro s acc h; exact h
  | cons p ps ih =>
    intro s acc h
    have hf := processSpaceChange_distanceOk env henv s p.spaceId p.isOccupied h
    unfold processSpacePairs
    cases hp : processSpaceChange env s p.spaceId p.isOccupied with
    | throw e s1 =>
      rw [hp] at hf
      exact hf
    | normal r s1 =>
      rw [hp] at hf
      cases r with
      | none => exact ih s1 acc hf
      | some c => exact ih s1 (acc ++ [c]) hf

theorem parseESP32Data_distanceOk (env : Env) (henv : env.Valid) (s : State) (rawData : Str)
    (h : DistanceOk s.parkingSpaces) :
    DistanceOk (parseESP32Data env s rawData).state.parkingSpaces := by
  unfold parseESP32Data
  by_cases hv : isValidESP32Format rawData = true
  · simp only [hv, Bool.not_true, Bool.false_eq_true, if_false]
    have hp := processSpacePairs_distanceOk env henv (extractSpacePairs (slice rawData 4 (-1))) s []
      h
    cases hr : processSpacePairs env s (extractSpacePairs (slice rawData 4 (-1))) [] with
    | throw e s1 =>
      rw [hr] at hp
      exact hp
    | normal changes s1 =>
      rw [hr] at hp
      simp only [Completion.state] at hp
      simp only
      split
      · simp only [Completion.state]
        rw [(publishSystemStats_frame env _).1, (foldl_publishChange_spec env changes s1).1]
        exact hp
      · exact hp
  · have hv2 : isValidESP32Format rawData = false := by simpa using hv
    simp only [hv2, Bool.not_false, if_true]
    exact h

theorem step_distanceOk (env : Env) (henv : env.Valid) (s : State) (e : Event)
    (h : DistanceOk s.parkingSpaces) : DistanceOk (step env s e).parkingSpaces := by
  cases e with
  | connect => simp only [step, publishInitialData_spaces]; exact h
  | message topic text =>
    simp only [step]
    unfold onMessage
    split
    · simp only [newDate]
      have hh : DistanceOk (handleRawData env { s with clockReads := s.clockReads + 1 }
          (trim text)).state.parkingSpaces := by
        unfold handleRawData
        split
        · exact parseESP32Data_distanceOk env henv _ _ h
        · split
          · simp only [Completion.state, parseBarrierData_spaces]
            exact h
          · exact h
      cases hp : handleRawData env { s with clockReads := s.clockReads + 1 } (trim text) with
      | normal v s1 => rw [hp] at hh; exact hh
      | throw er s1 => rw [hp] at hh; exact hh
    · exact h
  | gateTick => simp only [step, simulateGateActivity_spaces]; exact h
  | hourlyTick => simp only [step, updateHourlyData_spaces]; exact h
  | statsTick => simp only [step, (publishSystemStats_frame env s).1]; exact h
  | dailyTick => simp only [step, calculateDailyStats_spaces]; exact h
  | timeout k =>
    simp only [step]
    cases s.timers[k]? with
    | none => exact h
    | some t => simp only [runTimer_spaces]; exact h

theorem reachable_distanceOk (env : Env) (henv : env.Valid) (s : State) (h : Reachable env s) :
    DistanceOk s.parkingSpaces := by
  obtain ⟨events, rfl⟩ := h
  have : ∀ (events : List Event) (s : State), DistanceOk s.parkingSpaces →
      DistanceOk (run env s events).parkingSpaces := by
    intro events
    induction events with
    | nil => intro s hs; exact hs
    | cons e es ih =>
      intro s hs
      exact ih _ (step_distanceOk env henv s e hs)
  apply this
  intro space hsp
  simp only [initialState, List.mem_cons, List.mem_singleton, List.not_mem_nil, or_false] at hsp
  rcases hsp with rfl | rfl | rfl <;> simp

theorem validDraw_largest : ValidDraw (1 - 1 / 2 ^ 53) := by
  refine ⟨?_, by norm_num, by norm_num⟩
  unfold IsDouble
  rw [toDouble_eval (-1) (2 ^ 53 - 1) (by norm_num [abs_of_nonneg]) (by norm_num [abs_of_nonneg])
    (by norm_num) (by norm_num) (by norm_num)]
  norm_num

theorem validDraw_zero : ValidDraw 0 :=
  ⟨toDouble_zero, le_refl 0, by norm_num⟩

/-- With the largest draw the distance of a freed space is 40. -/
theorem distance_free_largest :
    Math.floor (Double.add (Double.mul (1 - 1 / 2 ^ 53) 15) 25) = 40 := by
  have h1 : Double.mul (1 - 1 / 2 ^ 53) 15 = 15 - 1 / 2 ^ 49 := by
    unfold Double.mul
    rw [toDouble_eval 3 (15 * 2 ^ 49 - 1) (by norm_num [abs_of_nonneg])
      (by norm_num [abs_of_nonneg]) (by norm_num) (by norm_num) (by norm_num)]
    norm_num
  have h2 : Double.add (15 - 1 / 2 ^ 49) 25 = 40 := by
    unfold Double.add
    rw [toDouble_eval 5 (40 * 2 ^ 47) (by norm_num [abs_of_nonneg])
      (by norm_num [abs_of_nonneg]) (by norm_num) (by norm_num) (by norm_num)]
    norm_num
  rw [h1, h2]
  show ⌊(40 : ℚ)⌋ = 40
  rw [Int.floor_eq_iff]
  norm_num

/-- C26, counterexample: `1 - 2^-53` is a double in `[0, 1)`; in the
    reachable state in which the frame `OCC:1:1;` has occupied space 1, the
    change of space 1 to free with this draw stores the distance 40, which is
    not below 40 (15 times the draw rounds to 15 - 2^-49 and adding 25 rounds to
    40); the exact value of `15·r + 25` has floor 39. -/
theorem distance_free_counterexample :
    ValidDraw (1 - 1 / 2 ^ 53) ∧
    Reachable envLargestDraw
      (run envLargestDraw (initialState envLargestDraw)
        [.message "esp32/data" "OCC:1:1;".toList]) ∧
    flagOf (run envLargestDraw (initialState envLargestDraw)
      [.message "esp32/data" "OCC:1:1;".toList]) 1 = some true ∧
    ((processSpaceChange envLargestDraw
        (run envLargestDraw (initialState envLargestDraw)
          [.message "esp32/data" "OCC:1:1;".toList]) 1 false).state.parkingSpaces.map
      (fun space => (space.occupied, space.distance)))[0]? = some (false, 40) ∧
    ¬ ((40 : Int) < 40) ∧
    ⌊((1 : ℚ) - 1 / 2 ^ 53) * 15 + 25⌋ = 39 := by
  refine ⟨validDraw_largest, ⟨_, rfl⟩, by decide, ?_, by decide, ?_⟩
  · have hwf : WellFormed (run envLargestDraw (initialState envLargestDraw)
        [.message "esp32/data" "OCC:1:1;".toList]) := by decide
    have hflag : (run envLargestDraw (initialState envLargestDraw)
        [.message "esp32/data" "OCC:1:1;".toList]).parkingSpaces.map
        (fun space => space.occupied) = [true, false, false] := by decide
    obtain ⟨x, y, z, hps, _⟩ := wellFormed_cases hwf
    rw [hps] at hflag
    simp only [List.map_cons, List.map_nil, List.cons.injEq, and_true] at hflag
    have hget : arrayGet (run envLargestDraw (initialState envLargestDraw)
        [.message "esp32/data" "OCC:1:1;".toList]).parkingSpaces ((1 : Int) - 1) = some x := by
      rw [hps]; rfl
    rw [processSpaceChange_record _ _ 1 false x hget (by rw [hflag.1]; decide)]
    simp only [Completion.state, hps]
    have hr : envLargestDraw.random
        (run envLargestDraw (initialState envLargestDraw)
          [.message "esp32/data" "OCC:1:1;".toList]).randomReads = 1 - 1 / 2 ^ 53 := rfl
    rw [hr]
    simp only [Bool.false_eq_true, if_false, distance_free_largest]
    simp
  · rw [Int.floor_eq_iff]
    norm_num

/-- C26, amended: for every real change to a space and every draw `r` that is
    a double in `[0, 1)`, `processSpaceChange` stores as the distance
    `Math.floor(r * 10 + 5)` evaluated in double arithmetic, an integer in
    `[5, 15)`, when the space becomes occupied, and `Math.floor(r * 15 + 25)`
    evaluated in double arithmetic, an integer in `[25, 40]`, when it becomes
    free; consequently, with such draws, in every state reachable from the
    initial state a space is occupied exactly when its distance is below 15. -/
theorem processSpaceChange_distance (env : Env) (henv : env.Valid) :
    (∀ (s : State) (id : Int) (b : Bool) (space : Space),
      arrayGet s.parkingSpaces (id - 1) = some space → space.occupied ≠ b →
      ∃ d : Int,
        (processSpaceChange env s id b).state.parkingSpaces =
          s.parkingSpaces.set (id - 1).toNat
            { space with occupied := b, lastChange := env.clock s.clockReads, distance := d } ∧
        (b = true →
          d = Math.floor (Double.add (Double.mul (env.random s.randomReads) 10) 5) ∧
          5 ≤ d ∧ d < 15) ∧
        (b = false →
          d = Math.floor (Double.add (Double.mul (env.random s.randomReads) 15) 25) ∧
          25 ≤ d ∧ d ≤ 40)) ∧
    (∀ s : State, Reachable env s →
      ∀ space ∈ s.parkingSpaces, (space.occupied = true ↔ space.distance < 15)) := by
  refine ⟨?_, fun s h => reachable_distanceOk env henv s h⟩
  intro s id b space hg hne
  rw [processSpaceChange_record env s id b space hg hne]
  have ho := distance_occupied_bounds (henv s.randomReads)
  have hf := distance_free_bounds (henv s.randomReads)
  refine ⟨_, rfl, ?_, ?_⟩
  · intro hb
    subst hb
    exact ⟨rfl, ho⟩
  · intro hb
    subst hb
    exact ⟨rfl, hf⟩

/-- Witness of C26: the environment whose draws are all 0; the change of
    space 1 of the initial store to occupied stores a distance in `[5, 15)`. -/
theorem processSpaceChange_distance_witness :
    env0.Valid ∧
    ∃ d : Int,
      (processSpaceChange env0 (initialState env0) 1 true).state.parkingSpaces =
        (initialState env0).parkingSpaces.set 0
          { id := 1, occupied := true, distance := d, sensor := "ESP32-SENSOR-1",
            lastChange := env0.clock 31, realData := true } ∧
      5 ≤ d ∧ d < 15 :=
  have henv : env0.Valid := fun _ => validDraw_zero
  have h := (processSpaceChange_distance env0 henv).1 (initialState env0) 1 true
    { id := 1, occupied := false, distance := 32, sensor := "ESP32-SENSOR-1",
      lastChange := env0.clock 0, realData := true } rfl (by decide)
  ⟨henv, h.choose, h.choose_spec.1, (h.choose_spec.2.1 rfl).2⟩

/-! ### The daily mean -/

theorem calculateDailyStats_spec (s : State) (hs : WellFormed s) :
    (calculateDailyStats s).dailyData =
      { s.dailyData with
        totalOccupancyMinutes := s.dailyData.totalOccupancyMinutes + occupiedCount s.parkingSpaces
        samples := s.dailyData.samples + 1 } ∧
    (calculateDailyStats s).systemStats.averageOccupancyToday =
      some (dailyAverage (s.dailyData.totalOccupancyMinutes + occupiedCount s.parkingSpaces)
        (s.dailyData.samples + 1)) := by
  have hlen := wellFormed_length hs
  constructor
  · rfl
  · simp [calculateDailyStats, hlen, dailyAverage]

/-- The daily mean lies between 0 and 100 when the sum is at most three times
    the number of samples. -/
theorem dailyAverage_bounds (total samples : Nat) (h1 : 1 ≤ samples)
    (h3 : total ≤ 3 * samples) : 0 ≤ dailyAverage total samples ∧ dailyAverage total samples ≤ 100 := by
  have hn : (0 : ℚ) < samples := by exact_mod_cast h1
  have hq0 : (0 : ℚ) ≤ (total : ℚ) / samples := by positivity
  have hq3 : (total : ℚ) / samples ≤ 3 := by
    rw [div_le_iff₀ hn]
    exact_mod_cast h3
  have b1 : |(total : ℚ) / samples| < 2 ^ (53 : ℤ) := by
    rw [abs_of_nonneg hq0]; norm_num; linarith
  have x0 : 0 ≤ toDouble ((total : ℚ) / samples) := toDouble_nonneg hq0 b1
  have x3 : toDouble ((total : ℚ) / samples) ≤ 3 := by
    have := toDouble_le_int (x := (total : ℚ) / samples) (b := 3) (by simpa using hq3) b1
    simpa using this
  have b2 : |toDouble ((total : ℚ) / samples) / 3| < 2 ^ (53 : ℤ) := by
    rw [abs_of_nonneg (by positivity)]; norm_num; linarith
  have y0 : 0 ≤ toDouble (toDouble ((total : ℚ) / samples) / 3) :=
    toDouble_nonneg (by positivity) b2
  have y1 : toDouble (toDouble ((total : ℚ) / samples) / 3) ≤ 1 := by
    have := toDouble_le_int (x := toDouble ((total : ℚ) / samples) / 3) (b := 1)
      (by norm_num; linarith) b2
    simpa using this
  have b3 : |toDouble (toDouble ((total : ℚ) / samples) / 3) * 100| < 2 ^ (53 : ℤ) := by
    rw [abs_of_nonneg (by positivity)]; norm_num; linarith
  have z0 : 0 ≤ toDouble (toDouble (toDouble ((total : ℚ) / samples) / 3) * 100) :=
    toDouble_nonneg (by positivity) b3
  have z100 : toDouble (toDouble (toDouble ((total : ℚ) / samples) / 3) * 100) ≤ 100 := by
    have := toDouble_le_int (x := toDouble (toDouble ((total : ℚ) / samples) / 3) * 100)
      (b := 100) (by norm_num; linarith) b3
    simpa using this
  unfold dailyAverage Double.mul Double.div
  rw [Math.round_eq_floor]
  constructor
  · exact Int.le_floor.mpr (by push_cast; linarith)
  · have : ⌊toDouble (toDouble (toDouble ((total : ℚ) / samples) / 3) * 100) + 1 / 2⌋ < 101 :=
      Int.floor_lt.mpr (by push_cast; linarith)
    omega

theorem step_daily_other (env : Env) (s : State) (e : Event) (h : e.isDailyTick = false) :
    (step env s e).dailyData = s.dailyData ∧
    (step env s e).systemStats.averageOccupancyToday = s.systemStats.averageOccupancyToday := by
  by_cases h1 : e = .hourlyTick
  · subst h1
    simp [step, updateHourlyData, publish, newDate]
  · have h2 : e ≠ .dailyTick := by
      intro h2
      subst h2
      cases h
    have := step_aggregates env s e h1 h2
    simp only [aggregates, Prod.mk.injEq] at this
    exact ⟨this.2.1, this.2.2⟩

theorem sampledCounts_cons_other (env : Env) (s : State) (e : Event) (es : List Event)
    (h : e.isDailyTick = false) :
    sampledCounts env s (e :: es) = sampledCounts env (step env s e) es := by
  cases e <;> first | rfl | cases h

/-- The sums `calculateDailyStats` keeps are the number and the sum of the
    counts sampled, and the stored mean is the one of the last tick. -/
theorem run_daily (env : Env) (events : List Event) :
    ∀ s : State, WellFormed s →
      s.dailyData.totalOccupancyMinutes ≤ 3 * s.dailyData.samples →
      (1 ≤ s.dailyData.samples →
        s.systemStats.averageOccupancyToday =
          some (dailyAverage s.dailyData.totalOccupancyMinutes s.dailyData.samples)) →
      (run env s events).dailyData.samples =
        s.dailyData.samples + (sampledCounts env s events).length ∧
      (run env s events).dailyData.totalOccupancyMinutes =
        s.dailyData.totalOccupancyMinutes + (sampledCounts env s events).sum ∧
      (sampledCounts env s events).length = events.countP Event.isDailyTick ∧
      (∀ c ∈ sampledCounts env s events, c ≤ 3) ∧
      (run env s events).dailyData.totalOccupancyMinutes ≤
        3 * (run env s events).dailyData.samples ∧
      (1 ≤ (run env s events).dailyData.samples →
        (run env s events).systemStats.averageOccupancyToday =
          some (dailyAverage (run env s events).dailyData.totalOccupancyMinutes
            (run env s events).dailyData.samples)) := by
  induction events with
  | nil =>
    intro s _ h3 havg
    exact ⟨rfl, rfl, rfl, by simp [sampledCounts], h3, havg⟩
  | cons e es ih =>
    intro s hs h3 havg
    have hs1 := step_wellFormed env s e hs
    by_cases he : e.isDailyTick = true
    · have hed : e = .dailyTick := by cases e <;> first | rfl | cases he
      subst hed
      obtain ⟨hd, ha⟩ := calculateDailyStats_spec s hs
      have hc : occupiedCount s.parkingSpaces ≤ 3 := by
        have := occupiedCount_le_length s.parkingSpaces
        rw [wellFormed_length hs] at this
        exact this
      have hstep : step env s .dailyTick = calculateDailyStats s := rfl
      obtain ⟨i1, i2, i3, i4, i5, i6⟩ := ih (step env s .dailyTick) hs1
        (by rw [hstep, hd]; simp only; omega)
        (by intro _; rw [hstep, ha, hd])
      have hrun : run env s (Event.dailyTick :: es) = run env (step env s .dailyTick) es := rfl
      have hsc : sampledCounts env s (Event.dailyTick :: es) =
          occupiedCount s.parkingSpaces :: sampledCounts env (step env s .dailyTick) es := rfl
      rw [hrun, hsc]
      refine ⟨?_, ?_, ?_, ?_, i5, i6⟩
      · rw [i1, hstep, hd]; simp only [List.length_cons]; omega
      · rw [i2, hstep, hd]; simp only [List.sum_cons]; omega
      · rw [List.countP_cons_of_pos _ _ (by rfl), List.length_cons, i3]
      · intro c hcm
        rcases List.mem_cons.mp hcm with rfl | hcm
        · exact hc
        · exact i4 c hcm
    · have he' : e.isDailyTick = false := by simpa using he
      obtain ⟨hd, ha⟩ := step_daily_other env s e he'
      obtain ⟨i1, i2, i3, i4, i5, i6⟩ := ih (step env s e) hs1 (by rw [hd]; exact h3)
        (by intro h1; rw [ha, hd]; rw [hd] at h1; exact havg h1)
      have hrun : run env s (e :: es) = run env (step env s e) es := rfl
      rw [hrun, sampledCounts_cons_other env s e es he']
      refine ⟨by rw [i1, hd], by rw [i2, hd], ?_, i4, i5, i6⟩
      rw [List.countP_cons_of_neg _ _ (by simpa using he'), i3]

theorem roundHalfEven_error (q : ℚ) : |(roundHalfEven q : ℚ) - q| ≤ 1 / 2 := by
  have h1 := Int.floor_le q
  have h2 := Int.lt_floor_add_one q
  rcases roundHalfEven_cases q with ⟨e, hf⟩ | ⟨e, hf⟩
  · rw [e, abs_le]
    constructor <;> linarith
  · rw [e, abs_le]
    push_cast
    constructor <;> linarith

/-- Rounding to a double moves a value by at most half the spacing. -/
theorem toDouble_error {x : ℚ} {k : ℤ} (h : |x| < 2 ^ (k + 53)) (hk0 : -53 < k) :
    |toDouble x - x| ≤ 2 ^ k / 2 := by
  have hk := ulpExponent_le h hk0
  unfold toDouble
  have hp : (0 : ℚ) < 2 ^ ulpExponent x := zpow_pos (by norm_num) _
  have hu : (2 : ℚ) ^ ulpExponent x ≤ 2 ^ k := zpow_le_zpow_right₀ (by norm_num) hk
  have e : (roundHalfEven (x / 2 ^ ulpExponent x) : ℚ) * 2 ^ ulpExponent x - x =
      ((roundHalfEven (x / 2 ^ ulpExponent x) : ℚ) - x / 2 ^ ulpExponent x) *
        2 ^ ulpExponent x := by
    field_simp
  rw [e, abs_mul, abs_of_pos hp]
  calc |(roundHalfEven (x / 2 ^ ulpExponent x) : ℚ) - x / 2 ^ ulpExponent x| * 2 ^ ulpExponent x
      ≤ 1 / 2 * 2 ^ ulpExponent x := mul_le_mul_of_nonneg_right (roundHalfEven_error _) hp.le
    _ ≤ 1 / 2 * 2 ^ k := mul_le_mul_of_nonneg_left hu (by norm_num)
    _ = 2 ^ k / 2 := by ring

/-- The daily mean in double arithmetic is the rounding of the exact
    quotient, or next to it. -/
theorem dailyAverage_near_exact (total samples : Nat) (h1 : 1 ≤ samples)
    (h3 : total ≤ 3 * samples) :
    |dailyAverage total samples - Math.round ((total : ℚ) / samples / 3 * 100)| ≤ 1 := by
  have hn : (0 : ℚ) < samples := by exact_mod_cast h1
  have hq0 : (0 : ℚ) ≤ (total : ℚ) / samples := by positivity
  have hq3 : (total : ℚ) / samples ≤ 3 := by
    rw [div_le_iff₀ hn]
    exact_mod_cast h3
  have b1 : |(total : ℚ) / samples| < 2 ^ (53 : ℤ) := by
    rw [abs_of_nonneg hq0]; norm_num; linarith
  have x0 : 0 ≤ toDouble ((total : ℚ) / samples) := toDouble_nonneg hq0 b1
  have x3 : toDouble ((total : ℚ) / samples) ≤ 3 := by
    have := toDouble_le_int (x := (total : ℚ) / samples) (b := 3) (by simpa using hq3) b1
    simpa using this
  have b2 : |toDouble ((total : ℚ) / samples) / 3| < 2 ^ (53 : ℤ) := by
    rw [abs_of_nonneg (by positivity)]; norm_num; linarith
  have y0 : 0 ≤ toDouble (toDouble ((total : ℚ) / samples) / 3) :=
    toDouble_nonneg (by positivity) b2
  have y1 : toDouble (toDouble ((total : ℚ) / samples) / 3) ≤ 1 := by
    have := toDouble_le_int (x := toDouble ((total : ℚ) / samples) / 3) (b := 1)
      (by norm_num; linarith) b2
    simpa using this
  have d1 := toDouble_error (x := (total : ℚ) / samples) (k := -46)
    (by rw [abs_of_nonneg hq0]; norm_num; linarith) (by norm_num)
  have d2 := toDouble_error (x := toDouble ((total : ℚ) / samples) / 3) (k := -46)
    (by rw [abs_of_nonneg (by positivity)]; norm_num; linarith) (by norm_num)
  have d3 := toDouble_error (x := toDouble (toDouble ((total : ℚ) / samples) / 3) * 100)
    (k := -46) (by rw [abs_of_nonneg (by positivity)]; norm_num; linarith) (by norm_num)
  rw [abs_le] at d1 d2 d3
  have e46 : (2 : ℚ) ^ (-46 : ℤ) / 2 = 1 / 2 ^ 47 := by norm_num
  rw [e46] at d1 d2 d3
  have hsmall : (1 : ℚ) / 2 ^ 47 * 200 < 1 := by norm_num
  unfold dailyAverage Double.mul Double.div
  rw [Math.round_eq_floor, Math.round_eq_floor]
  set z := toDouble (toDouble (toDouble ((total : ℚ) / samples) / 3) * 100) with hz
  set y := toDouble (toDouble ((total : ℚ) / samples) / 3) with hy
  set x := toDouble ((total : ℚ) / samples) with hx
  have hup : z + 1 / 2 < ((total : ℚ) / samples / 3 * 100 + 1 / 2) + 1 := by linarith
  have hlo : ((total : ℚ) / samples / 3 * 100 + 1 / 2) < (z + 1 / 2) + 1 := by linarith
  have f1 : ⌊z + 1 / 2⌋ ≤ ⌊(total : ℚ) / samples / 3 * 100 + 1 / 2⌋ + 1 := by
    rw [← Int.floor_add_one]
    exact Int.floor_mono hup.le
  have f2 : ⌊(total : ℚ) / samples / 3 * 100 + 1 / 2⌋ ≤ ⌊z + 1 / 2⌋ + 1 := by
    rw [← Int.floor_add_one]
    exact Int.floor_mono hlo.le
  rw [abs_le]
  constructor <;> omega

/-- The double evaluation of the mean and the rounding of the exact quotient
    can differ by one: 33 over 40 samples gives 27.499999999999996, hence 27,
    where the exact value 27.5 rounds to 28. -/
theorem dailyAverage_double_below_exact :
    dailyAverage 33 40 = 27 ∧ Math.round ((33 : ℚ) / 40 / 3 * 100) = 28 := by
  constructor
  · have h1 : Double.div ((33 : Nat) : ℚ) ((40 : Nat) : ℚ) = 7430939385161318 / 2 ^ 53 := by
      unfold Double.div
      rw [toDouble_eval (-1) 7430939385161318 (by norm_num [abs_of_nonneg])
        (by norm_num [abs_of_nonneg]) (by norm_num) (by norm_num) (by norm_num)]
      norm_num
    have h2 : Double.div ((7430939385161318 : ℚ) / 2 ^ 53) 3 = 4953959590107545 / 2 ^ 54 := by
      unfold Double.div
      rw [toDouble_eval (-2) 4953959590107545 (by norm_num [abs_of_nonneg])
        (by norm_num [abs_of_nonneg]) (by norm_num) (by norm_num) (by norm_num)]
      norm_num
    have h3 : Double.mul ((4953959590107545 : ℚ) / 2 ^ 54) 100 = 7740561859543039 / 2 ^ 48 := by
      unfold Double.mul
      rw [toDouble_eval 4 7740561859543039 (by norm_num [abs_of_nonneg])
        (by norm_num [abs_of_nonneg]) (by norm_num) (by norm_num) (by norm_num)]
      norm_num
    unfold dailyAverage
    rw [h1, h2, h3, Math.round_eq_floor, Int.floor_eq_iff]
    norm_num
  · rw [Math.round_eq_floor, Int.floor_eq_iff]
    norm_num

/-- C25, counterexample: in the run `fortyTicks` (reachable: two frames and
    forty daily ticks) the samples are eleven times 3 and twenty-nine times 0,
    so `n = 40` and `S = 33`; the stored mean is 27, because `33 / 40 / 3 * 100`
    evaluates to 27.499999999999996 in doubles, while the exact value 27.5 of
    `S / n / 3 × 100` rounds to 28. -/
theorem dailyAverage_counterexample :
    Reachable env0 (run env0 (initialState env0) fortyTicks) ∧
    fortyTicks.countP Event.isDailyTick = 40 ∧
    sampledCounts env0 (initialState env0) fortyTicks =
      List.replicate 11 3 ++ List.replicate 29 0 ∧
    (sampledCounts env0 (initialState env0) fortyTicks).sum = 33 ∧
    (run env0 (initialState env0) fortyTicks).dailyData.samples = 40 ∧
    (run env0 (initialState env0) fortyTicks).dailyData.totalOccupancyMinutes = 33 ∧
    (run env0 (initialState env0) fortyTicks).systemStats.averageOccupancyToday = some 27 ∧
    Math.round ((33 : ℚ) / 40 / 3 * 100) = 28 ∧
    (27 : Int) ≠ 28 := by
  have hc : sampledCounts env0 (initialState env0) fortyTicks =
      List.replicate 11 3 ++ List.replicate 29 0 := by decide
  obtain ⟨i1, i2, i3, _, _, i6⟩ := run_daily env0 fortyTicks (initialState env0) rfl
    (by simp [initialState]) (by intro h; simp [initialState] at h)
  have hn : (run env0 (initialState env0) fortyTicks).dailyData.samples = 40 := by
    rw [i1, hc]; rfl
  have hs : (run env0 (initialState env0) fortyTicks).dailyData.totalOccupancyMinutes = 33 := by
    rw [i2, hc]; rfl
  refine ⟨⟨_, rfl⟩, by decide, hc, by rw [hc]; rfl, hn, hs, ?_,
    dailyAverage_double_below_exact.2, by decide⟩
  rw [i6 (by rw [hn]; decide), hn, hs, dailyAverage_double_below_exact.1]

/-- C25, amended: along every run from the initial state the sample count is
    the number of daily ticks so far and the sum is the sum of the
    occupied-space counts sampled at those ticks (each at most 3); once a tick
    has happened the sample count is at least 1 and `averageOccupancyToday` is
    `Math.round(S / n / 3 * 100)` as the code's double arithmetic evaluates it
    (both divisions and the multiplication rounded to a double), a value
    between 0 and 100 that differs by at most one from the rounding of the
    exact `S / n / 3 × 100`; a tick itself raises the sample count to at least
    1; an occupancy frame changes neither the sample count, nor the sum, nor
    the stored mean, in any state. -/
theorem calculateDailyStats_running_mean (env : Env) (events : List Event) :
    (run env (initialState env) events).dailyData.samples =
      events.countP Event.isDailyTick ∧
    (sampledCounts env (initialState env) events).length = events.countP Event.isDailyTick ∧
    (run env (initialState env) events).dailyData.totalOccupancyMinutes =
      (sampledCounts env (initialState env) events).sum ∧
    (∀ c ∈ sampledCounts env (initialState env) events, c ≤ 3) ∧
    (1 ≤ events.countP Event.isDailyTick →
      1 ≤ (run env (initialState env) events).dailyData.samples ∧
      ∃ a : Int,
        (run env (initialState env) events).systemStats.averageOccupancyToday = some a ∧
        a = Math.round
          (Double.mul
            (Double.div
              (Double.div ((sampledCounts env (initialState env) events).sum : ℚ)
                (events.countP Event.isDailyTick : ℚ))
              3)
            100) ∧
        0 ≤ a ∧ a ≤ 100 ∧
        |a - Math.round
          (((sampledCounts env (initialState env) events).sum : ℚ) /
            (events.countP Event.isDailyTick : ℚ) / 3 * 100)| ≤ 1) ∧
    1 ≤ (calculateDailyStats (run env (initialState env) events)).dailyData.samples ∧
    (∀ (s : State) (rawData : Str),
      (parseESP32Data env s rawData).state.dailyData = s.dailyData ∧
      (parseESP32Data env s rawData).state.systemStats.averageOccupancyToday =
        s.systemStats.averageOccupancyToday) := by
  obtain ⟨i1, i2, i3, i4, i5, i6⟩ := run_daily env events (initialState env) rfl
    (by simp [initialState]) (by intro h; simp [initialState] at h)
  have e1 : (initialState env).dailyData.samples = 0 := rfl
  have e2 : (initialState env).dailyData.totalOccupancyMinutes = 0 := rfl
  rw [e1, Nat.zero_add] at i1
  rw [e2, Nat.zero_add] at i2
  refine ⟨i1.trans i3, i3, i2, i4, ?_, ?_, ?_⟩
  · intro h1
    have hn : 1 ≤ (run env (initialState env) events).dailyData.samples := by
      rw [i1, i3]; exact h1
    have hb := dailyAverage_bounds _ _ hn i5
    have hnear := dailyAverage_near_exact _ _ hn i5
    refine ⟨hn, _, i6 hn, ?_, hb.1, hb.2, ?_⟩
    · rw [i2, i1, i3]; rfl
    · rw [i2, i1, i3] at hnear ⊢
      exact hnear
  · show 1 ≤ (run env (initialState env) events).dailyData.samples + 1
    omega
  · intro s rawData
    have := parseESP32Data_aggregates env s rawData
    simp only [aggregates, Prod.mk.injEq] at this
    exact ⟨this.2.1, this.2.2⟩

/-- Witness of C25: a frame that occupies space 1, then two daily ticks: two
    samples of one occupied space, mean 33. -/
theorem calculateDailyStats_running_mean_witness :
    1 ≤ [Event.message "esp32/data" "OCC:1:1;".toList, .dailyTick, .dailyTick].countP
      Event.isDailyTick ∧
    sampledCounts env0 (initialState env0)
      [.message "esp32/data" "OCC:1:1;".toList, .dailyTick, .dailyTick] = [1, 1] ∧
    (run env0 (initialState env0)
      [.message "esp32/data" "OCC:1:1;".toList, .dailyTick, .dailyTick]).dailyData.samples = 2 ∧
    (run env0 (initialState env0)
      [.message "esp32/data" "OCC:1:1;".toList, .dailyTick,
        .dailyTick]).systemStats.averageOccupancyToday = some 33 := by
  have h := calculateDailyStats_running_mean env0
    [.message "esp32/data" "OCC:1:1;".toList, .dailyTick, .dailyTick]
  have hc : [Event.message "esp32/data" "OCC:1:1;".toList, .dailyTick, .dailyTick].countP
      Event.isDailyTick = 2 := by decide
  have hs : sampledCounts env0 (initialState env0)
      [.message "esp32/data" "OCC:1:1;".toList, .dailyTick, .dailyTick] = [1, 1] := by decide
  obtain ⟨_, a, ha, hval, _⟩ := h.2.2.2.2.1 (by rw [hc]; decide)
  refine ⟨by rw [hc]; decide, hs, h.1.trans hc, ?_⟩
  rw [ha, hval, hs, hc]
  have e1 : Double.div (([1, 1] : List Nat).sum : ℚ) ((2 : Nat) : ℚ) = ((1 : Nat) : ℚ) := by
    unfold Double.div
    rw [toDouble_eval 0 (2 ^ 52) (by norm_num [abs_of_nonneg]) (by norm_num [abs_of_nonneg])
      (by norm_num) (by norm_num) (by norm_num)]
    norm_num
  rw [e1, occupancyRate_double 1 (by decide)]
  rfl

/-! ### The backup hook and the processor on raw frames -/

theorem backup_extractESP32PairsLoop_eq (pairs : List Str) :
    ∀ (fuel i : Nat) (acc : List SpacePair),
      Backup.extractESP32PairsLoop pairs fuel i acc = extractSpacePairsLoop pairs fuel i acc := by
  intro fuel
  induction fuel with
  | zero => intro i acc; rfl
  | succ n ih =>
    intro i acc
    unfold Backup.extractESP32PairsLoop extractSpacePairsLoop
    by_cases hk : (i : Int) < (pairs.length : Int) - 1
    · simp only [hk, if_true]
      cases hid : parseIntAt pairs i with
      | none => simp only [ih]
      | some id => simp only [ih]
    · simp only [hk, if_false]

theorem arrayGet_three {α : Type} (xs : List α) (h : xs.length = 3) (id : Int)
    (hid : 1 ≤ id ∧ id ≤ 3) :
    ∃ x, arrayGet xs (id - 1) = some x ∧ xs[(id - 1).toNat]? = some x := by
  rcases xs with _ | ⟨a, _ | ⟨b, _ | ⟨c, _ | ⟨d, t⟩⟩⟩⟩ <;> simp at h
  have h3 : id = 1 ∨ id = 2 ∨ id = 3 := by omega
  rcases h3 with rfl | rfl | rfl
  · exact ⟨a, rfl, rfl⟩
  · exact ⟨b, rfl, rfl⟩
  · exact ⟨c, rfl, rfl⟩

theorem set_same_of_getElem? {α : Type} (l : List α) (i : Nat) (x : α) (h : l[i]? = some x) :
    l.set i x = l := by
  apply List.ext_getElem?
  intro j
  by_cases hj : i = j
  · subst hj
    rw [List.getElem?_set, h]
    simp only [if_true]
    split
    · rfl
    · rename_i hlt
      have := List.getElem?_eq_none (Nat.le_of_not_lt hlt)
      rw [h] at this
      cases this
  · simp [List.getElem?_set, hj]

/-- One pair through `processSpaceChange`, on the flags. -/
theorem processSpaceChange_flags (env : Env) (s : State) (id : Int) (b : Bool) (space : Space)
    (hs : WellFormed s) (hg : arrayGet s.parkingSpaces (id - 1) = some space)
    (hi : s.parkingSpaces[(id - 1).toNat]? = some space) :
    ∃ s1 : State,
      processSpaceChange env s id b =
        .normal (if space.occupied = b then none
                 else some ⟨id, space.occupied, b, (id - 1).toNat⟩) s1 ∧
      WellFormed s1 ∧
      s1.parkingSpaces.map (fun x => x.occupied) =
        (s.parkingSpaces.map (fun x => x.occupied)).set (id - 1).toNat b := by
  by_cases hb : space.occupied = b
  · refine ⟨s, ?_, hs, ?_⟩
    · unfold processSpaceChange
      simp only [hg, hb, if_true]
    · rw [set_same_of_getElem?]
      rw [List.getElem?_map, hi]
      simp [hb]
  · have hrec := processSpaceChange_record env s id b space hg hb
    refine ⟨(processSpaceChange env s id b).state, ?_, ?_, ?_⟩
    · rw [hrec]
      simp only [hb, if_false, Completion.state]
    · rw [hrec]
      unfold WellFormed
      simp only [Completion.state, List.map_set]
      rw [set_same_of_getElem?]
      · exact hs
      · rw [List.getElem?_map, hi]
        rfl
    · rw [hrec]
      simp only [Completion.state, List.map_set]

/-- One pair through the loop body of the backup hook, on the flags. -/
theorem backup_updateSpace_flags (env : Env) (d : Backup.MqttData) (changes : List Backup.Change)
    (id : Int) (st : Option Int) (space : Backup.ParkingSpace)
    (hg : arrayGet d.parkingSpaces (id - 1) = some space) :
    ∃ d1 : Backup.MqttData,
      Backup.updateSpace env d changes id st =
        .normal d1
          (if space.occupied = numEq st 1 then changes
           else changes ++ [⟨id, numEq st 1, space.occupied⟩]) ∧
      d1.parkingSpaces.length = d.parkingSpaces.length ∧
      d1.systemStats = d.systemStats ∧
      d1.parkingSpaces.map (fun x => x.occupied) =
        (d.parkingSpaces.map (fun x => x.occupied)).set (id - 1).toNat (numEq st 1) := by
  refine ⟨{ d with
      parkingSpaces := d.parkingSpaces.set (id - 1).toNat
        { space with
          occupied := numEq st 1
          timestamp := (env.clock d.clockReads).ms
          distance :=
            if numEq st 1 then Math.floor (Double.add (Double.mul (env.random d.randomReads) 10) 5)
            else Math.floor (Double.add (Double.mul (env.random d.randomReads) 15) 25)
          change_detected := some (space.occupied != numEq st 1)
          previous_state := some space.occupied }
      clockReads := d.clockReads + 1
      randomReads := d.randomReads + 1 }, ?_, ?_, rfl, ?_⟩
  · unfold Backup.updateSpace
    simp only [hg]
    by_cases hb : space.occupied = numEq st 1
    · simp only [hb, bne_self_eq_false, Bool.false_eq_true, if_false, if_true]
    · have hne : (space.occupied != numEq st 1) = true := by simpa using hb
      simp only [hne, if_true, hb, if_false]
  · simp
  · simp only [List.map_set]

/-- The loop of the backup hook and the processor's pass over the decoded
    pairs go in step: same flags, same changes. -/
theorem backup_loop_simulation (envP envB : Env) (pairs : List Str) :
    ∀ (fuel k : Nat) (s : State) (d : Backup.MqttData) (cP : List Change)
      (cB : List Backup.Change),
      pairs.length / 2 ≤ k + fuel → WellFormed s → d.parkingSpaces.length = 3 →
      d.parkingSpaces.map (fun x => x.occupied) = s.parkingSpaces.map (fun x => x.occupied) →
      cB.map (fun c => (c.spaceId, c.wasOccupied, c.isOccupied)) =
        cP.map (fun c => (c.spaceId, c.wasOccupied, c.isOccupied)) →
      ∃ (s1 : State) (d1 : Backup.MqttData) (cP1 : List Change) (cB1 : List Backup.Change),
        processSpacePairs envP s
          ((List.range' k (pairs.length / 2 - k)).filterMap (pairAssignment pairs)) cP =
          .normal cP1 s1 ∧
        Backup.processESP32RawDataLoop envB pairs fuel (2 * k) d cB = .normal d1 cB1 ∧
        WellFormed s1 ∧ d1.parkingSpaces.length = 3 ∧
        d1.parkingSpaces.map (fun x => x.occupied) =
          s1.parkingSpaces.map (fun x => x.occupied) ∧
        cB1.map (fun c => (c.spaceId, c.wasOccupied, c.isOccupied)) =
          cP1.map (fun c => (c.spaceId, c.wasOccupied, c.isOccupied)) ∧
        d1.systemStats = d.systemStats := by
  intro fuel
  induction fuel with
  | zero =>
    intro k s d cP cB h hs hd hf hc
    have h0 : pairs.length / 2 - k = 0 := by omega
    refine ⟨s, d, cP, cB, ?_, rfl, hs, hd, hf, hc, rfl⟩
    simp [h0, processSpacePairs]
  | succ n ih =>
    intro k s d cP cB h hs hd hf hc
    unfold Backup.processESP32RawDataLoop
    have h2 : 2 * k + 2 = 2 * (k + 1) := by ring
    by_cases hk : ((2 * k : Nat) : Int) < (pairs.length : Int) - 1
    · have hlen : pairs.length / 2 - k = (pairs.length / 2 - (k + 1)) + 1 := by omega
      rw [if_pos hk, hlen, List.range'_succ, List.filterMap_cons]
      cases hid : parseIntAt pairs (2 * k) with
      | none =>
        simp only [pairAssignment, hid]
        rw [h2]
        exact ih (k + 1) s d cP cB (by omega) hs hd hf hc
      | some id =>
        by_cases hr : 1 ≤ id ∧ id ≤ 3
        · have hin : inRange (some id) 1 3 = true := by simp [inRange, hr]
          simp only [pairAssignment, hid, hin, if_true, hr, and_self]
          obtain ⟨space, hg, hi⟩ := arrayGet_three s.parkingSpaces (wellFormed_length hs) id hr
          obtain ⟨spaceB, hgB, hiB⟩ := arrayGet_three d.parkingSpaces hd id hr
          have hocc : spaceB.occupied = space.occupied := by
            have := congrArg (fun l => l[(id - 1).toNat]?) hf
            simp only [List.getElem?_map, hi, hiB, Option.map_some', Option.some.injEq] at this
            exact this
          have hst : numEq (parseIntAt pairs (2 * k + 1)) 1 =
              decide (parseIntAt pairs (2 * k + 1) = some 1) := numEq_eq_decide _ _
          obtain ⟨s1, hP, hs1, hf1⟩ := processSpaceChange_flags envP s id
            (decide (parseIntAt pairs (2 * k + 1) = some 1)) space hs hg hi
          obtain ⟨d1, hB, hd1, hst1, hfB⟩ := backup_updateSpace_flags envB d cB id
            (parseIntAt pairs (2 * k + 1)) spaceB hgB
          rw [hst] at hB hfB
          rw [hB]
          simp only
          rw [h2]
          have hflags : d1.parkingSpaces.map (fun x => x.occupied) =
              s1.parkingSpaces.map (fun x => x.occupied) := by rw [hfB, hf1, hf]
          unfold processSpacePairs
          rw [hP]
          by_cases hb : space.occupied = decide (parseIntAt pairs (2 * k + 1) = some 1)
          · have hbB : spaceB.occupied = decide (parseIntAt pairs (2 * k + 1) = some 1) := by
              rw [hocc]; exact hb
            simp only [hb, hbB, if_true]
            obtain ⟨s2, d2, cP2, cB2, e1, e2, e3, e4, e5, e6, e7⟩ :=
              ih (k + 1) s1 d1 cP cB (by omega) hs1 (by rw [hd1]; exact hd) hflags hc
            exact ⟨s2, d2, cP2, cB2, e1, e2, e3, e4, e5, e6, e7.trans hst1⟩
          · have hbB : ¬ spaceB.occupied = decide (parseIntAt pairs (2 * k + 1) = some 1) := by
              rw [hocc]; exact hb
            simp only [hb, hbB, if_false]
            obtain ⟨s2, d2, cP2, cB2, e1, e2, e3, e4, e5, e6, e7⟩ :=
              ih (k + 1) s1 d1
                (cP ++ [⟨id, space.occupied, decide (parseIntAt pairs (2 * k + 1) = some 1),
                  (id - 1).toNat⟩])
                (cB ++ [⟨id, decide (parseIntAt pairs (2 * k + 1) = some 1), spaceB.occupied⟩])
                (by omega) hs1 (by rw [hd1]; exact hd) hflags
                (by simp only [List.map_append, hc, List.map_cons, List.map_nil, hocc])
            exact ⟨s2, d2, cP2, cB2, e1, e2, e3, e4, e5, e6, e7.trans hst1⟩
        · have hin : inRange (some id) 1 3 = false := by
            simp only [inRange, Bool.and_eq_false_iff, decide_eq_false_iff_not]
            by_cases h1 : 1 ≤ id
            · exact Or.inr (fun h3 => hr ⟨h1, h3⟩)
            · exact Or.inl h1
          simp only [pairAssignment, hid, hin, hr, if_false, Bool.false_eq_true]
          rw [h2]
          exact ih (k + 1) s d cP cB (by omega) hs hd hf hc
    · have h0 : pairs.length / 2 - k = 0 := by omega
      rw [if_neg hk, h0]
      refine ⟨s, d, cP, cB, ?_, rfl, hs, hd, hf, hc, rfl⟩
      simp [processSpacePairs]

theorem parseESP32Data_parkingSpaces (env : Env) (s : State) (rawData : Str)
    (hv : isValidESP32Format rawData = true) :
    (parseESP32Data env s rawData).state.parkingSpaces =
      (processSpacePairs env s (extractSpacePairs (slice rawData 4 (-1))) []).state.parkingSpaces := by
  unfold parseESP32Data
  simp only [hv, Bool.not_true, Bool.false_eq_true, if_false]
  cases hr : processSpacePairs env s (extractSpacePairs (slice rawData 4 (-1))) [] with
  | throw e s1 => rfl
  | normal changes s1 =>
    simp only
    split
    · simp only [Completion.state]
      rw [(publishSystemStats_frame env _).1, (foldl_publishChange_spec env changes s1).1]
    · rfl

theorem backup_newEntries (changes : List Backup.Change) :
    ∀ n : Nat,
      changes.foldl
        (fun newEntries change =>
          if !change.wasOccupied && change.isOccupied then newEntries + 1 else newEntries) n =
      n + changes.countP (fun c => !c.wasOccupied && c.isOccupied) := by
  induction changes with
  | nil => intro n; rfl
  | cons c cs ih =>
    intro n
    rw [List.foldl_cons, ih, List.countP_cons]
    by_cases hc : (!c.wasOccupied && c.isOccupied) = true
    · simp only [hc, if_true]; omega
    · simp only [hc, if_false, Bool.false_eq_true]; omega

theorem arrivals_of_triples (cB : List Backup.Change) (cP : List Change)
    (h : cB.map (fun c => (c.spaceId, c.wasOccupied, c.isOccupied)) =
      cP.map (fun c => (c.spaceId, c.wasOccupied, c.isOccupied))) :
    cB.countP (fun c => !c.wasOccupied && c.isOccupied) = arrivals cP := by
  have h1 : cB.countP (fun c => !c.wasOccupied && c.isOccupied) =
      (cB.map (fun c => (c.spaceId, c.wasOccupied, c.isOccupied))).countP
        (fun t => !t.2.1 && t.2.2) := by
    rw [List.countP_map]; rfl
  have h2 : arrivals cP =
      (cP.map (fun c => (c.spaceId, c.wasOccupied, c.isOccupied))).countP
        (fun t => !t.2.1 && t.2.2) := by
    unfold arrivals
    rw [List.countP_map]; rfl
  rw [h1, h2, h]

/-- C30: `extractESP32Pairs` of the backup hook returns the list
    `extractSpacePairs` of the processor returns, for every data section; and
    for every frame, every processor store with the spaces 1, 2, 3 and every
    backup projection with three spaces carrying the same occupied flags
    (whatever the two environments), `processESP32RawData` ends normally, as
    `parseESP32Data` does, with the same resulting flags, the same list of
    real changes (id, wasOccupied, isOccupied) and the same increment of
    `dailyEntries`. -/
theorem backup_agrees_with_processor :
    (∀ dataSection : Str, Backup.extractESP32Pairs dataSection = extractSpacePairs dataSection) ∧
    (∀ (envP envB : Env) (s : State) (d : Backup.MqttData) (rawData : Str),
      WellFormed s → d.parkingSpaces.length = 3 →
      d.parkingSpaces.map (fun x => x.occupied) = s.parkingSpaces.map (fun x => x.occupied) →
      ∃ (d1 : Backup.MqttData) (changesB : List Backup.Change) (changesP : List Change)
        (entries : Nat),
        Backup.processESP32RawData envB rawData d = .normal d1 changesB ∧
        frameChanges envP s rawData = some changesP ∧
        (parseESP32Data envP s rawData).throws = false ∧
        d1.parkingSpaces.map (fun x => x.occupied) =
          (parseESP32Data envP s rawData).state.parkingSpaces.map (fun x => x.occupied) ∧
        changesB.map (fun c => (c.spaceId, c.wasOccupied, c.isOccupied)) =
          changesP.map (fun c => (c.spaceId, c.wasOccupied, c.isOccupied)) ∧
        d1.systemStats.dailyEntries = d.systemStats.dailyEntries + entries ∧
        (parseESP32Data envP s rawData).state.systemStats.dailyEntries =
          s.systemStats.dailyEntries + entries) := by
  constructor
  · intro dataSection
    unfold Backup.extractESP32Pairs extractSpacePairs
    exact backup_extractESP32PairsLoop_eq _ _ _ _
  · intro envP envB s d rawData hs hd hf
    by_cases hv : isValidESP32Format rawData = true
    · have hv' := hv
      unfold isValidESP32Format at hv'
      simp only [Bool.and_eq_true] at hv'
      obtain ⟨s1, d1, cP1, cB1, e1, e2, e3, e4, e5, e6, e7⟩ :=
        backup_loop_simulation envP envB (split ':' (slice rawData 4 (-1)))
          (split ':' (slice rawData 4 (-1))).length 0 s d [] [] (by omega) hs hd hf rfl
      have hx : extractSpacePairs (slice rawData 4 (-1)) =
          (List.range' 0 ((split ':' (slice rawData 4 (-1))).length / 2 - 0)).filterMap
            (pairAssignment (split ':' (slice rawData 4 (-1)))) := by
        rw [extractSpacePairs_eq]
        simp only [specSpacePairs, List.range_eq_range', Nat.sub_zero]
      rw [← hx] at e1
      obtain ⟨cs, s2, hrun, hfc, _, _, _, _, hde, _⟩ := parseESP32Data_spec envP s rawData hs hv
      have hfc2 : frameChanges envP s rawData = some cP1 := by
        simp [frameChanges, hv, e1, Completion.value?]
      have hcs : cs = cP1 := by
        rw [hfc] at hfc2
        exact Option.some.inj hfc2
      subst hcs
      refine ⟨Backup.updateSystemStats envB d1 cB1, cB1, cs, arrivals cs, ?_, hfc, ?_, ?_, e6, ?_, ?_⟩
      · unfold Backup.processESP32RawData
        simp only [hv'.1, hv'.2, Bool.not_true, Bool.or_self, Bool.false_eq_true, if_false]
        simp only [Nat.mul_zero] at e2
        rw [e2]
      · rw [hrun]; rfl
      · rw [parseESP32Data_parkingSpaces envP s rawData hv, e1]
        exact e5
      · show (Backup.updateSystemStats envB d1 cB1).systemStats.dailyEntries = _
        simp only [Backup.updateSystemStats]
        rw [backup_newEntries, e7, arrivals_of_triples cB1 cs e6]
      · rw [hrun]
        exact hde
    · have hv2 : isValidESP32Format rawData = false := by simpa using hv
      have hinv := parseESP32Data_invalid envP s rawData hv2
      refine ⟨d, [], [], 0, ?_, ?_, ?_, ?_, rfl, rfl, ?_⟩
      · unfold Backup.processESP32RawData
        unfold isValidESP32Format at hv2
        have : (!startsWith rawData "OCC:".toList || !endsWith rawData ";".toList) = true := by
          generalize startsWith rawData "OCC:".toList = a at hv2 ⊢
          generalize endsWith rawData ";".toList = b at hv2 ⊢
          cases a <;> cases b <;> first | rfl | cases hv2
        simp only [this, if_true]
      · simp [frameChanges, hv2]
      · rw [hinv.1]; rfl
      · rw [hinv.1]
        exact hf
      · rw [hinv.1]
        rfl

/-- Witness of C30: the frame `OCC:1:1:2:0:3:1;` on the two initial stores. -/
theorem backup_agrees_with_processor_witness :
    WellFormed (initialState env0) ∧ (Backup.initialData env14).parkingSpaces.length = 3 ∧
    ∃ (d1 : Backup.MqttData) (changesB : List Backup.Change) (changesP : List Change)
      (entries : Nat),
      Backup.processESP32RawData env14 "OCC:1:1:2:0:3:1;".toList (Backup.initialData env14) =
        .normal d1 changesB ∧
      frameChanges env0 (initialState env0) "OCC:1:1:2:0:3:1;".toList = some changesP ∧
      (parseESP32Data env0 (initialState env0) "OCC:1:1:2:0:3:1;".toList).throws = false ∧
      d1.parkingSpaces.map (fun x => x.occupied) =
        (parseESP32Data env0 (initialState env0)
          "OCC:1:1:2:0:3:1;".toList).state.parkingSpaces.map (fun x => x.occupied) ∧
      changesB.map (fun c => (c.spaceId, c.wasOccupied, c.isOccupied)) =
        changesP.map (fun c => (c.spaceId, c.wasOccupied, c.isOccupied)) ∧
      d1.systemStats.dailyEntries = (Backup.initialData env14).systemStats.dailyEntries + entries ∧
      (parseESP32Data env0 (initialState env0)
        "OCC:1:1:2:0:3:1;".toList).state.systemStats.dailyEntries =
        (initialState env0).systemStats.dailyEntries + entries :=
  ⟨by decide, rfl,
    backup_agrees_with_processor.2 env0 env14 (initialState env0) (Backup.initialData env14)
      "OCC:1:1:2:0:3:1;".toList (by decide) rfl rfl⟩

end ParkingDashboard
